import Mathlib

/-!
# MetaHumanProject: speech session core and lip-sync post-processing

A shallow embedding of the speech state machine, the reconnection manager, the
voice-activity detector, the voice-interaction buffering logic, the lip-sync
sequence builder, the sequence post-processing and the playback synchroniser,
followed by the properties established about them.

Conventions of the embedding:

* `float` values are exact rationals (`ℚ`); every arithmetic expression of the
  source is evaluated exactly.
* `int32` counters are integers wrapped with `wrapInt32`; `unsigned` values are
  naturals reduced modulo `2 ^ 32`.
* multicast delegates (`Broadcast`) append to an explicit event log, in call
  order; timers are explicit pending flags whose expiry is a separate function.
* an out-of-bounds array access, which stops the program, is `none`.
-/

namespace MetaHuman

/-! ## Part I. Definitions -/

/-! ### SpeechStateMachine.h / SpeechStateMachine.cpp : USpeechStateMachine -/

/-- The enum `ESpeechSystemState`. -/
inductive ESpeechSystemState where
  | Uninitialized
  | Initializing
  | Ready
  | Listening
  | Processing
  | Reconnecting
  | Error
  deriving DecidableEq, Repr

/-- The enum `ESpeechErrorType`. -/
inductive ESpeechErrorType where
  | None
  | InitializationFailed
  | NetworkError
  | AudioCaptureError
  | RecognitionTimeout
  | SDKError
  | ConfigurationError
  deriving DecidableEq, Repr

/-- A broadcast made by the state machine: `OnStateChanged` or `OnErrorOccurred`. -/
inductive FStateMachineEvent where
  | StateChanged (OldState NewState : ESpeechSystemState) (Reason : String)
  | ErrorOccurred (ErrorType : ESpeechErrorType) (ErrorMessage : String)
  deriving DecidableEq, Repr

/-- The fields of `USpeechStateMachine`, with the broadcasts made so far. -/
structure USpeechStateMachine where
  CurrentState : ESpeechSystemState
  LastErrorType : ESpeechErrorType
  LastErrorMessage : String
  StateHistory : List ESpeechSystemState
  Broadcasts : List FStateMachineEvent
  deriving DecidableEq, Repr

namespace USpeechStateMachine

/-- `USpeechStateMachine::IsValidTransition`. -/
def IsValidTransition (FromState ToState : ESpeechSystemState) : Bool :=
  match FromState with
  | .Uninitialized => ToState == .Initializing || ToState == .Error
  | .Initializing => ToState == .Ready || ToState == .Error
  | .Ready => ToState == .Listening || ToState == .Error || ToState == .Reconnecting
  | .Listening =>
      ToState == .Processing || ToState == .Ready || ToState == .Error ||
        ToState == .Reconnecting
  | .Processing =>
      ToState == .Ready || ToState == .Listening || ToState == .Error ||
        ToState == .Reconnecting
  | .Reconnecting => ToState == .Ready || ToState == .Error || ToState == .Initializing
  | .Error => true

/-- `USpeechStateMachine::AddToHistory`: append, then drop the oldest entry
once more than 20 are held. -/
def AddToHistory (m : USpeechStateMachine) (State : ESpeechSystemState) :
    USpeechStateMachine :=
  let h := m.StateHistory ++ [State]
  { m with StateHistory := if h.length > 20 then h.eraseIdx 0 else h }

/-- The constructor `USpeechStateMachine::USpeechStateMachine`. -/
def construct : USpeechStateMachine :=
  AddToHistory
    { CurrentState := .Uninitialized, LastErrorType := .None, LastErrorMessage := "",
      StateHistory := [], Broadcasts := [] }
    .Uninitialized

/-- `USpeechStateMachine::ClearError`. -/
def ClearError (m : USpeechStateMachine) : USpeechStateMachine :=
  { m with LastErrorType := .None, LastErrorMessage := "" }

/-- `USpeechStateMachine::TransitionTo`: the returned flag and the machine after
the call. -/
def TransitionTo (m : USpeechStateMachine) (NewState : ESpeechSystemState)
    (Reason : String) : Bool × USpeechStateMachine :=
  if !IsValidTransition m.CurrentState NewState then
    (false, m)
  else
    let OldState := m.CurrentState
    let m1 := { m with CurrentState := NewState }
    let m2 := AddToHistory m1 NewState
    let m3 := if NewState == .Ready then ClearError m2 else m2
    (true, { m3 with Broadcasts := m3.Broadcasts ++ [.StateChanged OldState NewState Reason] })

/-- `USpeechStateMachine::CanTransitionTo`. -/
def CanTransitionTo (m : USpeechStateMachine) (NewState : ESpeechSystemState) : Bool :=
  IsValidTransition m.CurrentState NewState

/-- `USpeechStateMachine::SetError`. -/
def SetError (m : USpeechStateMachine) (ErrorType : ESpeechErrorType)
    (ErrorMessage : String) : USpeechStateMachine :=
  let m1 := { m with LastErrorType := ErrorType, LastErrorMessage := ErrorMessage }
  let m2 :=
    if m1.CurrentState != .Error then
      (TransitionTo m1 .Error ("Error: " ++ ErrorMessage)).2
    else m1
  { m2 with Broadcasts := m2.Broadcasts ++ [.ErrorOccurred ErrorType ErrorMessage] }

end USpeechStateMachine

/-- The adjacency table of the specification, section 4.4, as a list of
allowed (source, target) pairs. -/
def adjacencyTable : List (ESpeechSystemState × ESpeechSystemState) :=
  [ (.Uninitialized, .Initializing), (.Uninitialized, .Error),
    (.Initializing, .Ready), (.Initializing, .Error),
    (.Ready, .Listening), (.Ready, .Error), (.Ready, .Reconnecting),
    (.Listening, .Processing), (.Listening, .Ready), (.Listening, .Error),
    (.Listening, .Reconnecting),
    (.Processing, .Ready), (.Processing, .Listening), (.Processing, .Error),
    (.Processing, .Reconnecting),
    (.Reconnecting, .Ready), (.Reconnecting, .Error), (.Reconnecting, .Initializing),
    (.Error, .Uninitialized), (.Error, .Initializing), (.Error, .Ready),
    (.Error, .Listening), (.Error, .Processing), (.Error, .Reconnecting),
    (.Error, .Error) ]

/-! ### VoiceActivityManager.h / VoiceActivityManager.cpp : UVoiceActivityManager -/

/-- An `int32` value after an arithmetic step: two's-complement wrap-around. -/
def wrapInt32 (x : Int) : Int := (x + 2 ^ 31) % 2 ^ 32 - 2 ^ 31

/-- The enum `EVADMode`. -/
inductive EVADMode where
  | Quality
  | LowBitrate
  | Aggressive
  | VeryAggressive
  deriving DecidableEq, Repr

/-- The fields of `UVoiceActivityManager`, its three settings included. -/
structure UVoiceActivityManager where
  bIsInitialized : Bool
  bCurrentVoiceState : Bool
  bLastReportedState : Bool
  ContinuousVoiceCount : Int
  ContinuousSilenceCount : Int
  CurrentSampleRate : Int
  CurrentVADMode : EVADMode
  VoiceStartThreshold : Int
  VoiceEndThreshold : Int
  bEnableSmoothing : Bool
  deriving DecidableEq, Repr

namespace UVoiceActivityManager

/-- The constructor `UVoiceActivityManager::UVoiceActivityManager`, with the
default member initialisers of the header for the three settings. -/
def construct : UVoiceActivityManager :=
  { bIsInitialized := false, bCurrentVoiceState := false, bLastReportedState := false,
    ContinuousVoiceCount := 0, ContinuousSilenceCount := 0, CurrentSampleRate := 16000,
    CurrentVADMode := .Aggressive, VoiceStartThreshold := 3, VoiceEndThreshold := 10,
    bEnableSmoothing := true }

/-- `UVoiceActivityManager::InitializeVAD`. -/
def InitializeVAD (m : UVoiceActivityManager) (Mode : EVADMode) (SampleRate : Int) :
    Bool × UVoiceActivityManager :=
  if SampleRate != 8000 && SampleRate != 16000 && SampleRate != 32000 &&
      SampleRate != 48000 then
    (false, m)
  else
    (true,
      { m with
        CurrentVADMode := Mode, CurrentSampleRate := SampleRate,
        bCurrentVoiceState := false, bLastReportedState := false,
        ContinuousVoiceCount := 0, ContinuousSilenceCount := 0,
        bIsInitialized := true })

/-- `UVoiceActivityManager::SetVADMode`. -/
def SetVADMode (m : UVoiceActivityManager) (Mode : EVADMode) :
    Bool × UVoiceActivityManager :=
  (true, { m with CurrentVADMode := Mode })

/-- `UVoiceActivityManager::ResetVAD`. -/
def ResetVAD (m : UVoiceActivityManager) : Bool × UVoiceActivityManager :=
  (true,
    { m with
      bCurrentVoiceState := false, bLastReportedState := false,
      ContinuousVoiceCount := 0, ContinuousSilenceCount := 0 })

/-- The counter update at the head of `UVoiceActivityManager::UpdateVoiceActivity`
(source lines 108 to 117). -/
def countBlock (m : UVoiceActivityManager) (bVoiceDetected : Bool) : UVoiceActivityManager :=
  if bVoiceDetected then
    { m with
      ContinuousVoiceCount := wrapInt32 (m.ContinuousVoiceCount + 1),
      ContinuousSilenceCount := 0 }
  else
    { m with
      ContinuousSilenceCount := wrapInt32 (m.ContinuousSilenceCount + 1),
      ContinuousVoiceCount := 0 }

/-- The local `bNewVoiceState` of `UVoiceActivityManager::UpdateVoiceActivity`
(source lines 119 to 138), computed from the manager with updated counters. -/
def bNewVoiceState (m : UVoiceActivityManager) (bVoiceDetected : Bool) : Bool :=
  if m.bEnableSmoothing then
    if !m.bCurrentVoiceState && decide (m.ContinuousVoiceCount ≥ m.VoiceStartThreshold) then
      true
    else if m.bCurrentVoiceState &&
        decide (m.ContinuousSilenceCount ≥ m.VoiceEndThreshold) then
      false
    else m.bCurrentVoiceState
  else bVoiceDetected

/-- `UVoiceActivityManager::UpdateVoiceActivity`: the manager after the call and
the payloads of the `OnVoiceActivityChanged` broadcasts it queued (none or one). -/
def UpdateVoiceActivity (m : UVoiceActivityManager) (bVoiceDetected : Bool) :
    UVoiceActivityManager × List Bool :=
  let m1 := countBlock m bVoiceDetected
  let bNew := bNewVoiceState m1 bVoiceDetected
  if bNew != m1.bCurrentVoiceState then
    let m2 := { m1 with bCurrentVoiceState := bNew }
    if m2.bCurrentVoiceState != m2.bLastReportedState then
      ({ m2 with bLastReportedState := m2.bCurrentVoiceState }, [m2.bCurrentVoiceState])
    else (m2, [])
  else (m1, [])

/-- The mean of the squared samples, the quantity under the square root in
`UVoiceActivityManager::CalculateAudioEnergy` (0 for an empty block). -/
def MeanSquare (AudioData : List ℚ) : ℚ :=
  if AudioData.length = 0 then 0
  else (AudioData.foldl (fun TotalEnergy Sample => TotalEnergy + Sample * Sample) 0)
    / AudioData.length

/-- The threshold selected by the `switch` of
`UVoiceActivityManager::DetectVoiceActivity`. -/
def Threshold (Mode : EVADMode) : ℚ :=
  match Mode with
  | .Quality => 15 / 1000
  | .LowBitrate => 12 / 1000
  | .Aggressive => 8 / 1000
  | .VeryAggressive => 5 / 1000

/-- `UVoiceActivityManager::DetectVoiceActivity`. The source compares
`Energy = sqrt(MeanSquare)` with the positive threshold; in exact arithmetic
that is the comparison of `MeanSquare` with the squared threshold. -/
def DetectVoiceActivity (m : UVoiceActivityManager) (AudioData : List ℚ) : Bool :=
  decide (MeanSquare AudioData > Threshold m.CurrentVADMode ^ 2)

/-- `UVoiceActivityManager::ProcessFloatAudioForVAD`: the returned flag, the
manager after the call, and the broadcasts queued. -/
def ProcessFloatAudioForVAD (m : UVoiceActivityManager) (AudioData : List ℚ) :
    Bool × UVoiceActivityManager × List Bool :=
  if !m.bIsInitialized || AudioData.length == 0 then
    (false, m, [])
  else
    let bVoiceDetected := DetectVoiceActivity m AudioData
    let r := UpdateVoiceActivity m bVoiceDetected
    (bVoiceDetected, r.1, r.2)

/-- The manager after `UpdateVoiceActivity` has been called for each
classification of `blocks`, in order. -/
def runBlocks (m : UVoiceActivityManager) (blocks : List Bool) : UVoiceActivityManager :=
  blocks.foldl (fun s b => (UpdateVoiceActivity s b).1) m

/-- The broadcasts queued per block when `UpdateVoiceActivity` is called for
each classification of `blocks`, in order: entry `i` belongs to block `i`. -/
def runTrace (m : UVoiceActivityManager) : List Bool → List (List Bool)
  | [] => []
  | b :: blocks => (UpdateVoiceActivity m b).2 :: runTrace (UpdateVoiceActivity m b).1 blocks

end UVoiceActivityManager

/-- The number of blocks at the end of `blocks` that all carry the
classification `v`: the length of the current run of `v`. -/
def trailingRun (v : Bool) (blocks : List Bool) : Nat :=
  (blocks.reverse.takeWhile (fun b => b == v)).length


/-- The invariant of the smoothed detector after the blocks `blocks`, for
thresholds `S` and `E`: while the state is Silence the voice counter is the
length of the current voice run, which is below `S`; while the state is Voice
the silence counter is the length of the current silence run, below `E`. -/
def SmoothedInv (S E : Int) (blocks : List Bool) (m : UVoiceActivityManager) : Prop :=
  m.bEnableSmoothing = true ∧ m.VoiceStartThreshold = S ∧ m.VoiceEndThreshold = E ∧
  (m.bCurrentVoiceState = false →
    m.ContinuousVoiceCount = (trailingRun true blocks : Int) ∧
      (trailingRun true blocks : Int) < S) ∧
  (m.bCurrentVoiceState = true →
    m.ContinuousSilenceCount = (trailingRun false blocks : Int) ∧
      (trailingRun false blocks : Int) < E)

/-- The scenario of the specification: 3 silent blocks, 6 voice blocks, 35
silent blocks. -/
def scenarioBlocks : List Bool :=
  List.replicate 3 false ++ List.replicate 6 true ++ List.replicate 35 false

/-- The detector of the scenario: initialised, smoothing on, start threshold 5,
end threshold 30. -/
def scenarioDetector : UVoiceActivityManager :=
  ({ UVoiceActivityManager.construct with
      bEnableSmoothing := true, VoiceStartThreshold := 5, VoiceEndThreshold := 30
    }.InitializeVAD .Aggressive 16000).2


/-! ### SpeechStateMachine.h / SpeechStateMachine.cpp : USpeechErrorRecovery -/

/-- A broadcast made by the recovery manager: `OnRecoveryAttempt`,
`OnRecoverySuccess` or `OnRecoveryFailed`. -/
inductive FRecoveryEvent where
  | RecoveryAttempt (AttemptNumber : Int)
  | RecoverySuccess
  | RecoveryFailed (Reason : String)
  deriving DecidableEq, Repr

/-- The fields of `USpeechErrorRecovery`. Of `SpeechConfig` only
`MaxReconnectAttempts` is read; `ReconnectTimerPending` tells whether the
one-shot `ReconnectTimer` is set, `hasWorld` whether `GetWorld()` is non-null. -/
structure USpeechErrorRecovery where
  MaxReconnectAttempts : Int
  bIsReconnecting : Bool
  ReconnectAttempts : Int
  ReconnectTimerPending : Bool
  hasWorld : Bool
  deriving DecidableEq, Repr

namespace USpeechErrorRecovery

/-- The constructor `USpeechErrorRecovery::USpeechErrorRecovery`, with the
default `MaxReconnectAttempts = 3` of `FSpeechSystemConfig`. -/
def construct (hasWorld : Bool) : USpeechErrorRecovery :=
  { MaxReconnectAttempts := 3, bIsReconnecting := false, ReconnectAttempts := 0,
    ReconnectTimerPending := false, hasWorld := hasWorld }

/-- `USpeechErrorRecovery::ResetReconnectState`. -/
def ResetReconnectState (r : USpeechErrorRecovery) : USpeechErrorRecovery :=
  { r with bIsReconnecting := false, ReconnectAttempts := 0 }

/-- The text built by `FString::Printf` for the failure reason. -/
def FailureReason (r : USpeechErrorRecovery) : String :=
  "Max reconnection attempts reached (" ++ toString r.MaxReconnectAttempts ++ ")"

/-- `USpeechErrorRecovery::PerformReconnectAttempt`: the manager after the call
and the broadcasts made, in order. -/
def PerformReconnectAttempt (r : USpeechErrorRecovery) :
    USpeechErrorRecovery × List FRecoveryEvent :=
  if !r.bIsReconnecting then
    (r, [])
  else
    let r1 := { r with ReconnectAttempts := wrapInt32 (r.ReconnectAttempts + 1) }
    let ev1 := [FRecoveryEvent.RecoveryAttempt r1.ReconnectAttempts]
    if r1.ReconnectAttempts ≥ r1.MaxReconnectAttempts then
      (ResetReconnectState r1, ev1 ++ [FRecoveryEvent.RecoveryFailed (FailureReason r1)])
    else if r1.hasWorld then
      ({ r1 with ReconnectTimerPending := true }, ev1)
    else (r1, ev1)

/-- `USpeechErrorRecovery::StartReconnection`. -/
def StartReconnection (r : USpeechErrorRecovery) :
    USpeechErrorRecovery × List FRecoveryEvent :=
  if r.bIsReconnecting then
    (r, [])
  else
    PerformReconnectAttempt { r with bIsReconnecting := true, ReconnectAttempts := 0 }

/-- `USpeechErrorRecovery::StopReconnection`. -/
def StopReconnection (r : USpeechErrorRecovery) : USpeechErrorRecovery :=
  if !r.bIsReconnecting then r
  else
    let r1 := if r.hasWorld then { r with ReconnectTimerPending := false } else r
    ResetReconnectState r1

/-- `USpeechErrorRecovery::HandleNetworkError`. -/
def HandleNetworkError (r : USpeechErrorRecovery) :
    Bool × USpeechErrorRecovery × List FRecoveryEvent :=
  (true, StartReconnection r)

/-- `USpeechErrorRecovery::HandleAudioError`. -/
def HandleAudioError (r : USpeechErrorRecovery) :
    Bool × USpeechErrorRecovery × List FRecoveryEvent :=
  (false, r, [])

/-- `USpeechErrorRecovery::HandleSDKError`. -/
def HandleSDKError (r : USpeechErrorRecovery) :
    Bool × USpeechErrorRecovery × List FRecoveryEvent :=
  (true, StartReconnection r)

/-- `USpeechErrorRecovery::AttemptRecovery`; the message is only logged. -/
def AttemptRecovery (r : USpeechErrorRecovery) (ErrorType : ESpeechErrorType) :
    Bool × USpeechErrorRecovery × List FRecoveryEvent :=
  match ErrorType with
  | .NetworkError => HandleNetworkError r
  | .AudioCaptureError => HandleAudioError r
  | .SDKError => HandleSDKError r
  | .RecognitionTimeout => (true, StartReconnection r)
  | .InitializationFailed => (false, r, [])
  | _ => (false, r, [])

/-- The callback of `ReconnectTimer` (the lambda given to `SetTimer`): the
timer is one-shot, so it is no longer set when its callback runs
`PerformReconnectAttempt`. -/
def ReconnectTimerFired (r : USpeechErrorRecovery) :
    USpeechErrorRecovery × List FRecoveryEvent :=
  PerformReconnectAttempt { r with ReconnectTimerPending := false }

/-- The manager and the broadcasts accumulated after `n` further firings of the
retry timer. -/
def fireTimer (n : Nat) (s : USpeechErrorRecovery × List FRecoveryEvent) :
    USpeechErrorRecovery × List FRecoveryEvent :=
  match n with
  | 0 => s
  | k + 1 =>
    let t := fireTimer k s
    ((ReconnectTimerFired t.1).1, t.2 ++ (ReconnectTimerFired t.1).2)

/-- A reconnection sequence: `StartReconnection`, then `n` firings of the retry
timer and nothing else. -/
def reconnectionSequence (r : USpeechErrorRecovery) (n : Nat) :
    USpeechErrorRecovery × List FRecoveryEvent :=
  fireTimer n (StartReconnection r)

end USpeechErrorRecovery

/-- The attempt notifications numbered `1, 2, ..., n`. -/
def attemptsUpTo (n : Nat) : List FRecoveryEvent :=
  (List.range n).map (fun i => FRecoveryEvent.RecoveryAttempt ((i : Int) + 1))


/-! ### LipSyncFrameSequence.h : FLipSyncFrame -/

/-- The struct `FLipSyncFrame`. A `ULipSyncFrameSequence` is the list of its
frames. -/
structure FLipSyncFrame where
  VisemeScores : List ℚ
  LaughterScore : ℚ
  deriving DecidableEq, Repr

/-! ### SequencePostprocessing.h / SequencePostprocessing.cpp -/

namespace SequencePostprocessing

/-- `SequencePostprocessing::Lerp`. -/
def Lerp (A B T : ℚ) : ℚ := A + T * (B - A)

/-- The assignment `Array[Index] = Value` on a `TArray`: `none` when the index
is out of range. -/
def setAt {α : Type} (Array : List α) (Index : Nat) (Value : α) : Option (List α) :=
  if Index < Array.length then some (Array.set Index Value) else none

/-- `SequencePostprocessing::Grow`. `res.SetNumZeroed(K)` needs `K ≥ 0`; the two
nested loops write `res[i * K + j]`; `res.Last() = V.Last()` needs both arrays
non-empty. -/
def Grow (V : List ℚ) (K : Int) : Option (List ℚ) :=
  if K < 0 then none
  else do
    let res0 : List ℚ := List.replicate K.toNat 0
    let res1 ← (List.range (V.length - 1)).foldlM
      (fun res i =>
        (List.range K.toNat).foldlM
          (fun res j => do
            let Vi ← V[i]?
            let Vi1 ← V[i + 1]?
            setAt res (i * K.toNat + j) (Lerp Vi Vi1 ((j : ℚ) / (K : ℚ))))
          res)
      res0
    let VLast ← V.getLast?
    if res1.length = 0 then none else setAt res1 (res1.length - 1) VLast

/-- `SequencePostprocessing::VisemesScoresValidator`: the returned flag and the
value of the reference parameter `Pos` after the call. -/
def VisemesScoresValidator (Frame : FLipSyncFrame) (CurrentPos Pos : Int) :
    Option (Bool × Int) :=
  match Frame.VisemeScores[0]? with
  | none => none
  | some Score => if Score ≠ 1 then some (true, CurrentPos) else some (false, Pos)

/-- The scanning loop shared by `GetStartInterval` and `GetEndInterval`: the
frames at the given indices are validated in order until one is accepted; the
result is the value of the reference parameter `Pos` when the loop ends. -/
def scanLoop (SequenceFrames : List FLipSyncFrame) (Pos : Int) : List Nat → Option Int
  | [] => some Pos
  | i :: rest =>
    match SequenceFrames[i]? with
    | none => none
    | some Frame =>
      match VisemesScoresValidator Frame i Pos with
      | none => none
      | some r => if r.1 then some r.2 else scanLoop SequenceFrames r.2 rest

/-- `SequencePostprocessing::GetStartInterval`: the returned flag and the values
of `Start`, `End`, `IntervalLen` after the call. The loop visits the indices
`1, 2, ..., Num - 1`. -/
def GetStartInterval (_Start End _IntervalLen : Int) (SequenceFrames : List FLipSyncFrame) :
    Option (Bool × Int × Int × Int) := do
  let End1 ← scanLoop SequenceFrames End (List.range' 1 (SequenceFrames.length - 1))
  let Start1 : Int := 1
  let IntervalLen1 := End1 - Start1
  some (decide (IntervalLen1 > 0), Start1, End1, IntervalLen1)

/-- `SequencePostprocessing::GetEndInterval`: the returned flag and the values of
`Start`, `End`, `IntervalLen` after the call. The loop visits the indices
`Num - 1, ..., 2, 1`. -/
def GetEndInterval (Start _End _IntervalLen : Int) (SequenceFrames : List FLipSyncFrame) :
    Option (Bool × Int × Int × Int) := do
  let Start1 ← scanLoop SequenceFrames Start
    (List.range' 1 (SequenceFrames.length - 1)).reverse
  let End1 : Int := (SequenceFrames.length : Int) - 1
  let IntervalLen1 := End1 - Start1
  some (decide (IntervalLen1 > 0), Start1, End1, IntervalLen1)

/-- The assignment `SequenceFrames[j].VisemeScores[i] = Value`. -/
def setScore (SequenceFrames : List FLipSyncFrame) (j i : Nat) (Value : ℚ) :
    Option (List FLipSyncFrame) := do
  let Frame ← SequenceFrames[j]?
  let Scores ← setAt Frame.VisemeScores i Value
  some (SequenceFrames.set j { Frame with VisemeScores := Scores })

/-- The index of a `TArray` element given by an `int32`: `none` when it is out
of range. -/
def toIndex (Index : Int) (Num : Nat) : Option Nat :=
  if 0 ≤ Index ∧ Index < Num then some Index.toNat else none

/-- The four-argument overload
`SequencePostprocessing::Postprocessing(StartIndex, EndIndex, IntervalLen, SequenceFrames)`.
The scores of the start and the end frame are read through references, that
is, from the sequence as it is when category `i` is reached. -/
def PostprocessingInterval (StartIndex EndIndex IntervalLen : Int)
    (SequenceFrames : List FLipSyncFrame) : Option (List FLipSyncFrame) := do
  let s ← toIndex StartIndex SequenceFrames.length
  let e ← toIndex EndIndex SequenceFrames.length
  let StartFrame ← SequenceFrames[s]?
  (List.range StartFrame.VisemeScores.length).foldlM
    (fun Frames i => do
      let StartVisemesScores ← Frames[s]?
      let EndVisemeScores ← Frames[e]?
      let Start ← StartVisemesScores.VisemeScores[i]?
      let End ← EndVisemeScores.VisemeScores[i]?
      let Interpolated ← Grow [Start, End] IntervalLen
      (List.range (e - s)).foldlM
        (fun Frames k => do
          let Value ← Interpolated[k]?
          setScore Frames (s + 1 + k) i Value)
        Frames)
    SequenceFrames

/-- The one-argument `SequencePostprocessing::Postprocessing(SequenceFrames)`:
the sequence after the call. The three locals start at `NONE_VALUE = -1` and are
shared by the two interval searches. -/
def Postprocessing (SequenceFrames : List FLipSyncFrame) : Option (List FLipSyncFrame) := do
  let NONE_VALUE : Int := -1
  let r1 ← GetStartInterval NONE_VALUE NONE_VALUE NONE_VALUE SequenceFrames
  let Frames1 ←
    if r1.1 then PostprocessingInterval r1.2.1 r1.2.2.1 r1.2.2.2 SequenceFrames
    else some SequenceFrames
  let r2 ← GetEndInterval r1.2.1 r1.2.2.1 r1.2.2.2 Frames1
  if r2.1 then PostprocessingInterval r2.2.1 r2.2.2.1 r2.2.2.2 Frames1
  else some Frames1

end SequencePostprocessing


/-! ### LipSystemComponent.h / LipSystemComponent.cpp : ULipSystemComponent -/

/-- The C function `roundf` on an exact value: to the nearest integer, halves
away from zero. -/
def roundf (x : ℚ) : Int :=
  if 0 ≤ x then Rat.floor (x + 1 / 2) else -Rat.floor (-x + 1 / 2)

/-- The conversion `static_cast<unsigned>` of an integral value: the value
itself when it is in range; out-of-range values are reduced modulo `2 ^ 32`. -/
def toUnsigned (z : Int) : Nat := (z % 2 ^ 32).toNat

/-- The conversion `static_cast<int32>` of a `float`: truncation toward zero. -/
def truncToInt32 (x : ℚ) : Int :=
  wrapInt32 (if 0 ≤ x then Rat.floor x else -Rat.floor (-x))

/-- The exponent of the leading binary digit of `n`, found by at most `fuel`
halvings: `k` with `2 ^ k ≤ n < 2 ^ (k + 1)` when `0 < n ≤ fuel`. -/
def binaryExponent : Nat → Nat → Nat
  | 0, _ => 0
  | fuel + 1, n => if n < 2 then 0 else binaryExponent fuel (n / 2) + 1

/-- The power `2 ^ e` for an integer exponent `e`. -/
def twoPow (e : Int) : ℚ :=
  if 0 ≤ e then ((2 ^ e.toNat : Nat) : ℚ) else 1 / ((2 ^ (-e).toNat : Nat) : ℚ)

/-- The `float` (IEEE 754 binary32, significand of 24 bits) nearest to an exact
value, ties going to the even significand: the rounding applied to the exact
result of a `float` operation, for results in the normal range of `float` (the
exponent range is not bounded here). -/
def toFloat (x : ℚ) : ℚ :=
  if x = 0 then 0
  else
    let a := if 0 ≤ x then x else -x
    let e0 : Int :=
      (binaryExponent a.num.natAbs a.num.natAbs : Int) - (binaryExponent a.den a.den : Int)
    let e : Int := if twoPow e0 ≤ a then e0 else e0 - 1
    let ulp := twoPow (e - 23)
    let m := a / ulp
    let f := Rat.floor m
    let r := m - (f : ℚ)
    let n : Int :=
      if r < 1 / 2 then f else if 1 / 2 < r then f + 1 else if f % 2 = 0 then f else f + 1
    if 0 ≤ x then (n : ℚ) * ulp else -((n : ℚ) * ulp)

/-- The fields of `ULipSystemComponent` read or written by the playback code.
`Sequence` is `none` for a null pointer; `VisemesReadyBroadcasts` counts the
`OnVisemesReady` broadcasts made so far. -/
structure ULipSystemComponent where
  LaughterScore : ℚ
  Visemes : List ℚ
  AdditionalFrames : List FLipSyncFrame
  bAdditionalFramesAdded : Bool
  bAudioFinished : Bool
  IntPos : Nat
  CurrentPercent : ℚ
  Sequence : Option (List FLipSyncFrame)
  VisemesReadyBroadcasts : Nat
  deriving DecidableEq, Repr

namespace ULipSystemComponent

/-- The number of entries of `VisemeNames`. -/
def VisemeNamesNum : Nat := 15

/-- The constructor `ULipSystemComponent::ULipSystemComponent`. -/
def construct : ULipSystemComponent :=
  { LaughterScore := 0, Visemes := List.replicate VisemeNamesNum 0, AdditionalFrames := [],
    bAdditionalFramesAdded := false, bAudioFinished := false, IntPos := 0,
    CurrentPercent := 0, Sequence := none, VisemesReadyBroadcasts := 0 }

/-- `ULipSystemComponent::InitNeutralPose`; `none` when `Visemes[0]` is out of
range. -/
def InitNeutralPose (c : ULipSystemComponent) : Option ULipSystemComponent :=
  match c.Visemes[0]? with
  | none => none
  | some v =>
    if v = 1 then some c
    else
      some { c with
        LaughterScore := 0,
        Visemes := (1 : ℚ) :: List.replicate (c.Visemes.length - 1) 0,
        VisemesReadyBroadcasts := c.VisemesReadyBroadcasts + 1 }

/-- The value of `Percent` after the guard at the head of
`ULipSystemComponent::OnAudioPlaybackPercent` (source lines 124 to 127). -/
def guardedPercent (c : ULipSystemComponent) (Percent : ℚ) : ℚ :=
  if c.IntPos = 0 ∧ toUnsigned (roundf Percent) = 1 then 0 else Percent

/-- The local `IntPosTmp` of `ULipSystemComponent::OnAudioPlaybackPercent`
(source lines 130 and 131) with the two products taken exactly; `Duration` is
`SoundWave->Duration`. `IntPosTmpFloat` rounds the products as `float` does. -/
def IntPosTmp (c : ULipSystemComponent) (Duration Percent : ℚ) : Nat :=
  let PlayPos := Duration * guardedPercent c Percent
  toUnsigned (roundf (PlayPos * 100))

/-- `ULipSystemComponent::OnAudioPlaybackPercent`; `Duration` is
`SoundWave->Duration`. -/
def OnAudioPlaybackPercent (c : ULipSystemComponent) (Duration Percent : ℚ) :
    Option ULipSystemComponent :=
  if c.bAudioFinished then some c
  else
    match c.Sequence with
    | none => InitNeutralPose c
    | some Seq =>
      let Percent1 := guardedPercent c Percent
      let c1 := { c with CurrentPercent := Percent1 }
      let Tmp := IntPosTmp c Duration Percent
      let c2 :=
        if Tmp ≤ c1.IntPos ∧ Tmp ≠ 0 then { c1 with IntPos := (c1.IntPos + 1) % 2 ^ 32 }
        else { c1 with IntPos := Tmp }
      if c2.IntPos ≥ Seq.length then InitNeutralPose c2
      else
        match Seq[c2.IntPos]? with
        | none => none
        | some Frame =>
          let c3 :=
            { c2 with
              LaughterScore := Frame.LaughterScore,
              Visemes := Frame.VisemeScores,
              VisemesReadyBroadcasts := c2.VisemesReadyBroadcasts + 1 }
          if truncToInt32 Percent1 = 1 then some { c3 with bAudioFinished := true }
          else some c3

/-- The local `IntPosTmp` of `ULipSystemComponent::OnAudioPlaybackPercent`
(source lines 130 and 131) as the code computes it, in `float`: `fl` is the
rounding of the exact result of a `float` multiplication to the `float` that is
stored, applied to `Duration * Percent` and to `PlayPos * 100.f`. With `fl` the
identity this is `IntPosTmp`. -/
def IntPosTmpFloat (c : ULipSystemComponent) (fl : ℚ → ℚ) (Duration Percent : ℚ) : Nat :=
  let PlayPos := fl (Duration * guardedPercent c Percent)
  toUnsigned (roundf (fl (PlayPos * 100)))

/-- `ULipSystemComponent::OnAudioPlaybackPercent` with the index computed in
`float`, each product rounded by `fl`; `Duration` is `SoundWave->Duration`.
With `fl` the identity this is `OnAudioPlaybackPercent`. -/
def OnAudioPlaybackPercentFloat (c : ULipSystemComponent) (fl : ℚ → ℚ)
    (Duration Percent : ℚ) : Option ULipSystemComponent :=
  if c.bAudioFinished then some c
  else
    match c.Sequence with
    | none => InitNeutralPose c
    | some Seq =>
      let Percent1 := guardedPercent c Percent
      let c1 := { c with CurrentPercent := Percent1 }
      let Tmp := IntPosTmpFloat c fl Duration Percent
      let c2 :=
        if Tmp ≤ c1.IntPos ∧ Tmp ≠ 0 then { c1 with IntPos := (c1.IntPos + 1) % 2 ^ 32 }
        else { c1 with IntPos := Tmp }
      if c2.IntPos ≥ Seq.length then InitNeutralPose c2
      else
        match Seq[c2.IntPos]? with
        | none => none
        | some Frame =>
          let c3 :=
            { c2 with
              LaughterScore := Frame.LaughterScore,
              Visemes := Frame.VisemeScores,
              VisemesReadyBroadcasts := c2.VisemesReadyBroadcasts + 1 }
          if truncToInt32 Percent1 = 1 then some { c3 with bAudioFinished := true }
          else some c3

/-- `ULipSystemComponent::OnAudioPlaybackFinished`. -/
def OnAudioPlaybackFinished (c : ULipSystemComponent) : ULipSystemComponent :=
  { c with bAudioFinished := true }

end ULipSystemComponent

/-- A two-frame sequence used in the examples: a pure-silence frame followed by
a frame that is not silent. -/
def exampleSequence : List FLipSyncFrame :=
  [ { VisemeScores := [1, 0], LaughterScore := 0 },
    { VisemeScores := [0, 1], LaughterScore := 0 } ]

/-- A component playing `exampleSequence` whose frame index has reached 1. -/
def examplePlayback : ULipSystemComponent :=
  { ULipSystemComponent.construct with
    Sequence := some exampleSequence, IntPos := 1, Visemes := [0, 1] }


/-! ### SpeechManager.h / SpeechManager.cpp : the recognition session -/

/-- A call made to the speech manager, with the chunk of a `WriteSpeechData`
call given before its conversion to 16-bit PCM. -/
inductive FSpeechCall where
  | StartSpeechRecognition
  | StopSpeechRecognition
  | WriteSpeechData (AudioData : List ℚ)
  deriving DecidableEq, Repr

/-- The recognition side of `USpeechManager`. The session identifier is non-empty
exactly while `bIsRecognitionActive`. The external SDK is a black box: the
outcomes of its coming `QISRSessionBegin` calls (`true` for success) and the
return codes of its coming `QISRAudioWrite` calls (0 for success) are given as
two lists, a call past the end of its list succeeding. `Calls` logs the calls
received, `SessionAudio` the chunks handed to `QISRAudioWrite`, `SpeechErrors`
counts the `OnSpeechError` broadcasts. -/
structure USpeechManager where
  bIsSDKInitialized : Bool
  bIsRecognitionActive : Bool
  SessionBeginResults : List Bool
  AudioWriteResults : List Int
  Calls : List FSpeechCall
  SessionAudio : List (List ℚ)
  SpeechErrors : Nat
  deriving DecidableEq, Repr

namespace USpeechManager

/-- `USpeechManager::StartSpeechRecognition`. -/
def StartSpeechRecognition (sm : USpeechManager) : Bool × USpeechManager :=
  let sm := { sm with Calls := sm.Calls ++ [FSpeechCall.StartSpeechRecognition] }
  if !sm.bIsSDKInitialized then
    (false, { sm with SpeechErrors := sm.SpeechErrors + 1 })
  else if sm.bIsRecognitionActive then
    (false, { sm with SpeechErrors := sm.SpeechErrors + 1 })
  else
    let ok := sm.SessionBeginResults.headD true
    let sm := { sm with SessionBeginResults := sm.SessionBeginResults.tail }
    if !ok then (false, { sm with SpeechErrors := sm.SpeechErrors + 1 })
    else (true, { sm with bIsRecognitionActive := true })

/-- The body of `USpeechManager::StopSpeechRecognition`. -/
def endSession (sm : USpeechManager) : USpeechManager :=
  if !sm.bIsRecognitionActive then sm else { sm with bIsRecognitionActive := false }

/-- `USpeechManager::StopSpeechRecognition`, which always returns true. -/
def StopSpeechRecognition (sm : USpeechManager) : USpeechManager :=
  endSession { sm with Calls := sm.Calls ++ [FSpeechCall.StopSpeechRecognition] }

/-- `USpeechManager::WriteSpeechData`, for the 16-bit conversion of `AudioData`
(empty exactly when `AudioData` is). -/
def WriteSpeechData (sm : USpeechManager) (AudioData : List ℚ) : Bool × USpeechManager :=
  let sm := { sm with Calls := sm.Calls ++ [FSpeechCall.WriteSpeechData AudioData] }
  if !sm.bIsRecognitionActive then (false, sm)
  else if AudioData.length = 0 then (false, sm)
  else
    let ret := sm.AudioWriteResults.headD 0
    let sm :=
      { sm with
        AudioWriteResults := sm.AudioWriteResults.tail,
        SessionAudio := sm.SessionAudio ++ [AudioData] }
    if ret ≠ 0 then
      if ret = 10008 then (false, endSession sm) else (false, sm)
    else (true, sm)

/-- The chunks of the `WriteSpeechData` calls received so far, in order. -/
def written (sm : USpeechManager) : List (List ℚ) :=
  sm.Calls.filterMap fun call =>
    match call with
    | .WriteSpeechData AudioData => some AudioData
    | _ => none

end USpeechManager

/-! ### VoiceInteractionComponent.h / VoiceInteractionComponent.cpp -/

/-- The fields of `UVoiceInteractionComponent` used by the buffering logic.
A null `SpeechManager` or `VADManager` is `none`. A timer handle is `true` while
its timer is set; `NewSessionTimers` and `SessionEndTimers` count the set timers
whose handles are locals. `PendingVADNotifications` holds the payloads of the
detector broadcasts queued for the game thread and not yet delivered;
`VoiceActivityBroadcasts` logs the component's own `OnVoiceActivityChanged`
broadcasts. The component is attached to a world (`GetWorld()` is non-null). -/
structure UVoiceInteractionComponent where
  bIsListening : Bool
  bCurrentVoiceActivity : Bool
  bIsBufferingVoice : Bool
  bContinuousRecognitionMode : Bool
  bVADEnabled : Bool
  VoiceBuffer : List (List ℚ)
  PreBuffer : List (List ℚ)
  PreBufferMaxChunks : Int
  PreBufferCurrentIndex : Int
  MaxBufferChunks : Int
  SpeechManager : Option USpeechManager
  VADManager : Option UVoiceActivityManager
  PendingVADNotifications : List Bool
  VoiceEndTimer : Bool
  LongSpeechTimer : Bool
  NewSessionTimers : Nat
  SessionEndTimers : Nat
  VoiceActivityBroadcasts : List Bool
  deriving DecidableEq, Repr

namespace UVoiceInteractionComponent

/-- The constructor `UVoiceInteractionComponent::UVoiceInteractionComponent`,
before `BeginPlay` has looked up the managers; `bVADEnabled` has its default
member initialiser. -/
def construct : UVoiceInteractionComponent :=
  { bIsListening := false, bCurrentVoiceActivity := false, bIsBufferingVoice := false,
    bContinuousRecognitionMode := true, bVADEnabled := true, VoiceBuffer := [],
    PreBuffer := List.replicate 10 [], PreBufferMaxChunks := 10, PreBufferCurrentIndex := 0,
    MaxBufferChunks := 3000, SpeechManager := none, VADManager := none,
    PendingVADNotifications := [], VoiceEndTimer := false, LongSpeechTimer := false,
    NewSessionTimers := 0, SessionEndTimers := 0, VoiceActivityBroadcasts := [] }

/-- `UVoiceInteractionComponent::SendAudioToSpeechRecognition`. -/
def SendAudioToSpeechRecognition (c : UVoiceInteractionComponent) (AudioData : List ℚ) :
    UVoiceInteractionComponent :=
  match c.SpeechManager with
  | none => c
  | some sm =>
    if !c.bIsListening then c
    else if 2 * AudioData.length > 0 then
      { c with SpeechManager := some (sm.WriteSpeechData AudioData).2 }
    else c

/-- The callback of the unnamed timer set by `ProcessLongSpeechSegment` (the
lambda given to `SetTimer` with `NewSessionTimer`). -/
def NewSessionTimerFired (c : UVoiceInteractionComponent) : UVoiceInteractionComponent :=
  let c := { c with NewSessionTimers := c.NewSessionTimers - 1 }
  match c.SpeechManager with
  | none => c
  | some sm =>
    if c.bCurrentVoiceActivity then
      { c with
        VoiceBuffer := [],
        SpeechManager := some sm.StartSpeechRecognition.2,
        LongSpeechTimer := true }
    else c

/-- `UVoiceInteractionComponent::ProcessLongSpeechSegment`. -/
def ProcessLongSpeechSegment (c : UVoiceInteractionComponent) : UVoiceInteractionComponent :=
  match c.SpeechManager with
  | none => c
  | some sm =>
    if !c.bIsBufferingVoice then c
    else
      let sm1 := if sm.bIsRecognitionActive then sm.StopSpeechRecognition else sm
      let c1 := { c with SpeechManager := some sm1, LongSpeechTimer := false }
      if c1.bCurrentVoiceActivity then
        { c1 with NewSessionTimers := c1.NewSessionTimers + 1 }
      else
        { c1 with VoiceBuffer := [], bIsBufferingVoice := false }

/-- The callback of `LongSpeechTimer`. -/
def LongSpeechTimerFired (c : UVoiceInteractionComponent) : UVoiceInteractionComponent :=
  let c := { c with LongSpeechTimer := false }
  if c.bIsBufferingVoice && c.bCurrentVoiceActivity then ProcessLongSpeechSegment c else c

/-- The callback of the unnamed timer set by the callback of `VoiceEndTimer`. -/
def SessionEndTimerFired (c : UVoiceInteractionComponent) : UVoiceInteractionComponent :=
  let c := { c with SessionEndTimers := c.SessionEndTimers - 1 }
  match c.SpeechManager with
  | none => c
  | some sm =>
    if sm.bIsRecognitionActive then { c with SpeechManager := some sm.StopSpeechRecognition }
    else c

/-- The callback of `VoiceEndTimer`. -/
def VoiceEndTimerFired (c : UVoiceInteractionComponent) : UVoiceInteractionComponent :=
  let c := { c with VoiceEndTimer := false }
  if !c.bCurrentVoiceActivity && c.bIsBufferingVoice then
    let c1 :=
      match c.SpeechManager with
      | none => c
      | some sm =>
        if c.VoiceBuffer.length > 0 && sm.bIsRecognitionActive then
          c.VoiceBuffer.foldl SendAudioToSpeechRecognition c
        else c
    { c1 with
      VoiceBuffer := [], bIsBufferingVoice := false,
      SessionEndTimers := c1.SessionEndTimers + 1 }
  else c

/-- One iteration of the replay loop of `OnVADActivityChangedInternal` (source
lines 559 to 565), for the loop counter `i`: the ring entry at
`(PreBufferCurrentIndex + i) % PreBufferMaxChunks` is sent and buffered when it
is not empty. `none` when the index is out of range or the modulus is 0. -/
def replayChunk (s : UVoiceInteractionComponent) (i : Nat) :
    Option UVoiceInteractionComponent :=
  if s.PreBufferMaxChunks = 0 then none
  else
    match SequencePostprocessing.toIndex
        ((wrapInt32 (s.PreBufferCurrentIndex + i)).tmod s.PreBufferMaxChunks)
        s.PreBuffer.length with
    | none => none
    | some Index =>
      match s.PreBuffer[Index]? with
      | none => none
      | some Chunk =>
        if Chunk.length > 0 then
          let s1 := SendAudioToSpeechRecognition s Chunk
          some { s1 with VoiceBuffer := s1.VoiceBuffer ++ [Chunk] }
        else some s

/-- The replay loop of `OnVADActivityChangedInternal` (source lines 557 to
566): `replayChunk` for `i = 0, ..., PreBufferMaxChunks - 1`. -/
def replayPreBuffer (c : UVoiceInteractionComponent) : Option UVoiceInteractionComponent :=
  (List.range c.PreBufferMaxChunks.toNat).foldlM replayChunk c

/-- The head of `OnVADActivityChangedInternal` (source lines 521 to 526): the
activity flag is stored and the component's own event is broadcast. -/
def noteVoiceActivity (c : UVoiceInteractionComponent) (bVoiceDetected : Bool) :
    UVoiceInteractionComponent :=
  { c with
    bCurrentVoiceActivity := bVoiceDetected,
    VoiceActivityBroadcasts := c.VoiceActivityBroadcasts ++ [bVoiceDetected] }

/-- The voice-onset branch of `OnVADActivityChangedInternal` (source lines 536
to 579), taken when voice is detected while the component is not buffering:
buffering starts with an empty voice buffer, a pending voice-end timer is
cleared, a session is started unless one is active, the pre-roll ring is
replayed and the long-speech timer is set. -/
def startVoiceBuffering (c : UVoiceInteractionComponent) (sm : USpeechManager) :
    Option UVoiceInteractionComponent :=
  let c1 := { c with bIsBufferingVoice := true, VoiceBuffer := [], VoiceEndTimer := false }
  let sm1 := if !sm.bIsRecognitionActive then sm.StartSpeechRecognition.2 else sm
  let c2 := { c1 with SpeechManager := some sm1 }
  match replayPreBuffer c2 with
  | none => none
  | some c3 => some { c3 with LongSpeechTimer := true }

/-- `UVoiceInteractionComponent::OnVADActivityChangedInternal`. -/
def OnVADActivityChangedInternal (c : UVoiceInteractionComponent) (bVoiceDetected : Bool) :
    Option UVoiceInteractionComponent :=
  let c := noteVoiceActivity c bVoiceDetected
  match c.SpeechManager with
  | none => some c
  | some sm =>
    if !c.bContinuousRecognitionMode then some c
    else if bVoiceDetected then
      if !c.bIsBufferingVoice then startVoiceBuffering c sm
      else some c
    else
      if c.bIsBufferingVoice then some { c with VoiceEndTimer := true }
      else some c

/-- The ring write of `ProcessAudioData` (source lines 646 and 647):
`PreBuffer[PreBufferCurrentIndex] = AudioData`, then the index advances modulo
the capacity. -/
def pushPreBuffer (c : UVoiceInteractionComponent) (Index : Nat) (AudioData : List ℚ) :
    UVoiceInteractionComponent :=
  { c with
    PreBuffer := c.PreBuffer.set Index AudioData,
    PreBufferCurrentIndex :=
      (wrapInt32 (c.PreBufferCurrentIndex + 1)).tmod c.PreBufferMaxChunks }

/-- The detector call of `ProcessAudioData` (source line 650): the detector
processes the block and its broadcasts are queued for the game thread. -/
def runDetector (c : UVoiceInteractionComponent) (vad : UVoiceActivityManager)
    (AudioData : List ℚ) : UVoiceInteractionComponent :=
  { c with
    VADManager := some (vad.ProcessFloatAudioForVAD AudioData).2.1,
    PendingVADNotifications :=
      c.PendingVADNotifications ++ (vad.ProcessFloatAudioForVAD AudioData).2.2 }

/-- The branch of `ProcessAudioData` taken while buffering (source lines 655 to
670): forced segmentation when the voice buffer is full, then the block is
buffered and, if the session is active, sent. -/
def bufferLiveBlock (c : UVoiceInteractionComponent) (AudioData : List ℚ) :
    UVoiceInteractionComponent :=
  let c3 :=
    if (c.VoiceBuffer.length : Int) ≥ c.MaxBufferChunks then ProcessLongSpeechSegment c
    else c
  let c4 := { c3 with VoiceBuffer := c3.VoiceBuffer ++ [AudioData] }
  match c4.SpeechManager with
  | none => c4
  | some sm4 =>
    if sm4.bIsRecognitionActive then SendAudioToSpeechRecognition c4 AudioData else c4

/-- `UVoiceInteractionComponent::ProcessAudioData`. `none` when the ring index
is out of range or the ring capacity is 0. -/
def ProcessAudioData (c : UVoiceInteractionComponent) (AudioData : List ℚ) :
    Option UVoiceInteractionComponent :=
  if AudioData.length = 0 then some c
  else
    match c.SpeechManager with
    | none => some c
    | some sm =>
      if !(c.bIsListening && c.bContinuousRecognitionMode) then some c
      else
        match c.VADManager with
        | some vad =>
          if c.bVADEnabled && vad.bIsInitialized then
            match SequencePostprocessing.toIndex c.PreBufferCurrentIndex c.PreBuffer.length with
            | none => none
            | some Index =>
              if c.PreBufferMaxChunks = 0 then none
              else
                let c2 := runDetector (pushPreBuffer c Index AudioData) vad AudioData
                if c2.bIsBufferingVoice then some (bufferLiveBlock c2 AudioData)
                else some c2
          else
            if sm.bIsRecognitionActive then some (SendAudioToSpeechRecognition c AudioData)
            else some c
        | none =>
          if sm.bIsRecognitionActive then some (SendAudioToSpeechRecognition c AudioData)
          else some c

/-- The delivery on the game thread of the oldest queued detector broadcast to
`OnVADActivityChangedInternal`. -/
def deliverVADNotification (c : UVoiceInteractionComponent) :
    Option UVoiceInteractionComponent :=
  match c.PendingVADNotifications with
  | [] => some c
  | b :: rest => OnVADActivityChangedInternal { c with PendingVADNotifications := rest } b

/-- The component after `ProcessAudioData` has been called for each block, in
order, with no other activity in between. -/
def processBlocks (c : UVoiceInteractionComponent) (blocks : List (List ℚ)) :
    Option UVoiceInteractionComponent :=
  blocks.foldlM ProcessAudioData c

/-- The chunks the component has passed to `WriteSpeechData` so far. -/
def forwarded (c : UVoiceInteractionComponent) : List (List ℚ) :=
  match c.SpeechManager with
  | none => []
  | some sm => sm.written

end UVoiceInteractionComponent


/-- A component in the middle of an utterance, used in the examples: listening
in continuous mode with an open session and an initialised detector, voice
active, buffering, and a voice buffer that already holds `MaxBufferChunks = 2`
blocks. -/
def exampleBuffering : UVoiceInteractionComponent :=
  { UVoiceInteractionComponent.construct with
    bIsListening := true, bCurrentVoiceActivity := true, bIsBufferingVoice := true,
    VoiceBuffer := [[1], [2]], MaxBufferChunks := 2,
    SpeechManager := some
      { bIsSDKInitialized := true, bIsRecognitionActive := true, SessionBeginResults := [],
        AudioWriteResults := [], Calls := [], SessionAudio := [], SpeechErrors := 0 },
    VADManager := some scenarioDetector }


/-- The state of the pre-roll ring while the component pre-buffers: listening
in VAD-gated continuous mode with speech manager `sm`, not buffering, ring of
capacity `N`; read from the current index on, the ring holds the last `N`
entries of `N` empty blocks followed by the blocks pushed so far. -/
def PreRollInv (N : Nat) (sm : USpeechManager) (pushed : List (List ℚ))
    (c : UVoiceInteractionComponent) : Prop :=
  c.bIsListening = true ∧ c.bContinuousRecognitionMode = true ∧
  c.SpeechManager = some sm ∧ c.bVADEnabled = true ∧
  (∃ vad, c.VADManager = some vad ∧ vad.bIsInitialized = true) ∧
  c.bIsBufferingVoice = false ∧ c.PreBufferMaxChunks = N ∧ c.PreBuffer.length = N ∧
  ∃ idx : Nat, c.PreBufferCurrentIndex = idx ∧ idx < N ∧
    c.PreBuffer.rotate idx = (List.replicate N [] ++ pushed).drop pushed.length

/-- The state of the component during the replay loop: the ring `buf` with
current index `idx` and capacity `N`, listening, with a speech manager. -/
def ReplayState (buf : List (List ℚ)) (idx N : Nat) (s : UVoiceInteractionComponent) : Prop :=
  s.PreBuffer = buf ∧ s.PreBufferCurrentIndex = idx ∧ s.PreBufferMaxChunks = N ∧
  s.bIsListening = true ∧ s.SpeechManager.isSome = true

/-- The recognition session of the component is open and has been handed the
chunks `audio`, and none of the coming `QISRAudioWrite` calls reports an expired
session (code 10008). -/
def SessionOpen (audio : List (List ℚ)) (s : UVoiceInteractionComponent) : Prop :=
  ∃ sm, s.SpeechManager = some sm ∧ sm.bIsRecognitionActive = true ∧
    (∀ ret ∈ sm.AudioWriteResults, ret ≠ 10008) ∧ sm.SessionAudio = audio

/-- The two components agree on the fields that neither the sending of audio
nor the voice-activity handler changes: the listening flags, the detector, the
pre-roll ring and the limit of the voice buffer. -/
def SameSetup (a b : UVoiceInteractionComponent) : Prop :=
  a.bIsListening = b.bIsListening ∧
  a.bContinuousRecognitionMode = b.bContinuousRecognitionMode ∧
  a.bVADEnabled = b.bVADEnabled ∧ a.VADManager = b.VADManager ∧
  a.PreBuffer = b.PreBuffer ∧ a.PreBufferMaxChunks = b.PreBufferMaxChunks ∧
  a.PreBufferCurrentIndex = b.PreBufferCurrentIndex ∧
  a.MaxBufferChunks = b.MaxBufferChunks

/-- A component that listens in VAD-gated continuous mode, no session active,
with the pre-roll ring of the constructor, used in the examples. -/
def exampleListening : UVoiceInteractionComponent :=
  { UVoiceInteractionComponent.construct with
    bIsListening := true,
    SpeechManager := some
      { bIsSDKInitialized := true, bIsRecognitionActive := false, SessionBeginResults := [],
        AudioWriteResults := [], Calls := [], SessionAudio := [], SpeechErrors := 0 },
    VADManager := some scenarioDetector }


/-- A listening component later in its life, used in the examples: a ring of
capacity 3 into which the blocks `[1]`, `[2]`, `[3]`, `[4]` have been pushed, so
that it holds `[4]`, `[2]`, `[3]` with current index 1; no session active. -/
def exampleLaterOnset : UVoiceInteractionComponent :=
  { exampleListening with
    PreBuffer := [[4], [2], [3]], PreBufferMaxChunks := 3, PreBufferCurrentIndex := 1 }


/-- The entry `k` of the array returned by `Grow({a, b}, K)`: the `k`-th of `K`
evenly spaced steps from `a`, except the last entry, which is `b`. -/
def growVal (a b : ℚ) (K k : Nat) : ℚ :=
  if k + 1 = K then b else SequencePostprocessing.Lerp a b ((k : ℚ) / (K : ℚ))

/-- The score of category `c` in frame `j` of a sequence (0 when there is no
such score). -/
def scoreAt (frames : List FLipSyncFrame) (j c : Nat) : ℚ :=
  ((frames[j]?.map (fun f => f.VisemeScores)).getD [])[c]?.getD 0

/-- The frame `f` in which the score of every category `c` selected by `Pj` is
replaced by `G c`. -/
def overwrittenRow (G : Nat → ℚ) (Pj : Nat → Bool) (f : FLipSyncFrame) : FLipSyncFrame :=
  { f with VisemeScores := f.VisemeScores.mapIdx fun c v => if Pj c then G c else v }

/-- The sequence `frames` in which every score at a position `(frame j,
category c)` selected by `P` is replaced by the value that the interpolation
between the frames `s` and `e` writes to it, entry `j - s - 1` of
`Grow({a, b}, e - s)` with `a`, `b` the scores of category `c` in the frames `s`
and `e`. -/
def overwritten (s e : Nat) (P : Nat → Nat → Bool) (frames : List FLipSyncFrame) :
    List FLipSyncFrame :=
  frames.mapIdx fun j f =>
    overwrittenRow
      (fun c => growVal (scoreAt frames s c) (scoreAt frames e c) (e - s) (j - s - 1))
      (P j) f

/-- Every frame of the sequence carries `n` viseme scores. -/
def Uniform (n : Nat) (frames : List FLipSyncFrame) : Prop :=
  ∀ f ∈ frames, f.VisemeScores.length = n


/-- The positions overwritten by the interpolation between the frames `s` and
`e` once the categories below `m` are done and, of category `m`, the first `t`
frames after `s`. -/
def doneUpTo (s e m t : Nat) (j c : Nat) : Bool :=
  decide (s < j ∧ j ≤ e ∧ (c < m ∨ (c = m ∧ j ≤ s + t)))

/-- The positions overwritten by a complete interpolation between the frames
`s` and `e`: every category of the frames `s + 1, ..., e`. -/
def between (s e : Nat) (j _c : Nat) : Bool := decide (s < j ∧ j ≤ e)


/-- A four-frame sequence with two score categories: the frames 0, 1, 2 are
silent and frame 3 is the first frame that is not (`E = 3`). -/
def leadingSilence : List FLipSyncFrame :=
  [ { VisemeScores := [1, 0], LaughterScore := 0 },
    { VisemeScores := [1, 0], LaughterScore := 0 },
    { VisemeScores := [1, 0], LaughterScore := 0 },
    { VisemeScores := [0, 1], LaughterScore := 0 } ]

/-- A four-frame sequence with two score categories in which every frame has
silence score 1; frame 2 also carries a score of 1/2 in the other category. -/
def silentSequence : List FLipSyncFrame :=
  [ { VisemeScores := [1, 0], LaughterScore := 0 },
    { VisemeScores := [1, 0], LaughterScore := 0 },
    { VisemeScores := [1, 1 / 2], LaughterScore := 0 },
    { VisemeScores := [1, 0], LaughterScore := 0 } ]


/-- A component that has just started playing `exampleSequence`: not finished,
frame index 0. -/
def startedPlayback : ULipSystemComponent :=
  { ULipSystemComponent.construct with Sequence := some exampleSequence }

/-- A component playing `exampleSequence` at frame index 1 whose published
state is a silent frame with laughter: silence score 1, the other 14 scores 0,
laughter score 1/4. -/
def laughingPlayback : ULipSystemComponent :=
  { ULipSystemComponent.construct with
    Sequence := some exampleSequence, IntPos := 1,
    Visemes := (1 : ℚ) :: List.replicate 14 0, LaughterScore := 1 / 4 }


/-- A call made on the state machine by its users. -/
inductive FStateMachineCall where
  | TransitionTo (NewState : ESpeechSystemState) (Reason : String)
  | SetError (ErrorType : ESpeechErrorType) (ErrorMessage : String)
  deriving DecidableEq, Repr

/-- The machine after one call. -/
def USpeechStateMachine.call (m : USpeechStateMachine) : FStateMachineCall →
    USpeechStateMachine
  | .TransitionTo NewState Reason => (m.TransitionTo NewState Reason).2
  | .SetError ErrorType ErrorMessage => m.SetError ErrorType ErrorMessage

/-- The machine after a sequence of calls, made in order. -/
def USpeechStateMachine.calls (m : USpeechStateMachine) (cs : List FStateMachineCall) :
    USpeechStateMachine :=
  cs.foldl USpeechStateMachine.call m

/-- The states entered so far, oldest first: the new state of every
`OnStateChanged` broadcast, which `TransitionTo` makes exactly when it
succeeds. -/
def USpeechStateMachine.entered (m : USpeechStateMachine) : List ESpeechSystemState :=
  m.Broadcasts.filterMap fun e =>
    match e with
    | .StateChanged _ NewState _ => some NewState
    | .ErrorOccurred _ _ => none

/-- The most recent `k` entries of a list (all of them when it holds fewer). -/
def mostRecent {α : Type} (k : Nat) (l : List α) : List α := l.drop (l.length - k)


/-- What the detector reports when `ProcessFloatAudioForVAD` is called for each
audio block in order: entry `i` holds the value returned for block `i` and the
payloads of the broadcasts queued while block `i` was processed. -/
def UVoiceActivityManager.audioTrace (m : UVoiceActivityManager) :
    List (List ℚ) → List (Bool × List Bool)
  | [] => []
  | AudioData :: blocks =>
    ((m.ProcessFloatAudioForVAD AudioData).1, (m.ProcessFloatAudioForVAD AudioData).2.2) ::
      UVoiceActivityManager.audioTrace (m.ProcessFloatAudioForVAD AudioData).2.1 blocks

/-- The manager with another value in `CurrentSampleRate`. -/
def UVoiceActivityManager.withRate (m : UVoiceActivityManager) (SampleRate : Int) :
    UVoiceActivityManager :=
  { m with CurrentSampleRate := SampleRate }

/-- A freshly constructed detector given the mode, thresholds and smoothing
setting of `m` and initialised with `InitializeVAD` at `SampleRate`. -/
def UVoiceActivityManager.freshLike (m : UVoiceActivityManager) (SampleRate : Int) :
    UVoiceActivityManager :=
  ({ UVoiceActivityManager.construct with
      VoiceStartThreshold := m.VoiceStartThreshold, VoiceEndThreshold := m.VoiceEndThreshold,
      bEnableSmoothing := m.bEnableSmoothing }.InitializeVAD m.CurrentVADMode SampleRate).2


/-- A component that is buffering voice in continuous mode with an open session
and two blocks in its voice buffer, voice still active. -/
def exampleVoiceEnd : UVoiceInteractionComponent :=
  { exampleBuffering with MaxBufferChunks := 3000 }


/-- The viseme scores of the pure-silence frame built by
`ULipSystemComponent::AppendShutYourMouthSeq` (source lines 202 to 218): 1 for
the silence category, 0 for the other 14. -/
def silenceScores : List ℚ := (1 : ℚ) :: List.replicate 14 0

/-- `ULipSystemComponent::AppendShutYourMouthSeq`; `none` when the sequence
pointer is null or an array access is out of range. The frames enqueued to
`AdditionalFrames` are appended at the end of the list. -/
def ULipSystemComponent.AppendShutYourMouthSeq (c : ULipSystemComponent) (LastIndex : Int) :
    Option ULipSystemComponent :=
  if LastIndex < 0 then some c
  else do
    let Seq ← c.Sequence
    let LastFrame ← Seq[LastIndex.toNat]?
    let r ← SequencePostprocessing.VisemesScoresValidator LastFrame LastIndex (-1)
    if r.1 then do
      let AdditionalFramesCount : Nat := 10
      let AdditionalInterval : Int := 9
      let Frames0 : List FLipSyncFrame :=
        List.replicate AdditionalFramesCount
          { VisemeScores := silenceScores, LaughterScore := 0 }
      let Frames1 ← SequencePostprocessing.setAt Frames0 0 LastFrame
      let Frames2 ← SequencePostprocessing.PostprocessingInterval 0 AdditionalInterval
        AdditionalInterval Frames1
      let Enqueued ← (List.range AdditionalFramesCount).mapM (fun i => Frames2[i]?)
      some { c with
        AdditionalFrames := c.AdditionalFrames ++ Enqueued, bAdditionalFramesAdded := true }
    else some { c with bAdditionalFramesAdded := true }

/-- A component that has finished playing `exampleSequence` and stands on its
last frame, which is not silent; the frames carry 15 scores here. -/
def finishedPlayback : ULipSystemComponent :=
  { ULipSystemComponent.construct with
    Sequence := some
      [ { VisemeScores := silenceScores, LaughterScore := 0 },
        { VisemeScores := (0 : ℚ) :: 1 :: List.replicate 13 0, LaughterScore := 1 / 2 } ],
    IntPos := 1, bAudioFinished := true }


/-! ### LipSyncWrapper.h / LipSyncWrapper.cpp : ULipSyncWrapper -/

/-- What the engine entry point `LipSync_ProcessFrameEx` can read at one call:
the window of `int16_t` samples at `audioBuffer`, `sampleCount`, whether the
data type is stereo, and the contents of the `visemes` buffer before the call. -/
structure FProcessFrameExCall where
  audioBuffer : List Int
  sampleCount : Int
  stereo : Bool
  visemes : List ℚ
  deriving DecidableEq, Repr

/-- What one call of `LipSync_ProcessFrameEx` leaves behind: the return code
(0 is `Success`), `frameDelay`, the contents of the `visemes` buffer after the
call, and `laughterScore`. -/
structure FProcessFrameExResult where
  rc : Int
  frameDelay : Int
  visemes : List ℚ
  laughterScore : ℚ
  deriving DecidableEq, Repr

/-- The fields of `ULipSyncWrapper`. The engine in the DLL is a black box with
its own state: `LipSync_ProcessFrameEx` gives the result of a call as a
function of all the calls made on the context so far, the current one last. -/
structure ULipSyncWrapper where
  bIsDllLoaded : Bool
  LipSync_ProcessFrameEx : List FProcessFrameExCall → FProcessFrameExResult
  Calls : List FProcessFrameExCall

/-- The number of visemes, `Viseme_Count`. -/
def Viseme_Count : Nat := 15

/-- `TArray::SetNumZeroed`: the array cut or padded with zeros to `Num`
entries. -/
def SetNumZeroed {α : Type} [Zero α] (Array : List α) (Num : Nat) : List α :=
  Array.take Num ++ List.replicate (Num - Array.length) 0

/-- `ULipSyncWrapper::ProcessFrame`: the wrapper after the call and the values
of the reference parameters `Visemes`, `LaughterScore`, `FrameDelay`. -/
def ULipSyncWrapper.ProcessFrame (w : ULipSyncWrapper) (AudioBuffer : List Int)
    (AudioBufferSize : Int) (Visemes : List ℚ) (LaughterScore : ℚ) (FrameDelay : Int)
    (Stereo : Bool) : ULipSyncWrapper × List ℚ × ℚ × Int :=
  if !w.bIsDllLoaded then (w, Visemes, LaughterScore, FrameDelay)
  else
    let Visemes1 :=
      if Visemes.length ≠ Viseme_Count then SetNumZeroed Visemes Viseme_Count else Visemes
    let Calls1 := w.Calls ++
      [{ audioBuffer := AudioBuffer, sampleCount := AudioBufferSize, stereo := Stereo,
         visemes := Visemes1 }]
    let frame := w.LipSync_ProcessFrameEx Calls1
    let w1 := { w with Calls := Calls1 }
    if frame.rc ≠ 0 then (w1, frame.visemes, LaughterScore, FrameDelay)
    else (w1, frame.visemes, frame.laughterScore, frame.frameDelay)

/-! ### SeqConverterRunnable.cpp : MakePlaybackSequence -/

/-- The conversion of an `int32` to `unsigned long long`. -/
def toUnsigned64 (z : Int) : Nat := (z % 2 ^ 64).toNat

/-- The call `memset(Array.GetData() + Start, 0, Bytes)` on an array of
`int16_t` (two bytes each, low byte first): the `Bytes / 2` elements from
`Start` on are zeroed and, when `Bytes` is odd, the low byte of the next one;
`none` when the bytes reach beyond the array. -/
def memsetZero (Array : List Int) (Start Bytes : Nat) : Option (List Int) :=
  if 2 * Start + Bytes ≤ 2 * Array.length then
    some (Array.mapIdx fun i v =>
      if Start ≤ i ∧ i < Start + Bytes / 2 then 0
      else if i = Start + Bytes / 2 ∧ Bytes % 2 = 1 then v - v % 256
      else v)
  else none

/-- The window of `Count` samples at the pointer `PCMData + Offs`; `none` when
it reaches beyond the data. -/
def sampleWindow (PCMData : List Int) (Offs Count : Nat) : Option (List Int) :=
  if Offs + Count ≤ PCMData.length then some ((PCMData.drop Offs).take Count) else none

/-- The call `memcpy(Samples.GetData(), PCMData + Offs, sizeof(int16_t) * Count)`. -/
def memcpySamples (Samples PCMData : List Int) (Offs Count : Nat) : Option (List Int) :=
  if Count ≤ Samples.length then
    (sampleWindow PCMData Offs Count).map fun w => w ++ Samples.drop Count
  else none

/-- The locals of `MakePlaybackSequence` that change in its loop; `Sequence`
holds the frames added so far. -/
structure FPlaybackState where
  Context : ULipSyncWrapper
  LaughterScore : ℚ
  FrameDelayInMs : Int
  Visemes : List ℚ
  Samples : List Int
  Sequence : List FLipSyncFrame

/-- The choice of the audio buffer in the loop body of `MakePlaybackSequence`
(source lines 46 to 68): the buffer handed to `ProcessFrame` and the contents of
`Samples` afterwards. `N` is the number of samples (`PCMDataSize` after the
division by `sizeof(int16_t)`). -/
def chunkBuffer (PCMData : List Int) (N : Nat) (ChunkSize : Int) (Samples : List Int)
    (Offs : Int) : Option (List Int × List Int) :=
  let RemainingSamples := wrapInt32 ((N : Int) - Offs)
  if RemainingSamples ≥ ChunkSize then
    if Offs < 0 then none
    else (sampleWindow PCMData Offs.toNat ChunkSize.toNat).map fun w => (w, Samples)
  else if RemainingSamples > 0 then
    if Offs < 0 then none
    else do
      let s1 ← memcpySamples Samples PCMData Offs.toNat RemainingSamples.toNat
      let s2 ← memsetZero s1 RemainingSamples.toNat (ChunkSize - RemainingSamples).toNat
      some (s2, s2)
  else do
    let s1 ← memsetZero Samples 0 ChunkSize.toNat
    some (s1, s1)

/-- The rest of the loop body (source lines 49 to 81): `Buffer` is handed to
`ProcessFrame` and, when `Offs >= FrameOffset` (`add`), the frame is added to
the sequence. -/
def submitChunk (st : FPlaybackState) (Buffer Samples1 : List Int) (ChunkSizeSamples : Int)
    (Stereo : Bool) (add : Bool) : FPlaybackState :=
  let r := st.Context.ProcessFrame Buffer ChunkSizeSamples st.Visemes st.LaughterScore
    st.FrameDelayInMs Stereo
  { Context := r.1, Visemes := r.2.1, LaughterScore := r.2.2.1, FrameDelayInMs := r.2.2.2,
    Samples := Samples1,
    Sequence :=
      if add then st.Sequence ++ [{ VisemeScores := r.2.1, LaughterScore := r.2.2.1 }]
      else st.Sequence }

/-- The loop of `MakePlaybackSequence` (source lines 44 to 82) from the offset
`Offs` on, for at most `fuel` evaluations of the loop condition; `none` when the
fuel runs out or an access is out of range. The condition compares as
`unsigned long long`; `Offs += ChunkSize` is `int32` arithmetic. -/
def playbackLoop (PCMData : List Int) (N : Nat) (ChunkSizeSamples ChunkSize FrameOffset : Int)
    (Stereo : Bool) : Nat → FPlaybackState → Int → Option FPlaybackState
  | 0, _, _ => none
  | fuel + 1, st, Offs =>
    if toUnsigned64 Offs < (N + toUnsigned64 FrameOffset) % 2 ^ 64 then
      match chunkBuffer PCMData N ChunkSize st.Samples Offs with
      | none => none
      | some b =>
        playbackLoop PCMData N ChunkSizeSamples ChunkSize FrameOffset Stereo fuel
          (submitChunk st b.1 b.2 ChunkSizeSamples Stereo (decide (Offs ≥ FrameOffset)))
          (wrapInt32 (Offs + ChunkSize))
    else some st

/-- The locals of `MakePlaybackSequence` when its loop is entered (source lines
34 to 40): `Samples` holds `ChunkSize` zeros and has been submitted once to
`ProcessFrame`, with `Visemes` empty and the other locals 0. -/
def warmUp (Context : ULipSyncWrapper) (ChunkSizeSamples ChunkSize : Int) (Stereo : Bool) :
    FPlaybackState :=
  let Samples : List Int := List.replicate ChunkSize.toNat 0
  let r := Context.ProcessFrame Samples ChunkSizeSamples [] 0 0 Stereo
  { Context := r.1, Visemes := r.2.1, LaughterScore := r.2.2.1, FrameDelayInMs := r.2.2.2,
    Samples := Samples, Sequence := [] }

/-- The local `FrameOffset` of `MakePlaybackSequence` (source line 42). -/
def FrameOffset (FrameDelayInMs : Int) (SampleRate : ℚ) (NumChannels : Int) : Int :=
  truncToInt32 ((FrameDelayInMs : ℚ) * SampleRate / 1000 * (NumChannels : ℚ))

/-- The function `MakePlaybackSequence` of `SeqConverterRunnable.cpp`: the
context after the call and the frames of the returned sequence. `PCMData` is
the audio seen as `int16_t` samples, `PCMDataSize` its size in bytes; `float`
values are exact, so `ChunkSizeSamples` is the integer part of
`SampleRate / 100`. `none` when `SetNumZeroed` gets a negative count, an access
is out of range or the loop has not ended after `fuel` evaluations of its
condition. -/
def MakePlaybackSequence (fuel : Nat) (PCMData : List Int) (NumChannels : Int)
    (SampleRate : ℚ) (PCMDataSize : Nat) (Context : ULipSyncWrapper) :
    Option (ULipSyncWrapper × List FLipSyncFrame) :=
  let N := PCMDataSize / 2
  let ChunkSizeSamples := truncToInt32 (SampleRate * (1 / 100))
  let ChunkSize := wrapInt32 (NumChannels * ChunkSizeSamples)
  if ChunkSize < 0 then none
  else
    let Stereo := decide (NumChannels > 1)
    let st0 := warmUp Context ChunkSizeSamples ChunkSize Stereo
    (playbackLoop PCMData N ChunkSizeSamples ChunkSize
        (FrameOffset st0.FrameDelayInMs SampleRate NumChannels) Stereo fuel st0 0).map
      fun st => (st.Context, st.Sequence)

/-- A stub engine: every call succeeds and reports the frame delay `d`, the
silence-only viseme vector and laughter score 0. -/
def stubEngine (d : Int) : ULipSyncWrapper :=
  { bIsDllLoaded := true,
    LipSync_ProcessFrameEx := fun _ =>
      { rc := 0, frameDelay := d, visemes := silenceScores, laughterScore := 0 },
    Calls := [] }

/-- Chunk `i` of the input for chunk size `C`: the input samples
`[i * C, (i + 1) * C)`, padded with zeros to `C` samples. -/
def zeroPaddedChunk (PCMData : List Int) (C i : Nat) : List Int :=
  (PCMData.drop (i * C)).take C ++
    List.replicate (C - ((PCMData.drop (i * C)).take C).length) 0

/-- The frames obtained when the given buffers are submitted to the engine one
after another through `ProcessFrame`, starting from the wrapper `w` and the
values `V`, `L`, `D` of `Visemes`, `LaughterScore`, `FrameDelayInMs`: frame `i`
is the pair of `Visemes` and `LaughterScore` after the call for buffer `i`. -/
def engineFrames (ChunkSizeSamples : Int) (Stereo : Bool) :
    ULipSyncWrapper → List ℚ → ℚ → Int → List (List Int) → List FLipSyncFrame
  | _, _, _, _, [] => []
  | w, V, L, D, b :: rest =>
    { VisemeScores := (w.ProcessFrame b ChunkSizeSamples V L D Stereo).2.1,
      LaughterScore := (w.ProcessFrame b ChunkSizeSamples V L D Stereo).2.2.1 } ::
      engineFrames ChunkSizeSamples Stereo
        (w.ProcessFrame b ChunkSizeSamples V L D Stereo).1
        (w.ProcessFrame b ChunkSizeSamples V L D Stereo).2.1
        (w.ProcessFrame b ChunkSizeSamples V L D Stereo).2.2.1
        (w.ProcessFrame b ChunkSizeSamples V L D Stereo).2.2.2 rest


/-- The scenario detector after one voice block: still in Silence, with the
voice counter at 1. -/
def oneVoiceBlock : UVoiceActivityManager :=
  (scenarioDetector.ProcessFloatAudioForVAD [1]).2.1

/-- The scenario detector with smoothing disabled. -/
def rawDetector : UVoiceActivityManager :=
  { scenarioDetector with bEnableSmoothing := false }


/-- A machine in Error with a stored network error, whose history is full: the
oldest of its 20 entries is an Error entry. -/
def exampleErrorMachine : USpeechStateMachine :=
  { CurrentState := .Error, LastErrorType := .NetworkError, LastErrorMessage := "net",
    StateHistory := ESpeechSystemState.Error :: List.replicate 19 ESpeechSystemState.Ready,
    Broadcasts := [] }


/-! ### SeqConverterRunnable.h / SeqConverterRunnable.cpp : FSequenceConverterRunnable -/

/-- What `FWaveModInfo::ReadWaveInfo` finds in a readable audio item: the sample
rate, the channel count, the sample data (seen as `int16_t` samples) and its
size in bytes. -/
structure FWaveModInfo where
  pSamplesPerSec : Nat
  pChannels : Nat
  SampleData : List Int
  SampleDataSize : Nat

/-- An error line written by `FSequenceConverterRunnable::Run` to `LogLss`. -/
inductive FConverterError where
  | SequenceIsNull
  | CantReadWaveInfo
  deriving DecidableEq, Repr

/-- The fields of `FSequenceConverterRunnable` with the local `Context` of
`Run` (`none` while the pointer is not valid) and the error lines logged so far.
An entry of the input queue is `none` when `ReadWaveInfo` cannot read it. -/
structure FSequenceConverterRunnable where
  InputAudioDataQueue_ : List (Option FWaveModInfo)
  ResultsSeqQueue_ : List (List FLipSyncFrame)
  Context : Option ULipSyncWrapper
  Errors : List FConverterError

/-- How one pass of the `while` loop of `Run` ends: the loop goes on, or `Run`
returns a code. -/
inductive FRunPass where
  | Continue (r : FSequenceConverterRunnable)
  | Return (Code : Int) (r : FSequenceConverterRunnable)

/-- The worker after the pass. -/
def FRunPass.runnable : FRunPass → FSequenceConverterRunnable
  | .Continue r => r
  | .Return _ r => r

/-- One pass of the `while` loop of `FSequenceConverterRunnable::Run` (source
lines 137 to 175). `Init SampleRate` is the context that `MakeUnique` and
`ULipSyncWrapper::Init` give, `none` when `Init` fails; `none` as a result means
that `MakePlaybackSequence` does not return. -/
def FSequenceConverterRunnable.RunPass (fuel : Nat) (Init : Nat → Option ULipSyncWrapper)
    (r : FSequenceConverterRunnable) : Option FRunPass :=
  match r.InputAudioDataQueue_ with
  | [] => some (.Continue r)
  | AudioData :: rest =>
    let r1 := { r with InputAudioDataQueue_ := rest }
    match AudioData with
    | none => some (.Continue { r1 with Errors := r1.Errors ++ [.CantReadWaveInfo] })
    | some WaveInfo =>
      let SampleRate := WaveInfo.pSamplesPerSec
      let Context0 :=
        match r1.Context with
        | some c => some c
        | none => Init SampleRate
      match Context0 with
      | none => some (.Return (-1) r1)
      | some Context =>
        match MakePlaybackSequence fuel WaveInfo.SampleData WaveInfo.pChannels SampleRate
            WaveInfo.SampleDataSize Context with
        | none => none
        | some res =>
          let r2 := { r1 with Context := some res.1 }
          if res.2.length ≠ 0 then
            some (.Continue { r2 with ResultsSeqQueue_ := r2.ResultsSeqQueue_ ++ [res.2] })
          else some (.Continue { r2 with Errors := r2.Errors ++ [.SequenceIsNull] })

/-- `FSequenceConverterRunnable::GetSeq`: the dequeued sequence (`none` for
`nullptr`) and the worker after the call. -/
def FSequenceConverterRunnable.GetSeq (r : FSequenceConverterRunnable) :
    Option (List FLipSyncFrame) × FSequenceConverterRunnable :=
  match r.ResultsSeqQueue_ with
  | [] => (none, r)
  | s :: rest => (some s, { r with ResultsSeqQueue_ := rest })

/-- A worker at the start of `Run`, its context not yet valid, whose input queue
holds one readable 16 kHz mono item without samples. -/
def emptyInputWorker : FSequenceConverterRunnable :=
  { InputAudioDataQueue_ :=
      [some { pSamplesPerSec := 16000, pChannels := 1, SampleData := [], SampleDataSize := 0 }],
    ResultsSeqQueue_ := [], Context := none, Errors := [] }


/-- The sequence left by the four-argument `Postprocessing` between the frames
`s` and `e` when the one-argument `Postprocessing` calls it, that is, when
`s < e`; the sequence itself otherwise. -/
def interpolated (s e : Nat) (frames : List FLipSyncFrame) : List FLipSyncFrame :=
  if s < e then overwritten s e (between s e) frames else frames

/-- Every one of the `n` scores of every frame of the sequence lies in
`[0, 1]`. -/
def InRange (n : Nat) (frames : List FLipSyncFrame) : Prop :=
  ∀ j, j < frames.length → ∀ c, c < n → 0 ≤ scoreAt frames j c ∧ scoreAt frames j c ≤ 1


/-! ## Part II. Theorems -/

/-! ### The speech state machine -/

theorem IsValidTransition_iff_mem_table (a b : ESpeechSystemState) :
    USpeechStateMachine.IsValidTransition a b = true ↔ (a, b) ∈ adjacencyTable := by
  cases a <;> cases b <;> decide

/-- C1. `TransitionTo(to, reason)` called in state `from` returns true exactly
when `(from, to)` is in the adjacency table; on true the current state is `to`;
on false the current state, the history and the stored error kind and message
are unchanged (indeed the whole machine is). -/
theorem C1_TransitionTo_adjacency (m : USpeechStateMachine) (target : ESpeechSystemState)
    (reason : String) :
    ((m.TransitionTo target reason).1 = true ↔ (m.CurrentState, target) ∈ adjacencyTable) ∧
    ((m.TransitionTo target reason).1 = true → (m.TransitionTo target reason).2.CurrentState = target) ∧
    ((m.TransitionTo target reason).1 = false →
      (m.TransitionTo target reason).2.CurrentState = m.CurrentState ∧
      (m.TransitionTo target reason).2.StateHistory = m.StateHistory ∧
      (m.TransitionTo target reason).2.LastErrorType = m.LastErrorType ∧
      (m.TransitionTo target reason).2.LastErrorMessage = m.LastErrorMessage ∧
      (m.TransitionTo target reason).2 = m) := by
  rw [← IsValidTransition_iff_mem_table]
  unfold USpeechStateMachine.TransitionTo
  cases h : USpeechStateMachine.IsValidTransition m.CurrentState target
  · simp
  · simp only [Bool.not_true, Bool.false_eq_true, if_false, true_iff, true_implies,
      false_implies, and_true, true_and]
    split <;> simp [USpeechStateMachine.AddToHistory, USpeechStateMachine.ClearError]

/-- Both branches of C1 on the freshly constructed machine: the move to
`Initializing` is accepted, the move to `Ready` is refused and changes nothing. -/
theorem C1_TransitionTo_adjacency_witness :
    ((USpeechStateMachine.construct.TransitionTo .Initializing "init").1 = true ∧
      (USpeechStateMachine.construct.TransitionTo .Initializing "init").2.CurrentState
        = .Initializing) ∧
    ((USpeechStateMachine.construct.TransitionTo .Ready "skip").1 = false ∧
      (USpeechStateMachine.construct.TransitionTo .Ready "skip").2
        = USpeechStateMachine.construct) :=
  ⟨⟨by decide,
      (C1_TransitionTo_adjacency USpeechStateMachine.construct .Initializing "init").2.1
        (by decide)⟩,
    ⟨by decide,
      ((C1_TransitionTo_adjacency USpeechStateMachine.construct .Ready "skip").2.2
        (by decide)).2.2.2.2⟩⟩

/-! ### The voice-activity detector -/

theorem wrapInt32_succ (x : Int) (h0 : 0 ≤ x) (h1 : x < 2 ^ 31 - 1) :
    wrapInt32 (x + 1) = x + 1 := by
  unfold wrapInt32
  norm_num at h1 ⊢
  omega

theorem trailingRun_append_singleton (v b : Bool) (blocks : List Bool) :
    trailingRun v (blocks ++ [b]) = if b = v then trailingRun v blocks + 1 else 0 := by
  unfold trailingRun
  by_cases h : b = v
  · simp [List.reverse_append, List.takeWhile_cons, h]
  · simp [List.reverse_append, List.takeWhile_cons, h]

theorem runBlocks_append_singleton (m : UVoiceActivityManager) (blocks : List Bool) (b : Bool) :
    m.runBlocks (blocks ++ [b]) = ((m.runBlocks blocks).UpdateVoiceActivity b).1 := by
  simp [UVoiceActivityManager.runBlocks, List.foldl_append]

theorem countBlock_fields (m : UVoiceActivityManager) (b : Bool) :
    (m.countBlock b).ContinuousVoiceCount =
      (if b then wrapInt32 (m.ContinuousVoiceCount + 1) else 0) ∧
    (m.countBlock b).ContinuousSilenceCount =
      (if b then 0 else wrapInt32 (m.ContinuousSilenceCount + 1)) ∧
    (m.countBlock b).bCurrentVoiceState = m.bCurrentVoiceState ∧
    (m.countBlock b).bLastReportedState = m.bLastReportedState ∧
    (m.countBlock b).bEnableSmoothing = m.bEnableSmoothing ∧
    (m.countBlock b).VoiceStartThreshold = m.VoiceStartThreshold ∧
    (m.countBlock b).VoiceEndThreshold = m.VoiceEndThreshold := by
  cases b <;> simp [UVoiceActivityManager.countBlock]

/-- The fields of the manager returned by `UpdateVoiceActivity`. -/
theorem UpdateVoiceActivity_fields (m : UVoiceActivityManager) (b : Bool) :
    (m.UpdateVoiceActivity b).1.bCurrentVoiceState = (m.countBlock b).bNewVoiceState b ∧
    (m.UpdateVoiceActivity b).1.ContinuousVoiceCount = (m.countBlock b).ContinuousVoiceCount ∧
    (m.UpdateVoiceActivity b).1.ContinuousSilenceCount
      = (m.countBlock b).ContinuousSilenceCount ∧
    (m.UpdateVoiceActivity b).1.bEnableSmoothing = m.bEnableSmoothing ∧
    (m.UpdateVoiceActivity b).1.VoiceStartThreshold = m.VoiceStartThreshold ∧
    (m.UpdateVoiceActivity b).1.VoiceEndThreshold = m.VoiceEndThreshold := by
  obtain ⟨-, -, -, -, f5, f6, f7⟩ := countBlock_fields m b
  simp only [UVoiceActivityManager.UpdateVoiceActivity]
  split_ifs with h1 h2
  · exact ⟨rfl, rfl, rfl, f5, f6, f7⟩
  · exact ⟨rfl, rfl, rfl, f5, f6, f7⟩
  · simp only [bne_iff_ne, ne_eq, not_not] at h1
    exact ⟨h1.symm, rfl, rfl, f5, f6, f7⟩

theorem SmoothedInv_step (S E : Int) (hS : 1 ≤ S) (hS' : S ≤ 2 ^ 31 - 1) (hE : 1 ≤ E)
    (hE' : E ≤ 2 ^ 31 - 1) (blocks : List Bool) (b : Bool) (m : UVoiceActivityManager)
    (h : SmoothedInv S E blocks m) :
    SmoothedInv S E (blocks ++ [b]) (m.UpdateVoiceActivity b).1 ∧
    (m.bCurrentVoiceState = false →
      ((m.UpdateVoiceActivity b).1.bCurrentVoiceState = true ↔
        S ≤ (trailingRun true (blocks ++ [b]) : Int))) ∧
    (m.bCurrentVoiceState = true →
      ((m.UpdateVoiceActivity b).1.bCurrentVoiceState = false ↔
        E ≤ (trailingRun false (blocks ++ [b]) : Int))) := by
  obtain ⟨hsm, hs, he, hv, hq⟩ := h
  norm_num at hS' hE'
  obtain ⟨u1, u2, u3, u4, u5, u6⟩ := UpdateVoiceActivity_fields m b
  obtain ⟨c1, c2, c3, -, c5, c6, c7⟩ := countBlock_fields m b
  unfold SmoothedInv
  rw [u1, u2, u3, u4, u5, u6]
  unfold UVoiceActivityManager.bNewVoiceState
  rw [c1, c2, c3, c5, c6, c7, hsm, hs, he]
  cases hc : m.bCurrentVoiceState
  · obtain ⟨hvc, hlt⟩ := hv hc
    have hw : wrapInt32 (m.ContinuousVoiceCount + 1) = m.ContinuousVoiceCount + 1 :=
      wrapInt32_succ _ (by rw [hvc]; exact Int.natCast_nonneg _) (by norm_num; omega)
    cases b
    · have h0 : ¬ (0 : Int) ≥ S := by omega
      simp [trailingRun_append_singleton, h0]
      omega
    · by_cases hge : m.ContinuousVoiceCount + 1 ≥ S
      · simp [trailingRun_append_singleton, hw, hge]
        omega
      · simp [trailingRun_append_singleton, hw, hge]
        omega
  · obtain ⟨hsc, hlt⟩ := hq hc
    have hw : wrapInt32 (m.ContinuousSilenceCount + 1) = m.ContinuousSilenceCount + 1 :=
      wrapInt32_succ _ (by rw [hsc]; exact Int.natCast_nonneg _) (by norm_num; omega)
    cases b
    · by_cases hge : m.ContinuousSilenceCount + 1 ≥ E
      · simp [trailingRun_append_singleton, hw, hge]
        omega
      · simp [trailingRun_append_singleton, hw, hge]
        omega
    · have h0 : ¬ (0 : Int) ≥ E := by omega
      simp [trailingRun_append_singleton, h0]
      omega


theorem SmoothedInv_run (S E : Int) (hS : 1 ≤ S) (hS' : S ≤ 2 ^ 31 - 1) (hE : 1 ≤ E)
    (hE' : E ≤ 2 ^ 31 - 1) (m0 : UVoiceActivityManager) (h0 : SmoothedInv S E [] m0)
    (blocks : List Bool) : SmoothedInv S E blocks (m0.runBlocks blocks) := by
  induction blocks using List.reverseRecOn with
  | nil => exact h0
  | append_singleton pre b ih =>
    rw [runBlocks_append_singleton]
    exact (SmoothedInv_step S E hS hS' hE hE' pre b _ ih).1

theorem SmoothedInv_InitializeVAD (d : UVoiceActivityManager) (Mode : EVADMode)
    (SampleRate : Int) (hsm : d.bEnableSmoothing = true)
    (hS : 1 ≤ d.VoiceStartThreshold) (hinit : (d.InitializeVAD Mode SampleRate).1 = true) :
    SmoothedInv d.VoiceStartThreshold d.VoiceEndThreshold [] (d.InitializeVAD Mode SampleRate).2 := by
  unfold UVoiceActivityManager.InitializeVAD at hinit ⊢
  split_ifs at hinit ⊢ with h
  · refine ⟨hsm, rfl, rfl, fun _ => ⟨rfl, ?_⟩, fun hc => ?_⟩
    · simp only [trailingRun, List.reverse_nil, List.takeWhile_nil, List.length_nil,
        Nat.cast_zero]
      omega
    · simp at hc

/-- C2. With smoothing enabled and thresholds `S ≥ 1`, `E ≥ 1` (both `int32`
values), for every block sequence `pre` fed to an initialised detector and every
next block `b`: the state switches Silence to Voice on `b` exactly when the state
was Silence and `b` is the latest of at least `S` consecutive voice blocks; it
switches Voice to Silence on `b` exactly when the state was Voice and `b` is the
latest of at least `E` consecutive silence blocks. In the scenario (3 silent, 6
voice, 35 silent, `S = 5`, `E = 30`) the only broadcasts are a Voice-start on
the 5th voice block (index 7) and a Voice-end on the 30th trailing silent block
(index 38). -/
theorem C2_hysteresis_thresholds (d : UVoiceActivityManager) (Mode : EVADMode)
    (SampleRate : Int) (hsm : d.bEnableSmoothing = true)
    (hS : 1 ≤ d.VoiceStartThreshold) (hS' : d.VoiceStartThreshold ≤ 2 ^ 31 - 1)
    (hE : 1 ≤ d.VoiceEndThreshold) (hE' : d.VoiceEndThreshold ≤ 2 ^ 31 - 1)
    (hinit : (d.InitializeVAD Mode SampleRate).1 = true) (pre : List Bool) (b : Bool) :
    (((d.InitializeVAD Mode SampleRate).2.runBlocks pre).bCurrentVoiceState = false ∧
        ((d.InitializeVAD Mode SampleRate).2.runBlocks (pre ++ [b])).bCurrentVoiceState = true
      ↔ ((d.InitializeVAD Mode SampleRate).2.runBlocks pre).bCurrentVoiceState = false ∧
        d.VoiceStartThreshold ≤ (trailingRun true (pre ++ [b]) : Int)) ∧
    (((d.InitializeVAD Mode SampleRate).2.runBlocks pre).bCurrentVoiceState = true ∧
        ((d.InitializeVAD Mode SampleRate).2.runBlocks (pre ++ [b])).bCurrentVoiceState = false
      ↔ ((d.InitializeVAD Mode SampleRate).2.runBlocks pre).bCurrentVoiceState = true ∧
        d.VoiceEndThreshold ≤ (trailingRun false (pre ++ [b]) : Int)) ∧
    scenarioDetector.runTrace scenarioBlocks =
      List.replicate 7 [] ++ [[true]] ++ List.replicate 30 [] ++ [[false]] ++
        List.replicate 5 [] := by
  have hinv := SmoothedInv_run _ _ hS hS' hE hE' _
    (SmoothedInv_InitializeVAD d Mode SampleRate hsm hS hinit) pre
  obtain ⟨-, h1, h2⟩ := SmoothedInv_step _ _ hS hS' hE hE' pre b _ hinv
  rw [runBlocks_append_singleton]
  refine ⟨⟨fun ⟨ha, hb⟩ => ⟨ha, (h1 ha).1 hb⟩, fun ⟨ha, hb⟩ => ⟨ha, (h1 ha).2 hb⟩⟩,
    ⟨fun ⟨ha, hb⟩ => ⟨ha, (h2 ha).1 hb⟩, fun ⟨ha, hb⟩ => ⟨ha, (h2 ha).2 hb⟩⟩, by decide⟩

/-- C2 at the detector of the scenario, after 3 silent and 4 voice blocks, on
the 5th voice block: the state was Silence and switches to Voice. -/
theorem C2_hysteresis_thresholds_witness :
    (scenarioDetector.runBlocks [false, false, false, true, true, true, true]
        ).bCurrentVoiceState = false ∧
      (scenarioDetector.runBlocks ([false, false, false, true, true, true, true] ++ [true])
        ).bCurrentVoiceState = true :=
  ((C2_hysteresis_thresholds
      { UVoiceActivityManager.construct with
        bEnableSmoothing := true, VoiceStartThreshold := 5, VoiceEndThreshold := 30 }
      .Aggressive 16000 rfl (by decide) (by decide) (by decide) (by decide) (by decide)
      [false, false, false, true, true, true, true] true).1).2 ⟨by decide, by decide⟩


/-- One step from a manager whose reported state is its current state: the
two stay equal, and a broadcast is queued exactly when the state changed, with
the new state as payload. -/
theorem UpdateVoiceActivity_edge (m : UVoiceActivityManager) (b : Bool)
    (h : m.bLastReportedState = m.bCurrentVoiceState) :
    (m.UpdateVoiceActivity b).1.bLastReportedState
      = (m.UpdateVoiceActivity b).1.bCurrentVoiceState ∧
    (m.UpdateVoiceActivity b).2 =
      (if (m.UpdateVoiceActivity b).1.bCurrentVoiceState ≠ m.bCurrentVoiceState then
        [(m.UpdateVoiceActivity b).1.bCurrentVoiceState] else []) := by
  obtain ⟨-, -, c3, c4, -, -, -⟩ := countBlock_fields m b
  simp only [UVoiceActivityManager.UpdateVoiceActivity]
  split_ifs with h1 h2 h3 h4 h5
  all_goals simp_all

theorem runTrace_append_singleton (m : UVoiceActivityManager) (blocks : List Bool) (b : Bool) :
    m.runTrace (blocks ++ [b]) =
      m.runTrace blocks ++ [((m.runBlocks blocks).UpdateVoiceActivity b).2] := by
  induction blocks generalizing m with
  | nil => simp [UVoiceActivityManager.runTrace, UVoiceActivityManager.runBlocks]
  | cons a rest ih =>
    have hrun : m.runBlocks (a :: rest) = (m.UpdateVoiceActivity a).1.runBlocks rest := rfl
    rw [hrun, List.cons_append, UVoiceActivityManager.runTrace, ih,
      UVoiceActivityManager.runTrace, List.cons_append]

theorem runBlocks_reported (m : UVoiceActivityManager)
    (h : m.bLastReportedState = m.bCurrentVoiceState) (blocks : List Bool) :
    (m.runBlocks blocks).bLastReportedState = (m.runBlocks blocks).bCurrentVoiceState := by
  induction blocks using List.reverseRecOn with
  | nil => exact h
  | append_singleton pre b ih =>
    rw [runBlocks_append_singleton]
    exact (UpdateVoiceActivity_edge _ b ih).1

/-- The broadcasts of a run alternate, and the first one, if any, is the
opposite of the state the run starts in. -/
theorem runTrace_alternates (blocks : List Bool) (m : UVoiceActivityManager)
    (h : m.bLastReportedState = m.bCurrentVoiceState) :
    List.Chain' (fun x y => x ≠ y) (m.runTrace blocks).flatten ∧
    ∀ x, (m.runTrace blocks).flatten.head? = some x → x = !m.bCurrentVoiceState := by
  induction blocks generalizing m with
  | nil => simp [UVoiceActivityManager.runTrace]
  | cons b rest ih =>
    obtain ⟨e1, e2⟩ := UpdateVoiceActivity_edge m b h
    obtain ⟨i1, i2⟩ := ih (m.UpdateVoiceActivity b).1 e1
    simp only [UVoiceActivityManager.runTrace, List.flatten_cons]
    rw [e2]
    split_ifs with hc
    · have hne : (m.UpdateVoiceActivity b).1.bCurrentVoiceState = !m.bCurrentVoiceState := by
        revert hc
        cases (m.UpdateVoiceActivity b).1.bCurrentVoiceState <;>
          cases m.bCurrentVoiceState <;> simp
      refine ⟨?_, ?_⟩
      · simp only [List.singleton_append, List.chain'_cons']
        refine ⟨fun y hy => ?_, i1⟩
        have := i2 y (by simpa using hy)
        rw [this]
        cases (m.UpdateVoiceActivity b).1.bCurrentVoiceState <;> simp
      · intro x hx
        simp only [List.singleton_append, List.head?_cons, Option.some.injEq] at hx
        rw [← hx, hne]
    · simp only [ne_eq, not_not] at hc
      simp only [List.nil_append]
      exact ⟨i1, fun x hx => by rw [← hc]; exact i2 x hx⟩

/-- C3. The change notification is edge-triggered, for every setting of the
thresholds and of smoothing: from a detector just initialised or reset (state
and reported state both Silence), on every block a broadcast is queued exactly
when the active state changed on that block, and its payload is the new state;
the broadcasts of a run, in order, strictly alternate and the first is a
Voice-start (`true`). `InitializeVAD` (when it succeeds) and `ResetVAD` both
produce such a detector. -/
theorem C3_edge_triggered (m0 : UVoiceActivityManager)
    (hfresh : m0.bCurrentVoiceState = false ∧ m0.bLastReportedState = false) :
    (∀ (pre : List Bool) (b : Bool),
      m0.runTrace (pre ++ [b]) =
        m0.runTrace pre ++
          [if (m0.runBlocks (pre ++ [b])).bCurrentVoiceState
                ≠ (m0.runBlocks pre).bCurrentVoiceState
            then [(m0.runBlocks (pre ++ [b])).bCurrentVoiceState] else []]) ∧
    (∀ blocks : List Bool,
      List.Chain' (fun x y => x ≠ y) (m0.runTrace blocks).flatten ∧
      ∀ x, (m0.runTrace blocks).flatten.head? = some x → x = true) ∧
    (∀ (d : UVoiceActivityManager) (Mode : EVADMode) (SampleRate : Int),
      (d.InitializeVAD Mode SampleRate).1 = true →
        (d.InitializeVAD Mode SampleRate).2.bCurrentVoiceState = false ∧
        (d.InitializeVAD Mode SampleRate).2.bLastReportedState = false) ∧
    (∀ d : UVoiceActivityManager,
      d.ResetVAD.2.bCurrentVoiceState = false ∧ d.ResetVAD.2.bLastReportedState = false) := by
  have h : m0.bLastReportedState = m0.bCurrentVoiceState := by rw [hfresh.1, hfresh.2]
  refine ⟨fun pre b => ?_, fun blocks => ?_, fun d Mode SampleRate hinit => ?_, fun d => ?_⟩
  · rw [runTrace_append_singleton, runBlocks_append_singleton]
    rw [(UpdateVoiceActivity_edge _ b (runBlocks_reported m0 h pre)).2]
  · obtain ⟨a1, a2⟩ := runTrace_alternates blocks m0 h
    exact ⟨a1, fun x hx => by rw [a2 x hx, hfresh.1]; rfl⟩
  · unfold UVoiceActivityManager.InitializeVAD at hinit ⊢
    split_ifs at hinit ⊢ with hr
    exact ⟨rfl, rfl⟩
  · exact ⟨rfl, rfl⟩

/-- C3 at the detector of the scenario: the broadcasts of the scenario run are
a Voice-start followed by a Voice-end. -/
theorem C3_edge_triggered_witness :
    (scenarioDetector.bCurrentVoiceState = false ∧
      scenarioDetector.bLastReportedState = false) ∧
    (scenarioDetector.runTrace scenarioBlocks).flatten = [true, false] ∧
    List.Chain' (fun x y => x ≠ y) (scenarioDetector.runTrace scenarioBlocks).flatten :=
  ⟨by decide, by decide,
    ((C3_edge_triggered scenarioDetector (by decide)).2.1 scenarioBlocks).1⟩


/-! ### The reconnection manager -/

theorem attemptsUpTo_succ (n : Nat) :
    attemptsUpTo (n + 1) = attemptsUpTo n ++ [FRecoveryEvent.RecoveryAttempt ((n : Int) + 1)] := by
  simp [attemptsUpTo, List.range_succ]

/-- While fewer than `M` attempts have been made the sequence is in progress:
after `n` firings the attempts `1 .. n + 1` have been announced, the counter
is `n + 1` and the retry timer is set again. -/
theorem reconnectionSequence_progress (r0 : USpeechErrorRecovery) (M : Nat)
    (hM' : (M : Int) ≤ 2 ^ 31 - 1) (hmax : r0.MaxReconnectAttempts = M)
    (hidle : r0.bIsReconnecting = false) (hworld : r0.hasWorld = true) (n : Nat)
    (hn : n + 1 < M) :
    r0.reconnectionSequence n =
      ({ r0 with bIsReconnecting := true, ReconnectAttempts := (n : Int) + 1,
                 ReconnectTimerPending := true },
        attemptsUpTo (n + 1)) := by
  norm_num at hM'
  induction n with
  | zero =>
    have h1 : ¬ (1 : Int) ≥ M := by omega
    have hw : wrapInt32 1 = 1 := by decide
    have h1' : ¬ ((M : Int) ≤ 1) := by omega
    have ha : attemptsUpTo (0 + 1) = [FRecoveryEvent.RecoveryAttempt 1] := by decide
    rw [ha]
    simp [USpeechErrorRecovery.reconnectionSequence, USpeechErrorRecovery.fireTimer,
      USpeechErrorRecovery.StartReconnection, USpeechErrorRecovery.PerformReconnectAttempt,
      hidle, hworld, hmax, hw, h1']
  | succ k ih =>
    have ih' := ih (by omega)
    have hw : wrapInt32 ((k : Int) + 1 + 1) = (k : Int) + 1 + 1 :=
      wrapInt32_succ _ (by omega) (by norm_num; omega)
    have h1 : ¬ ((k : Int) + 1 + 1 ≥ M) := by omega
    unfold USpeechErrorRecovery.reconnectionSequence at ih' ⊢
    simp only [USpeechErrorRecovery.fireTimer, ih']
    rw [attemptsUpTo_succ (k + 1)]
    simp [USpeechErrorRecovery.ReconnectTimerFired,
      USpeechErrorRecovery.PerformReconnectAttempt, hworld, hmax, hw, h1]


/-- A firing of the retry timer while no sequence is in flight announces
nothing and leaves the manager idle with the same counter. -/
theorem ReconnectTimerFired_idle (r : USpeechErrorRecovery) (h : r.bIsReconnecting = false) :
    (r.ReconnectTimerFired).2 = [] ∧ (r.ReconnectTimerFired).1.bIsReconnecting = false ∧
    (r.ReconnectTimerFired).1.ReconnectAttempts = r.ReconnectAttempts := by
  simp [USpeechErrorRecovery.ReconnectTimerFired, USpeechErrorRecovery.PerformReconnectAttempt, h]

theorem fireTimer_succ_eq (r : USpeechErrorRecovery) (k : Nat) :
    r.reconnectionSequence (k + 1) =
      (((r.reconnectionSequence k).1.ReconnectTimerFired).1,
        (r.reconnectionSequence k).2 ++ ((r.reconnectionSequence k).1.ReconnectTimerFired).2) :=
  rfl

theorem FailureReason_congr (r r' : USpeechErrorRecovery)
    (h : r.MaxReconnectAttempts = r'.MaxReconnectAttempts) :
    r.FailureReason = r'.FailureReason := by
  unfold USpeechErrorRecovery.FailureReason
  rw [h]

/-- From the `M`-th attempt on the sequence is over: the attempts `1 .. M` and
one failure have been announced, the manager is idle and its counter is 0. -/
theorem reconnectionSequence_done (r0 : USpeechErrorRecovery) (M : Nat) (hM : 1 ≤ M)
    (hM' : (M : Int) ≤ 2 ^ 31 - 1) (hmax : r0.MaxReconnectAttempts = M)
    (hidle : r0.bIsReconnecting = false) (hworld : r0.hasWorld = true) (n : Nat)
    (hn : M ≤ n + 1) :
    (r0.reconnectionSequence n).2 =
      attemptsUpTo M ++ [FRecoveryEvent.RecoveryFailed r0.FailureReason] ∧
    (r0.reconnectionSequence n).1.bIsReconnecting = false ∧
    (r0.reconnectionSequence n).1.ReconnectAttempts = 0 := by
  induction n with
  | zero =>
    have hM1 : M = 1 := by omega
    subst hM1
    have hw : wrapInt32 1 = 1 := by decide
    have ha : attemptsUpTo 1 = [FRecoveryEvent.RecoveryAttempt 1] := by decide
    rw [ha]
    simp only [USpeechErrorRecovery.reconnectionSequence, USpeechErrorRecovery.fireTimer,
      USpeechErrorRecovery.StartReconnection, USpeechErrorRecovery.PerformReconnectAttempt,
      USpeechErrorRecovery.ResetReconnectState, hidle, hmax]
    simp only [Bool.false_eq_true, if_false, Bool.not_true, zero_add, hw, Nat.cast_one,
      ge_iff_le, le_refl, if_true, List.singleton_append, and_self, and_true]
    rw [FailureReason_congr _ r0 (by rw [hmax]; rfl)]
  | succ k ih =>
    by_cases hk : M ≤ k + 1
    · obtain ⟨e1, e2, e3⟩ := ih hk
      obtain ⟨f1, f2, f3⟩ := ReconnectTimerFired_idle _ e2
      unfold USpeechErrorRecovery.reconnectionSequence at e1 e2 e3 f1 f2 f3 ⊢
      simp only [USpeechErrorRecovery.fireTimer]
      exact ⟨by rw [f1, e1, List.append_nil], f2, by rw [f3, e3]⟩
    · have hMk : M = k + 1 + 1 := by omega
      have hp := reconnectionSequence_progress r0 M hM' hmax hidle hworld k (by omega)
      norm_num at hM'
      have hw : wrapInt32 ((k : Int) + 1 + 1) = (k : Int) + 1 + 1 :=
        wrapInt32_succ _ (by omega) (by norm_num; omega)
      have h1 : (M : Int) ≤ (k : Int) + 1 + 1 := by omega
      have ha : attemptsUpTo M = attemptsUpTo (k + 1) ++
          [FRecoveryEvent.RecoveryAttempt ((k : Int) + 1 + 1)] := by
        rw [hMk, attemptsUpTo_succ, Nat.cast_add, Nat.cast_one]
      have hfire : (USpeechErrorRecovery.ReconnectTimerFired
          { r0 with bIsReconnecting := true, ReconnectAttempts := (k : Int) + 1,
                    ReconnectTimerPending := true }) =
          ({ r0 with bIsReconnecting := false, ReconnectAttempts := 0,
                     ReconnectTimerPending := false },
            [FRecoveryEvent.RecoveryAttempt ((k : Int) + 1 + 1),
              FRecoveryEvent.RecoveryFailed r0.FailureReason]) := by
        simp only [USpeechErrorRecovery.ReconnectTimerFired,
          USpeechErrorRecovery.PerformReconnectAttempt,
          USpeechErrorRecovery.ResetReconnectState, hmax, hw]
        simp only [Bool.not_true, Bool.false_eq_true, if_false, ge_iff_le, h1, if_true,
          List.singleton_append]
        rw [FailureReason_congr _ r0 (by rw [hmax])]
      rw [fireTimer_succ_eq, hp, hfire, ha]
      simp only [List.append_assoc, List.singleton_append, and_self]

/-- C6. For every configured maximum `M ≥ 1` (an `int32`), a reconnection
sequence started by `StartReconnection` on an idle manager placed in a world and
driven only by firings of its retry timer announces the attempts `1, 2, ..., M`
in that order (after `n < M - 1` firings: the attempts `1 .. n + 1`, the
sequence still in progress with the timer set), then exactly one failure right
after the `M`-th attempt, and nothing more: after any `n ≥ M - 1` firings the
broadcasts are the `M` attempts followed by the one failure, `IsReconnecting()`
is false, `GetReconnectAttempts()` is 0 and a further firing announces nothing.
For `M = 3`: exactly 3 attempts then 1 failure, also after extra firings. -/
theorem C6_bounded_reconnection (r0 : USpeechErrorRecovery) (M : Nat) (hM : 1 ≤ M)
    (hM' : (M : Int) ≤ 2 ^ 31 - 1) (hmax : r0.MaxReconnectAttempts = M)
    (hidle : r0.bIsReconnecting = false) (hworld : r0.hasWorld = true) :
    (∀ n, n + 1 < M →
      (r0.reconnectionSequence n).2 = attemptsUpTo (n + 1) ∧
      (r0.reconnectionSequence n).1.bIsReconnecting = true ∧
      (r0.reconnectionSequence n).1.ReconnectTimerPending = true) ∧
    (∀ n, M ≤ n + 1 →
      (r0.reconnectionSequence n).2 =
        attemptsUpTo M ++ [FRecoveryEvent.RecoveryFailed r0.FailureReason] ∧
      (r0.reconnectionSequence n).1.bIsReconnecting = false ∧
      (r0.reconnectionSequence n).1.ReconnectAttempts = 0 ∧
      ((r0.reconnectionSequence n).1.ReconnectTimerFired).2 = []) ∧
    ((USpeechErrorRecovery.construct true).reconnectionSequence 2).2 =
      [.RecoveryAttempt 1, .RecoveryAttempt 2, .RecoveryAttempt 3,
        .RecoveryFailed (USpeechErrorRecovery.construct true).FailureReason] ∧
    ((USpeechErrorRecovery.construct true).reconnectionSequence 7).2 =
      [.RecoveryAttempt 1, .RecoveryAttempt 2, .RecoveryAttempt 3,
        .RecoveryFailed (USpeechErrorRecovery.construct true).FailureReason] := by
  refine ⟨fun n hn => ?_, fun n hn => ?_, ?_, ?_⟩
  · rw [reconnectionSequence_progress r0 M hM' hmax hidle hworld n hn]
    exact ⟨rfl, rfl, rfl⟩
  · obtain ⟨e1, e2, e3⟩ := reconnectionSequence_done r0 M hM hM' hmax hidle hworld n hn
    exact ⟨e1, e2, e3, (ReconnectTimerFired_idle _ e2).1⟩
  · rw [(reconnectionSequence_done (USpeechErrorRecovery.construct true) 3 (by decide)
      (by decide) rfl rfl rfl 2 (by decide)).1]
    rfl
  · rw [(reconnectionSequence_done (USpeechErrorRecovery.construct true) 3 (by decide)
      (by decide) rfl rfl rfl 7 (by decide)).1]
    rfl

/-- C6 at the default configuration (`M = 3`), in a world: after two firings
the three attempts and the failure have been announced and the manager is idle. -/
theorem C6_bounded_reconnection_witness :
    ((USpeechErrorRecovery.construct true).reconnectionSequence 2).2 =
      attemptsUpTo 3 ++
        [FRecoveryEvent.RecoveryFailed (USpeechErrorRecovery.construct true).FailureReason] ∧
    ((USpeechErrorRecovery.construct true).reconnectionSequence 2).1.bIsReconnecting = false ∧
    ((USpeechErrorRecovery.construct true).reconnectionSequence 2).1.ReconnectAttempts = 0 ∧
    (((USpeechErrorRecovery.construct true).reconnectionSequence 2).1.ReconnectTimerFired).2
      = [] :=
  (C6_bounded_reconnection (USpeechErrorRecovery.construct true) 3 (by decide) (by decide)
    rfl rfl rfl).2.1 2 (by decide)


/-! ### The playback synchroniser -/

theorem InitNeutralPose_IntPos (c : ULipSystemComponent) (h : c.Visemes ≠ []) :
    ∃ c', c.InitNeutralPose = some c' ∧ c'.IntPos = c.IntPos := by
  unfold ULipSystemComponent.InitNeutralPose
  cases hv : c.Visemes with
  | nil => exact absurd hv h
  | cons v rest =>
    simp only [List.getElem?_cons_zero]
    split_ifs
    · exact ⟨c, rfl, rfl⟩
    · exact ⟨_, rfl, rfl⟩

/-- The frame index after a callback processed while playing, as a function of
the index before and of the computed index `IntPosTmp`. -/
theorem OnAudioPlaybackPercent_IntPos (c : ULipSystemComponent) (Seq : List FLipSyncFrame)
    (Duration Percent : ℚ) (hplay : c.bAudioFinished = false) (hseq : c.Sequence = some Seq)
    (hvis : c.Visemes ≠ []) :
    ∃ c', c.OnAudioPlaybackPercent Duration Percent = some c' ∧
      c'.IntPos =
        (if c.IntPosTmp Duration Percent ≤ c.IntPos ∧ c.IntPosTmp Duration Percent ≠ 0 then
          (c.IntPos + 1) % 2 ^ 32
        else c.IntPosTmp Duration Percent) := by
  unfold ULipSystemComponent.OnAudioPlaybackPercent
  simp only [hplay, hseq, Bool.false_eq_true, if_false]
  by_cases hcond : c.IntPosTmp Duration Percent ≤ c.IntPos ∧ c.IntPosTmp Duration Percent ≠ 0
  · simp only [hcond, and_self, not_false_eq_true, if_true, ne_eq]
    split_ifs with h1 h2
    · exact InitNeutralPose_IntPos _ hvis
    · cases hf : Seq[(c.IntPos + 1) % 2 ^ 32]? with
      | none =>
        rw [List.getElem?_eq_none_iff] at hf
        exact absurd hf h1
      | some Frame => exact ⟨_, rfl, rfl⟩
    · cases hf : Seq[(c.IntPos + 1) % 2 ^ 32]? with
      | none =>
        rw [List.getElem?_eq_none_iff] at hf
        exact absurd hf h1
      | some Frame => exact ⟨_, rfl, rfl⟩
  · simp only [hcond, if_false]
    split_ifs with h1 h2
    · exact InitNeutralPose_IntPos _ hvis
    · cases hf : Seq[c.IntPosTmp Duration Percent]? with
      | none =>
        rw [List.getElem?_eq_none_iff] at hf
        exact absurd hf h1
      | some Frame => exact ⟨_, rfl, rfl⟩
    · cases hf : Seq[c.IntPosTmp Duration Percent]? with
      | none =>
        rw [List.getElem?_eq_none_iff] at hf
        exact absurd hf h1
      | some Frame => exact ⟨_, rfl, rfl⟩


/-- C8, as stated, fails: the component is playing (`bAudioFinished` false,
sequence set) with frame index 1; a callback with `Percent = 0` computes index
0, which does not exceed the current index, and the index becomes 0: it moves
backward and is not `current + 1 = 2`. -/
theorem C8_index_can_move_back :
    examplePlayback.bAudioFinished = false ∧
    examplePlayback.Sequence = some exampleSequence ∧
    examplePlayback.IntPos = 1 ∧
    examplePlayback.IntPosTmp 1 0 = 0 ∧
    (examplePlayback.OnAudioPlaybackPercent 1 0).map (fun c => c.IntPos) = some 0 := by
  decide!

/-- C8, amended. For every playback-percent callback processed while playing
(not finished, sequence set, viseme vector non-empty) the call returns, and with
`T` the computed index `IntPosTmp`: if `T` is not 0 and does not exceed the
current index, the index becomes `current + 1` (as an `unsigned`); if `T` is
greater than the current index, the index becomes `T`; so whenever `T` is not 0
the index does not decrease (below the `unsigned` maximum); if `T` is 0 the
index is set to 0, whatever it was. -/
theorem C8_index_update (c : ULipSystemComponent) (Seq : List FLipSyncFrame)
    (Duration Percent : ℚ) (hplay : c.bAudioFinished = false) (hseq : c.Sequence = some Seq)
    (hvis : c.Visemes ≠ []) :
    ∃ c', c.OnAudioPlaybackPercent Duration Percent = some c' ∧
      (c.IntPosTmp Duration Percent ≠ 0 → c.IntPosTmp Duration Percent ≤ c.IntPos →
        c'.IntPos = (c.IntPos + 1) % 2 ^ 32) ∧
      (c.IntPos < c.IntPosTmp Duration Percent → c'.IntPos = c.IntPosTmp Duration Percent) ∧
      (c.IntPosTmp Duration Percent ≠ 0 → c.IntPos + 1 < 2 ^ 32 → c.IntPos ≤ c'.IntPos) ∧
      (c.IntPosTmp Duration Percent = 0 → c'.IntPos = 0) := by
  obtain ⟨c', h1, h2⟩ := OnAudioPlaybackPercent_IntPos c Seq Duration Percent hplay hseq hvis
  refine ⟨c', h1, fun hne hle => ?_, fun hlt => ?_, fun hne hmax => ?_, fun hz => ?_⟩
  · rw [h2, if_pos ⟨hle, hne⟩]
  · rw [h2, if_neg (fun h => absurd h.1 (by omega))]
  · rw [h2]
    split_ifs with h
    · rw [Nat.mod_eq_of_lt hmax]
      omega
    · have : ¬ c.IntPosTmp Duration Percent ≤ c.IntPos := fun hle => h ⟨hle, hne⟩
      omega
  · rw [h2, if_neg (fun h => h.2 hz), hz]

/-- C8 (amended) on the example playback at index 1 with a one-second clip: at
`Percent = 1 / 200` the computed index is 1, not above the current one, and the
index advances to 2. -/
theorem C8_index_update_witness :
    examplePlayback.IntPosTmp 1 (1 / 200) = 1 ∧
    ∃ c', examplePlayback.OnAudioPlaybackPercent 1 (1 / 200) = some c' ∧ c'.IntPos = 2 := by
  obtain ⟨c', h1, h2, -, -, -⟩ :=
    C8_index_update examplePlayback exampleSequence 1 (1 / 200) (by decide!) (by decide!)
      (by decide!)
  exact ⟨by decide!, c', h1, by rw [h2 (by decide!) (by decide!)]; decide!⟩


/-! ### The voice-interaction component: forced segmentation -/

/-- What `ProcessLongSpeechSegment` does to a buffering component that has a
speech manager: the session is closed and the long-speech timer cleared; with
voice active the buffer is kept and a new-session timer is set, otherwise the
buffer is emptied and buffering stops. -/
theorem ProcessLongSpeechSegment_buffering (c : UVoiceInteractionComponent)
    (sm : USpeechManager) (hsm : c.SpeechManager = some sm) (hb : c.bIsBufferingVoice = true) :
    (∃ sm', (c.ProcessLongSpeechSegment).SpeechManager = some sm' ∧
      sm'.bIsRecognitionActive = false) ∧
    (c.ProcessLongSpeechSegment).bCurrentVoiceActivity = c.bCurrentVoiceActivity ∧
    (c.ProcessLongSpeechSegment).bIsListening = c.bIsListening ∧
    (c.bCurrentVoiceActivity = true →
      (c.ProcessLongSpeechSegment).VoiceBuffer = c.VoiceBuffer ∧
      (c.ProcessLongSpeechSegment).bIsBufferingVoice = true ∧
      (c.ProcessLongSpeechSegment).NewSessionTimers = c.NewSessionTimers + 1) ∧
    (c.bCurrentVoiceActivity = false →
      (c.ProcessLongSpeechSegment).VoiceBuffer = [] ∧
      (c.ProcessLongSpeechSegment).bIsBufferingVoice = false) := by
  unfold UVoiceInteractionComponent.ProcessLongSpeechSegment
  simp only [hsm, hb, Bool.not_true, Bool.false_eq_true, if_false]
  cases hv : c.bCurrentVoiceActivity <;> cases ha : sm.bIsRecognitionActive <;>
    simp [hb, ha, USpeechManager.StopSpeechRecognition, USpeechManager.endSession]


theorem SendAudioToSpeechRecognition_fields (c : UVoiceInteractionComponent)
    (AudioData : List ℚ) :
    (c.SendAudioToSpeechRecognition AudioData).VoiceBuffer = c.VoiceBuffer ∧
    (c.SendAudioToSpeechRecognition AudioData).bIsBufferingVoice = c.bIsBufferingVoice ∧
    (c.SendAudioToSpeechRecognition AudioData).bCurrentVoiceActivity
      = c.bCurrentVoiceActivity ∧
    (c.SendAudioToSpeechRecognition AudioData).NewSessionTimers = c.NewSessionTimers ∧
    (c.SendAudioToSpeechRecognition AudioData).bIsListening = c.bIsListening ∧
    (c.SendAudioToSpeechRecognition AudioData).PreBuffer = c.PreBuffer ∧
    (c.SendAudioToSpeechRecognition AudioData).PreBufferMaxChunks = c.PreBufferMaxChunks ∧
    (c.SendAudioToSpeechRecognition AudioData).PreBufferCurrentIndex
      = c.PreBufferCurrentIndex := by
  unfold UVoiceInteractionComponent.SendAudioToSpeechRecognition
  cases c.SpeechManager with
  | none => simp
  | some sm => dsimp only; split_ifs <;> simp

/-- The buffering branch on a full voice buffer: `ProcessLongSpeechSegment`
has run (the session is closed), and the buffer is the one it left followed by
the new block. -/
theorem bufferLiveBlock_full (c : UVoiceInteractionComponent) (sm : USpeechManager)
    (AudioData : List ℚ) (hsm : c.SpeechManager = some sm) (hb : c.bIsBufferingVoice = true)
    (hfull : (c.VoiceBuffer.length : Int) ≥ c.MaxBufferChunks) :
    (∃ sm', (c.bufferLiveBlock AudioData).SpeechManager = some sm' ∧
      sm'.bIsRecognitionActive = false) ∧
    (c.bufferLiveBlock AudioData).bCurrentVoiceActivity = c.bCurrentVoiceActivity ∧
    (c.bCurrentVoiceActivity = true →
      (c.bufferLiveBlock AudioData).VoiceBuffer = c.VoiceBuffer ++ [AudioData] ∧
      (c.bufferLiveBlock AudioData).bIsBufferingVoice = true ∧
      (c.bufferLiveBlock AudioData).NewSessionTimers = c.NewSessionTimers + 1) ∧
    (c.bCurrentVoiceActivity = false →
      (c.bufferLiveBlock AudioData).VoiceBuffer = [AudioData] ∧
      (c.bufferLiveBlock AudioData).bIsBufferingVoice = false) := by
  obtain ⟨⟨sm', hs1, hs2⟩, p2, -, p4, p5⟩ := ProcessLongSpeechSegment_buffering c sm hsm hb
  have hbl : c.bufferLiveBlock AudioData =
      { c.ProcessLongSpeechSegment with
        VoiceBuffer := c.ProcessLongSpeechSegment.VoiceBuffer ++ [AudioData] } := by
    unfold UVoiceInteractionComponent.bufferLiveBlock
    simp only [hfull, if_true, hs1, hs2, Bool.false_eq_true, if_false]
  rw [hbl]
  refine ⟨⟨sm', hs1, hs2⟩, p2, fun hact => ?_, fun hact => ?_⟩
  · obtain ⟨q1, q2, q3⟩ := p4 hact
    exact ⟨by rw [← q1], q2, q3⟩
  · obtain ⟨q1, q2⟩ := p5 hact
    exact ⟨by show c.ProcessLongSpeechSegment.VoiceBuffer ++ [AudioData] = _; rw [q1]; rfl, q2⟩

/-- `ProcessAudioData` for a non-empty block in VAD-gated continuous mode: the
ring write, the detector call, then the buffering branch if buffering is on. -/
theorem ProcessAudioData_gated (c : UVoiceInteractionComponent) (sm : USpeechManager)
    (vad : UVoiceActivityManager) (AudioData : List ℚ) (hdata : AudioData ≠ [])
    (hl : c.bIsListening = true) (hc : c.bContinuousRecognitionMode = true)
    (hsm : c.SpeechManager = some sm) (hv : c.bVADEnabled = true)
    (hvad : c.VADManager = some vad) (hvi : vad.bIsInitialized = true)
    (hidx : 0 ≤ c.PreBufferCurrentIndex ∧ c.PreBufferCurrentIndex < c.PreBuffer.length)
    (hN : c.PreBufferMaxChunks ≠ 0) :
    c.ProcessAudioData AudioData =
      some (if c.bIsBufferingVoice then
        ((c.pushPreBuffer c.PreBufferCurrentIndex.toNat AudioData).runDetector vad
          AudioData).bufferLiveBlock AudioData
      else (c.pushPreBuffer c.PreBufferCurrentIndex.toNat AudioData).runDetector vad AudioData) := by
  have hlen : AudioData.length ≠ 0 := fun h => hdata (List.length_eq_zero.mp h)
  unfold UVoiceInteractionComponent.ProcessAudioData
  simp only [hlen, if_false, hsm, hl, hc, Bool.and_self, Bool.not_true, Bool.false_eq_true,
    hvad, hv, hvi, if_true, SequencePostprocessing.toIndex, hidx, and_self, hN]
  have : ((c.pushPreBuffer c.PreBufferCurrentIndex.toNat AudioData).runDetector vad
      AudioData).bIsBufferingVoice = c.bIsBufferingVoice := rfl
  rw [this]
  split_ifs <;> rfl


/-- C9, as stated, fails when voice is still active: the component is buffering
with voice active and its voice buffer holds `MaxBufferChunks = 2` blocks; the
next block forces a segmentation, yet once that block has been processed the
buffer still holds the two blocks from before the segmentation, followed by the
new one. -/
theorem C9_buffer_kept_while_voice_active :
    exampleBuffering.bIsBufferingVoice = true ∧
    exampleBuffering.bCurrentVoiceActivity = true ∧
    exampleBuffering.MaxBufferChunks = 2 ∧
    exampleBuffering.VoiceBuffer = [[1], [2]] ∧
    (exampleBuffering.ProcessAudioData [3]).map (fun c => c.VoiceBuffer)
      = some [[1], [2], [3]] ∧
    (exampleBuffering.ProcessAudioData [3]).map (fun c => c.NewSessionTimers) = some 1 := by
  decide!

/-- C9, amended. Whenever a non-empty block arrives in VAD-gated continuous
listening while the component is buffering voice and the voice buffer holds at
least `MaxBufferChunks` blocks, the call returns and a forced segmentation has
run on that block (the recognition session is closed). If voice is no longer
active, then once the block has been processed the buffer holds that block only
and buffering is off. If voice is still active, the buffer is not cleared by
that call: it holds the earlier blocks followed by the new one, buffering stays
on and a new-session timer is set; the buffer is emptied when that timer fires
with voice still active. -/
theorem C9_forced_segmentation (c : UVoiceInteractionComponent) (sm : USpeechManager)
    (vad : UVoiceActivityManager) (AudioData : List ℚ) (hdata : AudioData ≠ [])
    (hl : c.bIsListening = true) (hc : c.bContinuousRecognitionMode = true)
    (hsm : c.SpeechManager = some sm) (hv : c.bVADEnabled = true)
    (hvad : c.VADManager = some vad) (hvi : vad.bIsInitialized = true)
    (hidx : 0 ≤ c.PreBufferCurrentIndex ∧ c.PreBufferCurrentIndex < c.PreBuffer.length)
    (hN : c.PreBufferMaxChunks ≠ 0)
    (hb : c.bIsBufferingVoice = true) (hfull : (c.VoiceBuffer.length : Int) ≥ c.MaxBufferChunks) :
    ∃ c', c.ProcessAudioData AudioData = some c' ∧
      (∃ sm', c'.SpeechManager = some sm' ∧ sm'.bIsRecognitionActive = false) ∧
      (c.bCurrentVoiceActivity = false →
        c'.VoiceBuffer = [AudioData] ∧ c'.bIsBufferingVoice = false) ∧
      (c.bCurrentVoiceActivity = true →
        c'.VoiceBuffer = c.VoiceBuffer ++ [AudioData] ∧ c'.bIsBufferingVoice = true ∧
        c'.NewSessionTimers = c.NewSessionTimers + 1 ∧
        c'.NewSessionTimerFired.VoiceBuffer = []) := by
  rw [ProcessAudioData_gated c sm vad AudioData hdata hl hc hsm hv hvad hvi hidx hN, hb]
  obtain ⟨⟨sm', hs1, hs2⟩, p2, p4, p5⟩ :=
    bufferLiveBlock_full
      ((c.pushPreBuffer c.PreBufferCurrentIndex.toNat AudioData).runDetector vad AudioData)
      sm AudioData hsm hb hfull
  refine ⟨_, rfl, ⟨sm', hs1, hs2⟩, fun hact => p5 hact, fun hact => ?_⟩
  obtain ⟨q1, q2, q3⟩ := p4 hact
  refine ⟨q1, q2, q3, ?_⟩
  unfold UVoiceInteractionComponent.NewSessionTimerFired
  simp only [if_true, hs1]
  rw [p2]
  have : ((c.pushPreBuffer c.PreBufferCurrentIndex.toNat AudioData).runDetector vad
      AudioData).bCurrentVoiceActivity = true := hact
  rw [this]
  rfl

/-- C9 (amended) on the example component: the block `[3]` arrives with the
buffer full and voice active; the buffer keeps the earlier blocks and is emptied
when the new-session timer fires. -/
theorem C9_forced_segmentation_witness :
    ∃ c', exampleBuffering.ProcessAudioData [3] = some c' ∧
      c'.VoiceBuffer = [[1], [2], [3]] ∧ c'.NewSessionTimerFired.VoiceBuffer = [] := by
  obtain ⟨c', h1, -, -, h3⟩ :=
    C9_forced_segmentation exampleBuffering
      { bIsSDKInitialized := true, bIsRecognitionActive := true, SessionBeginResults := [],
        AudioWriteResults := [], Calls := [], SessionAudio := [], SpeechErrors := 0 }
      scenarioDetector [3] (by decide) (by decide) (by decide) (by decide!) (by decide)
      (by decide!) (by decide) (by decide) (by decide) (by decide) (by decide)
  exact ⟨c', h1, (h3 (by decide)).1, (h3 (by decide)).2.2.2⟩


/-! ### The voice-interaction component: pre-roll -/

/-- Writing at the current index of a ring and advancing the index drops the
oldest entry of the ring, read from the current index on, and appends the new
one. -/
theorem rotate_set_succ {α : Type} (buf : List α) (idx : Nat) (b : α) (h : idx < buf.length) :
    (buf.set idx b).rotate ((idx + 1) % buf.length) = (buf.rotate idx).tail ++ [b] := by
  have hlen : (buf.set idx b).length = buf.length := List.length_set _ _ _
  conv_lhs => rw [← hlen, List.rotate_mod]
  rw [List.rotate_eq_drop_append_take (by rw [hlen]; omega),
    List.rotate_eq_drop_append_take (by omega)]
  have h1 : (buf.set idx b).drop (idx + 1) = buf.drop (idx + 1) :=
    List.drop_set_of_lt b buf (Nat.lt_succ_self idx)
  have h2 : (buf.set idx b).take (idx + 1) = buf.take idx ++ [b] := by
    rw [List.set_eq_take_append_cons_drop, if_pos h]
    have hl : (List.take idx buf).length = idx := by
      rw [List.length_take]; omega
    rw [List.take_append_eq_append_take, hl, List.take_of_length_le (by omega)]
    simp
  have h3 : buf.drop idx = buf[idx] :: buf.drop (idx + 1) := by
    rw [List.drop_eq_getElem_cons h]
  rw [h1, h2, h3, List.cons_append, List.tail_cons, List.append_assoc]

/-- The non-empty entries among the last `N` of `N` empty blocks followed by
`blocks` are the last `min N k` of the `k` blocks. -/
theorem filter_last_entries (N : Nat) (blocks : List (List ℚ)) (hne : ∀ b ∈ blocks, b ≠ []) :
    ((List.replicate N ([] : List ℚ) ++ blocks).drop blocks.length).filter
        (fun ch => decide (ch.length > 0)) =
      blocks.drop (blocks.length - min N blocks.length) := by
  have hall : ∀ l : List (List ℚ), (∀ b ∈ l, b ≠ []) →
      l.filter (fun ch => decide (ch.length > 0)) = l := by
    intro l hl
    rw [List.filter_eq_self]
    intro b hb
    simpa [List.length_pos] using hl b hb
  have hrep : ∀ m : Nat, (List.replicate m ([] : List ℚ)).filter
      (fun ch => decide (ch.length > 0)) = [] := by
    intro m
    rw [List.filter_eq_nil_iff]
    intro b hb
    rw [List.eq_of_mem_replicate hb]
    simp
  by_cases hk : blocks.length ≤ N
  · rw [List.drop_append_of_le_length (by rw [List.length_replicate]; exact hk),
      List.filter_append, List.drop_replicate, hrep, List.nil_append, hall blocks hne,
      Nat.min_eq_right hk, Nat.sub_self, List.drop_zero]
  · have hk' : N ≤ blocks.length := by omega
    rw [List.drop_append_eq_append_drop, List.length_replicate,
      List.drop_eq_nil_of_le (by rw [List.length_replicate]; exact hk'), List.nil_append,
      Nat.min_eq_left hk']
    have hsub : blocks.length - (blocks.length - N) = N := by omega
    have hmem : ∀ b ∈ blocks.drop (blocks.length - N), b ≠ [] :=
      fun b hb => hne b (List.mem_of_mem_drop hb)
    rw [hall _ hmem]


theorem ProcessFloatAudioForVAD_initialized (vad : UVoiceActivityManager) (AudioData : List ℚ) :
    (vad.ProcessFloatAudioForVAD AudioData).2.1.bIsInitialized = vad.bIsInitialized := by
  unfold UVoiceActivityManager.ProcessFloatAudioForVAD
  split_ifs
  · rfl
  · simp only [UVoiceActivityManager.UpdateVoiceActivity, UVoiceActivityManager.countBlock]
    split_ifs <;> rfl

/-- One pre-buffered block: `ProcessAudioData` returns, forwards nothing and
the ring takes the block in. -/
theorem PreRollInv_step (N : Nat) (hN' : (N : Int) ≤ 2 ^ 30) (sm : USpeechManager)
    (pushed : List (List ℚ)) (c : UVoiceInteractionComponent) (b : List ℚ) (hb : b ≠ [])
    (h : PreRollInv N sm pushed c) :
    ∃ c', c.ProcessAudioData b = some c' ∧ c'.MaxBufferChunks = c.MaxBufferChunks ∧
      PreRollInv N sm (pushed ++ [b]) c' := by
  obtain ⟨h1, h2, h3, h4, ⟨vad, h5, h6⟩, h7, h8, h9, idx, h10, h11, h12⟩ := h
  norm_num at hN'
  have hN0 : c.PreBufferMaxChunks ≠ 0 := by rw [h8]; omega
  have hidx : 0 ≤ c.PreBufferCurrentIndex ∧ c.PreBufferCurrentIndex < c.PreBuffer.length := by
    rw [h10, h9]; omega
  rw [ProcessAudioData_gated c sm vad b hb h1 h2 h3 h4 h5 h6 hidx hN0, h7]
  refine ⟨_, rfl, rfl, h1, h2, h3, h4, ⟨_, rfl, ?_⟩, h7, h8, ?_, (idx + 1) % N, ?_, ?_, ?_⟩
  · rw [ProcessFloatAudioForVAD_initialized]; exact h6
  · show (c.PreBuffer.set _ b).length = N
    rw [List.length_set]; exact h9
  · show (wrapInt32 (c.PreBufferCurrentIndex + 1)).tmod c.PreBufferMaxChunks = _
    rw [h10, h8, wrapInt32_succ _ (by omega) (by norm_num; omega),
      Int.tmod_eq_emod (by omega) (by omega)]
    norm_cast
  · exact Nat.mod_lt _ (by omega)
  · show (c.PreBuffer.set c.PreBufferCurrentIndex.toNat b).rotate ((idx + 1) % N) = _
    have hto : c.PreBufferCurrentIndex.toNat = idx := by rw [h10]; rfl
    rw [hto]
    conv_lhs => rw [← h9]
    rw [rotate_set_succ _ _ _ (by rw [h9]; exact h11), h12, List.tail_drop,
      List.length_append, List.length_singleton, ← List.append_assoc]
    exact (List.drop_append_of_le_length (by
      rw [List.length_append, List.length_replicate]; omega)).symm

theorem PreRollInv_run (N : Nat) (hN' : (N : Int) ≤ 2 ^ 30) (sm : USpeechManager)
    (blocks : List (List ℚ)) (hne : ∀ b ∈ blocks, b ≠ []) (pushed : List (List ℚ))
    (c : UVoiceInteractionComponent) (h : PreRollInv N sm pushed c) :
    ∃ c', c.processBlocks blocks = some c' ∧ c'.MaxBufferChunks = c.MaxBufferChunks ∧
      PreRollInv N sm (pushed ++ blocks) c' := by
  induction blocks generalizing pushed c with
  | nil => exact ⟨c, rfl, rfl, by rw [List.append_nil]; exact h⟩
  | cons b rest ih =>
    obtain ⟨c1, e1, m1, i1⟩ :=
      PreRollInv_step N hN' sm pushed c b (hne b (List.mem_cons_self _ _)) h
    obtain ⟨c2, e2, m2, i2⟩ :=
      ih (fun x hx => hne x (List.mem_cons_of_mem _ hx)) (pushed ++ [b]) c1 i1
    refine ⟨c2, ?_, m2.trans m1, by rw [List.append_cons]; exact i2⟩
    unfold UVoiceInteractionComponent.processBlocks at e2 ⊢
    rw [List.foldlM_cons, e1]
    exact e2


theorem endSession_Calls (sm : USpeechManager) : sm.endSession.Calls = sm.Calls := by
  unfold USpeechManager.endSession
  split_ifs <;> rfl

theorem WriteSpeechData_Calls (sm : USpeechManager) (AudioData : List ℚ) :
    (sm.WriteSpeechData AudioData).2.Calls
      = sm.Calls ++ [FSpeechCall.WriteSpeechData AudioData] := by
  unfold USpeechManager.WriteSpeechData
  simp only
  split_ifs
  · rfl
  · rfl
  · rw [endSession_Calls]
  · rfl
  · rfl

theorem StartSpeechRecognition_Calls (sm : USpeechManager) :
    sm.StartSpeechRecognition.2.Calls = sm.Calls ++ [FSpeechCall.StartSpeechRecognition] := by
  unfold USpeechManager.StartSpeechRecognition
  simp only
  split_ifs <;> rfl

theorem written_WriteSpeechData (sm : USpeechManager) (AudioData : List ℚ) :
    (sm.WriteSpeechData AudioData).2.written = sm.written ++ [AudioData] := by
  unfold USpeechManager.written
  rw [WriteSpeechData_Calls, List.filterMap_append]
  rfl

theorem written_StartSpeechRecognition (sm : USpeechManager) :
    sm.StartSpeechRecognition.2.written = sm.written := by
  unfold USpeechManager.written
  rw [StartSpeechRecognition_Calls, List.filterMap_append]
  simp

/-- A non-empty chunk sent by a listening component with a speech manager is
passed to `WriteSpeechData`. -/
theorem SendAudioToSpeechRecognition_forwarded (c : UVoiceInteractionComponent)
    (AudioData : List ℚ) (hdata : AudioData ≠ []) (hl : c.bIsListening = true)
    (hsm : c.SpeechManager.isSome = true) :
    (c.SendAudioToSpeechRecognition AudioData).forwarded = c.forwarded ++ [AudioData] ∧
    (c.SendAudioToSpeechRecognition AudioData).SpeechManager.isSome = true := by
  have hlen : 0 < AudioData.length := List.length_pos.mpr hdata
  cases hs : c.SpeechManager with
  | none => rw [hs] at hsm; simp at hsm
  | some sm =>
    unfold UVoiceInteractionComponent.SendAudioToSpeechRecognition
    simp only [hs, hl, Bool.not_true, Bool.false_eq_true, if_false]
    rw [if_pos (by omega)]
    simp only [UVoiceInteractionComponent.forwarded, hs, written_WriteSpeechData,
      Option.isSome_some, and_self]

/-- A non-empty chunk written to an open session whose coming writes do not
report an expired session: the chunk is handed to the session, which stays
open. -/
theorem WriteSpeechData_session (sm : USpeechManager) (AudioData : List ℚ)
    (hdata : AudioData ≠ []) (hact : sm.bIsRecognitionActive = true)
    (hwr : ∀ ret ∈ sm.AudioWriteResults, ret ≠ 10008) :
    (sm.WriteSpeechData AudioData).2.bIsRecognitionActive = true ∧
    (∀ ret ∈ (sm.WriteSpeechData AudioData).2.AudioWriteResults, ret ≠ 10008) ∧
    (sm.WriteSpeechData AudioData).2.SessionAudio = sm.SessionAudio ++ [AudioData] := by
  have hlen : AudioData.length ≠ 0 := fun h => hdata (List.length_eq_zero.mp h)
  have htail : ∀ ret ∈ sm.AudioWriteResults.tail, ret ≠ 10008 :=
    fun ret h => hwr ret (List.mem_of_mem_tail h)
  have hhead : sm.AudioWriteResults.headD 0 ≠ 10008 := by
    cases hr : sm.AudioWriteResults with
    | nil => simp
    | cons a rest =>
      simp only [List.headD_cons]
      exact hwr a (by rw [hr]; exact List.mem_cons_self _ _)
  have hres : (sm.WriteSpeechData AudioData).2 =
      { sm with
        Calls := sm.Calls ++ [FSpeechCall.WriteSpeechData AudioData],
        AudioWriteResults := sm.AudioWriteResults.tail,
        SessionAudio := sm.SessionAudio ++ [AudioData] } := by
    unfold USpeechManager.WriteSpeechData
    simp only [hact, Bool.not_true, Bool.false_eq_true, if_false, hlen]
    by_cases h0 : sm.AudioWriteResults.headD 0 = 0
    · simp only [h0, ne_eq, not_true_eq_false, if_false]
    · simp only [ne_eq, h0, not_false_eq_true, if_true, hhead, if_false]
  rw [hres]
  exact ⟨hact, htail, rfl⟩

/-- A session begun on an initialised SDK with no session active, when
`QISRSessionBegin` succeeds: the session is open and nothing else changes in
the audio handed over or in the coming write results. -/
theorem StartSpeechRecognition_session (sm : USpeechManager)
    (hinit : sm.bIsSDKInitialized = true) (hact : sm.bIsRecognitionActive = false)
    (hok : sm.SessionBeginResults.headD true = true) :
    sm.StartSpeechRecognition.1 = true ∧
    sm.StartSpeechRecognition.2.bIsRecognitionActive = true ∧
    sm.StartSpeechRecognition.2.AudioWriteResults = sm.AudioWriteResults ∧
    sm.StartSpeechRecognition.2.SessionAudio = sm.SessionAudio := by
  have hres : sm.StartSpeechRecognition =
      (true,
        { sm with
          Calls := sm.Calls ++ [FSpeechCall.StartSpeechRecognition],
          SessionBeginResults := sm.SessionBeginResults.tail,
          bIsRecognitionActive := true }) := by
    unfold USpeechManager.StartSpeechRecognition
    simp only [hinit, hact, hok, Bool.not_true, Bool.false_eq_true, if_false]
  rw [hres]
  exact ⟨rfl, rfl, rfl, rfl⟩

/-- A non-empty chunk sent by a listening component whose session is open is
handed to the session. -/
theorem SendAudioToSpeechRecognition_session (c : UVoiceInteractionComponent)
    (AudioData : List ℚ) (hdata : AudioData ≠ []) (hl : c.bIsListening = true)
    (audio : List (List ℚ)) (ho : SessionOpen audio c) :
    SessionOpen (audio ++ [AudioData]) (c.SendAudioToSpeechRecognition AudioData) := by
  obtain ⟨sm, hs, ha, hw, hau⟩ := ho
  have hlen : 0 < AudioData.length := List.length_pos.mpr hdata
  obtain ⟨w1, w2, w3⟩ := WriteSpeechData_session sm AudioData hdata ha hw
  refine ⟨(sm.WriteSpeechData AudioData).2, ?_, w1, w2, by rw [w3, hau]⟩
  unfold UVoiceInteractionComponent.SendAudioToSpeechRecognition
  simp only [hs, hl, Bool.not_true, Bool.false_eq_true, if_false]
  rw [if_pos (by omega)]

/-- One iteration of the replay loop, for a counter `i` below the capacity:
the ring entry `i` places after the current index is sent and buffered when it
is not empty, and with an open session it is handed to the session. -/
theorem replayChunk_step (buf : List (List ℚ)) (idx N i : Nat) (hlen : buf.length = N)
    (hidx : idx < N) (hN' : N ≤ 2 ^ 30) (hi : i < N) (s : UVoiceInteractionComponent)
    (hs : ReplayState buf idx N s) :
    ∃ s', s.replayChunk i = some s' ∧ ReplayState buf idx N s' ∧
      s'.forwarded = s.forwarded ++
        ((buf.rotate idx)[i]?).toList.filter (fun ch => decide (ch.length > 0)) ∧
      s'.VoiceBuffer = s.VoiceBuffer ++
        ((buf.rotate idx)[i]?).toList.filter (fun ch => decide (ch.length > 0)) ∧
      s'.bIsBufferingVoice = s.bIsBufferingVoice ∧
      (∀ audio, SessionOpen audio s →
        SessionOpen (audio ++
          ((buf.rotate idx)[i]?).toList.filter (fun ch => decide (ch.length > 0))) s') := by
  obtain ⟨r1, r2, r3, r4, r5⟩ := hs
  norm_num at hN'
  have hNz : (N : Int) ≠ 0 := by omega
  have hw : wrapInt32 ((idx : Int) + (i : Int)) = (idx : Int) + i := by
    unfold wrapInt32; omega
  have hmod : ((idx : Int) + (i : Int)).tmod (N : Int) = (((idx + i) % N : Nat) : Int) := by
    rw [Int.tmod_eq_emod (by omega) (by omega), Int.natCast_mod, Int.natCast_add]
  have hlt : (idx + i) % N < N := Nat.mod_lt _ (by omega)
  have hget : buf[(idx + i) % N]? = (buf.rotate idx)[i]? := by
    rw [List.getElem?_rotate (by omega), hlen, Nat.add_comm]
  have hsome : ∃ ch, (buf.rotate idx)[i]? = some ch := by
    have : i < (buf.rotate idx).length := by rw [List.length_rotate]; omega
    exact ⟨_, List.getElem?_eq_getElem this⟩
  obtain ⟨ch, hch⟩ := hsome
  unfold UVoiceInteractionComponent.replayChunk
  simp only [r1, r2, r3, hNz, if_false, hw, hmod, SequencePostprocessing.toIndex, hlen]
  rw [if_pos ⟨by omega, by exact_mod_cast hlt⟩]
  simp only [Int.toNat_ofNat, hget, hch, Option.toList_some]
  by_cases hne : ch.length > 0
  · obtain ⟨f1, f2⟩ := SendAudioToSpeechRecognition_forwarded s ch
      (List.length_pos.mp hne) r4 r5
    obtain ⟨g1, g2, -, -, g5, g6, g7, g8⟩ := SendAudioToSpeechRecognition_fields s ch
    simp only [hne, if_true, List.filter_cons, decide_True, List.filter_nil]
    refine ⟨_, rfl, ⟨?_, ?_, ?_, ?_, f2⟩, ?_, ?_, g2, ?_⟩
    · exact g6.trans r1
    · exact g8.trans r2
    · exact g7.trans r3
    · exact g5.trans r4
    · exact f1
    · show (s.SendAudioToSpeechRecognition ch).VoiceBuffer ++ [ch] = _
      rw [g1]
    · intro audio ho
      obtain ⟨sm1, e1, e2, e3, e4⟩ := SendAudioToSpeechRecognition_session s ch
        (List.length_pos.mp hne) r4 audio ho
      exact ⟨sm1, e1, e2, e3, e4⟩
  · simp only [hne, if_false, List.filter_cons, decide_False, List.filter_nil,
      List.append_nil, Bool.false_eq_true]
    exact ⟨s, rfl, ⟨r1, r2, r3, r4, r5⟩, rfl, rfl, rfl, fun _ ho => ho⟩

/-- The first `n` iterations of the replay loop send and buffer, in ring order
from the current index, the non-empty ones among the first `n` ring entries;
with an open session they are handed to the session in that order. -/
theorem replay_prefix (buf : List (List ℚ)) (idx N : Nat) (hlen : buf.length = N)
    (hidx : idx < N) (hN' : N ≤ 2 ^ 30) (s : UVoiceInteractionComponent)
    (hs : ReplayState buf idx N s) (n : Nat) (hn : n ≤ N) :
    ∃ s', (List.range n).foldlM UVoiceInteractionComponent.replayChunk s = some s' ∧
      ReplayState buf idx N s' ∧
      s'.forwarded = s.forwarded ++
        ((buf.rotate idx).take n).filter (fun ch => decide (ch.length > 0)) ∧
      s'.VoiceBuffer = s.VoiceBuffer ++
        ((buf.rotate idx).take n).filter (fun ch => decide (ch.length > 0)) ∧
      s'.bIsBufferingVoice = s.bIsBufferingVoice ∧
      (∀ audio, SessionOpen audio s →
        SessionOpen (audio ++
          ((buf.rotate idx).take n).filter (fun ch => decide (ch.length > 0))) s') := by
  induction n with
  | zero => exact ⟨s, rfl, hs, by simp, by simp, rfl, fun _ ho => by simpa using ho⟩
  | succ k ih =>
    obtain ⟨s1, e1, i1, f1, v1, b1, o1⟩ := ih (by omega)
    obtain ⟨s2, e2, i2, f2, v2, b2, o2⟩ :=
      replayChunk_step buf idx N k hlen hidx hN' (by omega) s1 i1
    refine ⟨s2, ?_, i2, ?_, ?_, b2.trans b1, ?_⟩
    · rw [List.range_succ, List.foldlM_append, e1]
      simp only [Option.bind_eq_bind, Option.some_bind, List.foldlM_cons, List.foldlM_nil, e2]
      rfl
    · rw [f2, f1, List.take_succ, List.filter_append, List.append_assoc]
    · rw [v2, v1, List.take_succ, List.filter_append, List.append_assoc]
    · intro audio ho
      have := o2 _ (o1 audio ho)
      rw [List.append_assoc, ← List.filter_append, ← List.take_succ] at this
      exact this

/-- The voice-onset branch on a listening component whose ring is `buf` with
current index `idx`: it returns, turns buffering on, and forwards and buffers
the non-empty ring entries in ring order from the current index. When a session
is active, or the SDK is initialised and `QISRSessionBegin` succeeds, and no
coming write reports an expired session, those entries are handed to the open
session. -/
theorem startVoiceBuffering_replay (N : Nat) (hN' : N ≤ 2 ^ 30) (sm : USpeechManager)
    (idx : Nat) (c : UVoiceInteractionComponent) (hl : c.bIsListening = true)
    (hmax : c.PreBufferMaxChunks = N) (hlen : c.PreBuffer.length = N)
    (hcur : c.PreBufferCurrentIndex = idx) (hidx : idx < N) :
    ∃ c', c.startVoiceBuffering sm = some c' ∧
      c'.forwarded = sm.written ++
        (c.PreBuffer.rotate idx).filter (fun ch => decide (ch.length > 0)) ∧
      c'.VoiceBuffer = (c.PreBuffer.rotate idx).filter (fun ch => decide (ch.length > 0)) ∧
      c'.bIsBufferingVoice = true ∧
      ((sm.bIsRecognitionActive = true ∨
          (sm.bIsSDKInitialized = true ∧ sm.SessionBeginResults.headD true = true)) →
        (∀ ret ∈ sm.AudioWriteResults, ret ≠ 10008) →
        SessionOpen (sm.SessionAudio ++
          (c.PreBuffer.rotate idx).filter (fun ch => decide (ch.length > 0))) c') := by
  have hw : (if (!sm.bIsRecognitionActive) = true then sm.StartSpeechRecognition.2
      else sm).written = sm.written := by
    split_ifs
    · exact written_StartSpeechRecognition sm
    · rfl
  obtain ⟨s', e1, -, f1, v1, b1, o1⟩ :=
    replay_prefix c.PreBuffer idx N hlen hidx hN'
      { c with
        bIsBufferingVoice := true, VoiceBuffer := [], VoiceEndTimer := false,
        SpeechManager := some (if (!sm.bIsRecognitionActive) = true then
          sm.StartSpeechRecognition.2 else sm) }
      ⟨rfl, hcur, hmax, hl, rfl⟩ N (le_refl N)
  have htake : (c.PreBuffer.rotate idx).take N = c.PreBuffer.rotate idx :=
    List.take_of_length_le (by rw [List.length_rotate, hlen])
  have hto : c.PreBufferMaxChunks.toNat = N := by rw [hmax]; rfl
  unfold UVoiceInteractionComponent.startVoiceBuffering
    UVoiceInteractionComponent.replayPreBuffer
  simp only [hto, e1]
  refine ⟨_, rfl, ?_, ?_, b1, ?_⟩
  · show s'.forwarded = _
    rw [f1, htake]
    show (if (!sm.bIsRecognitionActive) = true then sm.StartSpeechRecognition.2
      else sm).written ++ _ = _
    rw [hw]
  · show s'.VoiceBuffer = _
    rw [v1, htake]
    rfl
  · intro hsdk hwr
    have hopen : SessionOpen sm.SessionAudio
        { c with
          bIsBufferingVoice := true, VoiceBuffer := [], VoiceEndTimer := false,
          SpeechManager := some (if (!sm.bIsRecognitionActive) = true then
            sm.StartSpeechRecognition.2 else sm) } := by
      refine ⟨_, rfl, ?_⟩
      cases ha : sm.bIsRecognitionActive with
      | true =>
        have hif : (if (!true) = true then sm.StartSpeechRecognition.2 else sm) = sm := rfl
        rw [hif]
        exact ⟨ha, hwr, rfl⟩
      | false =>
        have hif : (if (!false) = true then sm.StartSpeechRecognition.2 else sm)
            = sm.StartSpeechRecognition.2 := rfl
        rw [hif]
        rcases hsdk with h | ⟨h1, h2⟩
        · rw [ha] at h; cases h
        · obtain ⟨-, q2, q3, q4⟩ := StartSpeechRecognition_session sm h1 ha h2
          exact ⟨q2, by rw [q3]; exact hwr, q4⟩
    have := o1 _ hopen
    rw [htake] at this
    obtain ⟨sm1, e1, e2, e3, e4⟩ := this
    exact ⟨sm1, e1, e2, e3, e4⟩

/-- The voice-onset handler on a pre-buffering component: it returns, turns
buffering on, and forwards and buffers the non-empty ones among the last `N`
entries of `N` empty blocks followed by the pushed blocks; when the session is
or gets open they are handed to the session. -/
theorem OnVADActivityChangedInternal_onset (N : Nat) (hN' : (N : Int) ≤ 2 ^ 30)
    (sm : USpeechManager) (pushed : List (List ℚ)) (c : UVoiceInteractionComponent)
    (h : PreRollInv N sm pushed c) :
    ∃ c', c.OnVADActivityChangedInternal true = some c' ∧
      c'.forwarded = c.forwarded ++
        ((List.replicate N ([] : List ℚ) ++ pushed).drop pushed.length).filter
          (fun ch => decide (ch.length > 0)) ∧
      c'.VoiceBuffer =
        ((List.replicate N ([] : List ℚ) ++ pushed).drop pushed.length).filter
          (fun ch => decide (ch.length > 0)) ∧
      c'.bIsBufferingVoice = true ∧
      ((sm.bIsRecognitionActive = true ∨
          (sm.bIsSDKInitialized = true ∧ sm.SessionBeginResults.headD true = true)) →
        (∀ ret ∈ sm.AudioWriteResults, ret ≠ 10008) →
        SessionOpen (sm.SessionAudio ++
          ((List.replicate N ([] : List ℚ) ++ pushed).drop pushed.length).filter
            (fun ch => decide (ch.length > 0))) c') := by
  obtain ⟨h1, h2, h3, -, -, h7, h8, h9, idx, h10, h11, h12⟩ := h
  have hN2 : N ≤ 2 ^ 30 := by exact_mod_cast hN'
  obtain ⟨c', e, f, v, b, o⟩ :=
    startVoiceBuffering_replay N hN2 sm idx (c.noteVoiceActivity true) h1 h8 h9 h10 h11
  have hfw : c.forwarded = sm.written := by
    simp only [UVoiceInteractionComponent.forwarded, h3]
  have hpre : (c.noteVoiceActivity true).PreBuffer = c.PreBuffer := rfl
  rw [hpre, h12] at f v o
  refine ⟨c', ?_, by rw [hfw]; exact f, v, b, o⟩
  unfold UVoiceInteractionComponent.OnVADActivityChangedInternal
  have e1 : (c.noteVoiceActivity true).SpeechManager = some sm := h3
  have e2 : (c.noteVoiceActivity true).bContinuousRecognitionMode = true := h2
  have e3 : (c.noteVoiceActivity true).bIsBufferingVoice = false := h7
  simp only [e1, e2, e3, Bool.not_true, Bool.false_eq_true, if_false, if_true, Bool.not_false]
  exact e

theorem ProcessLongSpeechSegment_ring (c : UVoiceInteractionComponent) :
    c.ProcessLongSpeechSegment.PreBuffer = c.PreBuffer ∧
    c.ProcessLongSpeechSegment.PreBufferMaxChunks = c.PreBufferMaxChunks ∧
    c.ProcessLongSpeechSegment.PreBufferCurrentIndex = c.PreBufferCurrentIndex := by
  unfold UVoiceInteractionComponent.ProcessLongSpeechSegment
  cases c.SpeechManager with
  | none => exact ⟨rfl, rfl, rfl⟩
  | some sm =>
    dsimp only
    split_ifs <;> exact ⟨rfl, rfl, rfl⟩

theorem bufferLiveBlock_ring (c : UVoiceInteractionComponent) (AudioData : List ℚ) :
    (c.bufferLiveBlock AudioData).PreBuffer = c.PreBuffer ∧
    (c.bufferLiveBlock AudioData).PreBufferMaxChunks = c.PreBufferMaxChunks ∧
    (c.bufferLiveBlock AudioData).PreBufferCurrentIndex = c.PreBufferCurrentIndex := by
  obtain ⟨p1, p2, p3⟩ := ProcessLongSpeechSegment_ring c
  have key : ∀ (x : UVoiceInteractionComponent) (o : Option USpeechManager),
      (match o with
        | none => x
        | some sm4 =>
          if sm4.bIsRecognitionActive then x.SendAudioToSpeechRecognition AudioData
          else x).PreBuffer = x.PreBuffer ∧
      (match o with
        | none => x
        | some sm4 =>
          if sm4.bIsRecognitionActive then x.SendAudioToSpeechRecognition AudioData
          else x).PreBufferMaxChunks = x.PreBufferMaxChunks ∧
      (match o with
        | none => x
        | some sm4 =>
          if sm4.bIsRecognitionActive then x.SendAudioToSpeechRecognition AudioData
          else x).PreBufferCurrentIndex = x.PreBufferCurrentIndex := by
    intro x o
    obtain ⟨-, -, -, -, -, g6, g7, g8⟩ := SendAudioToSpeechRecognition_fields x AudioData
    cases o with
    | none => exact ⟨rfl, rfl, rfl⟩
    | some sm4 =>
      dsimp only
      split_ifs
      · exact ⟨g6, g7, g8⟩
      · exact ⟨rfl, rfl, rfl⟩
  unfold UVoiceInteractionComponent.bufferLiveBlock
  dsimp only
  split_ifs
  · obtain ⟨k1, k2, k3⟩ := key
      { c.ProcessLongSpeechSegment with
        VoiceBuffer := c.ProcessLongSpeechSegment.VoiceBuffer ++ [AudioData] }
      c.ProcessLongSpeechSegment.SpeechManager
    exact ⟨k1.trans p1, k2.trans p2, k3.trans p3⟩
  · exact key { c with VoiceBuffer := c.VoiceBuffer ++ [AudioData] } c.SpeechManager

/-- Every non-empty block processed in VAD-gated continuous listening is pushed
into the ring, whether or not the component is buffering: the call returns,
and read from the current index on the ring again holds the last `N` entries of
`N` empty blocks followed by the blocks pushed so far. -/
theorem ProcessAudioData_ring (N : Nat) (hN' : (N : Int) ≤ 2 ^ 30)
    (c : UVoiceInteractionComponent) (sm : USpeechManager) (vad : UVoiceActivityManager)
    (idx : Nat) (pushed : List (List ℚ)) (b : List ℚ) (hb : b ≠ [])
    (hl : c.bIsListening = true) (hc : c.bContinuousRecognitionMode = true)
    (hsm : c.SpeechManager = some sm) (hv : c.bVADEnabled = true)
    (hvad : c.VADManager = some vad) (hvi : vad.bIsInitialized = true)
    (hmax : c.PreBufferMaxChunks = N) (hlen : c.PreBuffer.length = N)
    (hidx : c.PreBufferCurrentIndex = idx) (hlt : idx < N)
    (hpre : c.PreBuffer.rotate idx
      = (List.replicate N ([] : List ℚ) ++ pushed).drop pushed.length) :
    ∃ c', c.ProcessAudioData b = some c' ∧
      c'.PreBufferMaxChunks = N ∧ c'.PreBuffer.length = N ∧
      c'.PreBufferCurrentIndex = ((idx + 1) % N : Nat) ∧
      c'.PreBuffer.rotate ((idx + 1) % N)
        = (List.replicate N ([] : List ℚ) ++ (pushed ++ [b])).drop (pushed ++ [b]).length := by
  norm_num at hN'
  have hN0 : c.PreBufferMaxChunks ≠ 0 := by rw [hmax]; omega
  have hidx' : 0 ≤ c.PreBufferCurrentIndex ∧ c.PreBufferCurrentIndex < c.PreBuffer.length := by
    rw [hidx, hlen]; omega
  rw [ProcessAudioData_gated c sm vad b hb hl hc hsm hv hvad hvi hidx' hN0]
  have hpush : ((c.pushPreBuffer c.PreBufferCurrentIndex.toNat b).runDetector vad b).PreBufferMaxChunks
        = N ∧
      ((c.pushPreBuffer c.PreBufferCurrentIndex.toNat b).runDetector vad b).PreBuffer.length = N ∧
      ((c.pushPreBuffer c.PreBufferCurrentIndex.toNat b).runDetector vad b).PreBufferCurrentIndex
        = ((idx + 1) % N : Nat) ∧
      ((c.pushPreBuffer c.PreBufferCurrentIndex.toNat b).runDetector vad b).PreBuffer.rotate
          ((idx + 1) % N)
        = (List.replicate N ([] : List ℚ) ++ (pushed ++ [b])).drop (pushed ++ [b]).length := by
    refine ⟨hmax, ?_, ?_, ?_⟩
    · show (c.PreBuffer.set _ b).length = N
      rw [List.length_set]; exact hlen
    · show (wrapInt32 (c.PreBufferCurrentIndex + 1)).tmod c.PreBufferMaxChunks = _
      rw [hidx, hmax, wrapInt32_succ _ (by omega) (by norm_num; omega),
        Int.tmod_eq_emod (by omega) (by omega)]
      norm_cast
    · show (c.PreBuffer.set c.PreBufferCurrentIndex.toNat b).rotate ((idx + 1) % N) = _
      have hto : c.PreBufferCurrentIndex.toNat = idx := by rw [hidx]; rfl
      rw [hto]
      conv_lhs => rw [← hlen]
      rw [rotate_set_succ _ _ _ (by rw [hlen]; exact hlt), hpre, List.tail_drop,
        List.length_append, List.length_singleton, ← List.append_assoc]
      exact (List.drop_append_of_le_length (by
        rw [List.length_append, List.length_replicate]; omega)).symm
  obtain ⟨a1, a2, a3, a4⟩ := hpush
  by_cases hbuf : c.bIsBufferingVoice = true
  · rw [if_pos hbuf]
    obtain ⟨r1, r2, r3⟩ := bufferLiveBlock_ring
      ((c.pushPreBuffer c.PreBufferCurrentIndex.toNat b).runDetector vad b) b
    exact ⟨_, rfl, r2.trans a1, by rw [r1]; exact a2, r3.trans a3, by rw [r1]; exact a4⟩
  · rw [if_neg hbuf]
    exact ⟨_, rfl, a1, a2, a3, a4⟩

theorem SameSetup_refl (a : UVoiceInteractionComponent) : SameSetup a a :=
  ⟨rfl, rfl, rfl, rfl, rfl, rfl, rfl, rfl⟩

theorem SameSetup_trans (a b c : UVoiceInteractionComponent) (h1 : SameSetup a b)
    (h2 : SameSetup b c) : SameSetup a c := by
  obtain ⟨a1, a2, a3, a4, a5, a6, a7, a8⟩ := h1
  obtain ⟨b1, b2, b3, b4, b5, b6, b7, b8⟩ := h2
  exact ⟨a1.trans b1, a2.trans b2, a3.trans b3, a4.trans b4, a5.trans b5, a6.trans b6,
    a7.trans b7, a8.trans b8⟩

theorem SendAudioToSpeechRecognition_SameSetup (c : UVoiceInteractionComponent)
    (AudioData : List ℚ) : SameSetup (c.SendAudioToSpeechRecognition AudioData) c := by
  unfold UVoiceInteractionComponent.SendAudioToSpeechRecognition
  cases c.SpeechManager with
  | none => exact SameSetup_refl c
  | some sm =>
    dsimp only
    split_ifs
    · exact SameSetup_refl c
    · exact ⟨rfl, rfl, rfl, rfl, rfl, rfl, rfl, rfl⟩
    · exact SameSetup_refl c

theorem replayChunk_SameSetup (s s' : UVoiceInteractionComponent) (i : Nat)
    (h : s.replayChunk i = some s') : SameSetup s' s := by
  unfold UVoiceInteractionComponent.replayChunk at h
  split_ifs at h
  split at h
  · cases h
  · split at h
    · cases h
    · split_ifs at h
      · have := Option.some.inj h
        subst this
        exact SendAudioToSpeechRecognition_SameSetup s _
      · have := Option.some.inj h
        subst this
        exact SameSetup_refl _

theorem replayLoop_SameSetup (l : List Nat) :
    ∀ s s' : UVoiceInteractionComponent,
      l.foldlM UVoiceInteractionComponent.replayChunk s = some s' → SameSetup s' s := by
  induction l with
  | nil =>
    intro s s' h
    have := Option.some.inj h
    subst this
    exact SameSetup_refl _
  | cons i rest ih =>
    intro s s' h
    rw [List.foldlM_cons] at h
    cases h1 : s.replayChunk i with
    | none => rw [h1] at h; cases h
    | some s1 =>
      rw [h1] at h
      exact SameSetup_trans _ _ _ (ih s1 s' h) (replayChunk_SameSetup s s1 i h1)

theorem startVoiceBuffering_SameSetup (c c' : UVoiceInteractionComponent) (sm : USpeechManager)
    (h : c.startVoiceBuffering sm = some c') : SameSetup c' c := by
  unfold UVoiceInteractionComponent.startVoiceBuffering
    UVoiceInteractionComponent.replayPreBuffer at h
  dsimp only at h
  split at h
  · cases h
  · rename_i c3 hc3
    have := Option.some.inj h
    subst this
    obtain ⟨a1, a2, a3, a4, a5, a6, a7, a8⟩ := replayLoop_SameSetup _ _ _ hc3
    exact ⟨a1, a2, a3, a4, a5, a6, a7, a8⟩

/-- The voice-activity handler leaves the listening flags, the detector, the
ring and the buffer limit as they are. -/
theorem OnVADActivityChangedInternal_SameSetup (c c' : UVoiceInteractionComponent)
    (bVoiceDetected : Bool) (h : c.OnVADActivityChangedInternal bVoiceDetected = some c') :
    SameSetup c' c := by
  unfold UVoiceInteractionComponent.OnVADActivityChangedInternal at h
  dsimp only at h
  split at h
  · have := Option.some.inj h
    subst this
    exact ⟨rfl, rfl, rfl, rfl, rfl, rfl, rfl, rfl⟩
  · split_ifs at h
    · have := Option.some.inj h
      subst this
      exact ⟨rfl, rfl, rfl, rfl, rfl, rfl, rfl, rfl⟩
    · exact SameSetup_trans _ _ _ (startVoiceBuffering_SameSetup _ _ _ h)
        ⟨rfl, rfl, rfl, rfl, rfl, rfl, rfl, rfl⟩
    · have := Option.some.inj h
      subst this
      exact ⟨rfl, rfl, rfl, rfl, rfl, rfl, rfl, rfl⟩
    · have := Option.some.inj h
      subst this
      exact ⟨rfl, rfl, rfl, rfl, rfl, rfl, rfl, rfl⟩
    · have := Option.some.inj h
      subst this
      exact ⟨rfl, rfl, rfl, rfl, rfl, rfl, rfl, rfl⟩

/-- A live block buffered while the voice buffer has room, by a listening
component whose session is open: the block is handed to the session. -/
theorem bufferLiveBlock_session (c : UVoiceInteractionComponent) (AudioData : List ℚ)
    (hdata : AudioData ≠ []) (hl : c.bIsListening = true)
    (hroom : (c.VoiceBuffer.length : Int) < c.MaxBufferChunks)
    (audio : List (List ℚ)) (ho : SessionOpen audio c) :
    SessionOpen (audio ++ [AudioData]) (c.bufferLiveBlock AudioData) := by
  obtain ⟨sm, hs, ha, hw, hau⟩ := ho
  have hopen : SessionOpen audio { c with VoiceBuffer := c.VoiceBuffer ++ [AudioData] } :=
    ⟨sm, hs, ha, hw, hau⟩
  have := SendAudioToSpeechRecognition_session
    { c with VoiceBuffer := c.VoiceBuffer ++ [AudioData] } AudioData hdata hl audio hopen
  have hbl : c.bufferLiveBlock AudioData =
      UVoiceInteractionComponent.SendAudioToSpeechRecognition
        { c with VoiceBuffer := c.VoiceBuffer ++ [AudioData] } AudioData := by
    unfold UVoiceInteractionComponent.bufferLiveBlock
    rw [if_neg (by omega)]
    simp only [hs, ha, if_true]
  rw [hbl]
  exact this

/-- C4. Pre-roll guarantee. A component listens in VAD-gated continuous mode
and is not buffering; its pre-roll ring has capacity `N` and, read from the
current index on, holds the last `N` entries of `N` empty blocks followed by
`earlier`, the non-empty blocks pushed so far (none for the ring of the
constructor; `ProcessAudioData_ring` shows that this description is kept by
every push, buffering or not). It then processes the non-empty blocks `blocks`
with `ProcessAudioData`: every call returns and the speech manager is
untouched, so nothing is forwarded. The voice-onset handler
`OnVADActivityChangedInternal(true)` then returns and passes to
`WriteSpeechData` exactly the last `min N k` of the `k` blocks pushed
(`earlier` followed by `blocks`), oldest first in arrival order, and nothing
else; the same blocks start the voice buffer, and buffering is on. When a
session is active, or the SDK is initialised and `QISRSessionBegin` succeeds,
and no coming `QISRAudioWrite` reports an expired session, the session is open
after the handler and the audio handed to it has grown by exactly those blocks,
in that order; and a live block processed next, while the voice buffer has
room, is handed to the session after them. -/
theorem C4_preroll_replay (N : Nat) (hN' : (N : Int) ≤ 2 ^ 30)
    (c0 : UVoiceInteractionComponent) (sm : USpeechManager) (vad : UVoiceActivityManager)
    (idx : Nat) (earlier blocks : List (List ℚ))
    (hne0 : ∀ b ∈ earlier, b ≠ []) (hne : ∀ b ∈ blocks, b ≠ [])
    (hl : c0.bIsListening = true) (hc : c0.bContinuousRecognitionMode = true)
    (hsm : c0.SpeechManager = some sm) (hv : c0.bVADEnabled = true)
    (hvad : c0.VADManager = some vad) (hvi : vad.bIsInitialized = true)
    (hb : c0.bIsBufferingVoice = false) (hmax : c0.PreBufferMaxChunks = N)
    (hlen : c0.PreBuffer.length = N) (hidx : c0.PreBufferCurrentIndex = idx) (hlt : idx < N)
    (hpre : c0.PreBuffer.rotate idx
      = (List.replicate N ([] : List ℚ) ++ earlier).drop earlier.length) :
    ∃ c1 c2, c0.processBlocks blocks = some c1 ∧ c1.SpeechManager = some sm ∧
      c1.OnVADActivityChangedInternal true = some c2 ∧
      c2.forwarded = c1.forwarded ++
        (earlier ++ blocks).drop
          ((earlier ++ blocks).length - min N (earlier ++ blocks).length) ∧
      c2.VoiceBuffer =
        (earlier ++ blocks).drop
          ((earlier ++ blocks).length - min N (earlier ++ blocks).length) ∧
      c2.bIsBufferingVoice = true ∧
      ((sm.bIsRecognitionActive = true ∨
          (sm.bIsSDKInitialized = true ∧ sm.SessionBeginResults.headD true = true)) →
        (∀ ret ∈ sm.AudioWriteResults, ret ≠ 10008) →
        (∃ sm2, c2.SpeechManager = some sm2 ∧ sm2.bIsRecognitionActive = true ∧
          sm2.SessionAudio = sm.SessionAudio ++
            (earlier ++ blocks).drop
              ((earlier ++ blocks).length - min N (earlier ++ blocks).length)) ∧
        (∀ live : List ℚ, live ≠ [] →
          ((min N (earlier ++ blocks).length : Nat) : Int) < c0.MaxBufferChunks →
          ∃ c3 sm3, c2.ProcessAudioData live = some c3 ∧ c3.SpeechManager = some sm3 ∧
            sm3.SessionAudio = sm.SessionAudio ++
              (earlier ++ blocks).drop
                ((earlier ++ blocks).length - min N (earlier ++ blocks).length) ++ [live])) := by
  have h0 : PreRollInv N sm earlier c0 :=
    ⟨hl, hc, hsm, hv, ⟨vad, hvad, hvi⟩, hb, hmax, hlen, idx, hidx, hlt, hpre⟩
  obtain ⟨c1, e1, m1, i1⟩ := PreRollInv_run N hN' sm blocks hne earlier c0 h0
  obtain ⟨c2, e2, f2, v2, b2, o2⟩ :=
    OnVADActivityChangedInternal_onset N hN' sm (earlier ++ blocks) c1 i1
  have hne2 : ∀ b ∈ earlier ++ blocks, b ≠ [] := by
    intro b hb
    rcases List.mem_append.mp hb with h | h
    · exact hne0 b h
    · exact hne b h
  rw [filter_last_entries N (earlier ++ blocks) hne2] at f2 v2 o2
  refine ⟨c1, c2, e1, i1.2.2.1, e2, f2, v2, b2, fun hsdk hwr => ?_⟩
  have hopen := o2 hsdk hwr
  obtain ⟨sm2, q1, q2, q3, q4⟩ := hopen
  refine ⟨⟨sm2, q1, q2, q4⟩, fun live hlive hroom => ?_⟩
  obtain ⟨s1, s2, s3, s4, s5, s6, s7, s8⟩ := OnVADActivityChangedInternal_SameSetup c1 c2 true e2
  obtain ⟨j1, j2, -, j4, ⟨vad1, j5, j6⟩, -, j8, j9, idx1, j10, j11, -⟩ := i1
  norm_num at hN'
  have hidx2 : 0 ≤ c2.PreBufferCurrentIndex ∧ c2.PreBufferCurrentIndex < c2.PreBuffer.length := by
    rw [s7, s5, j10, j9]; omega
  have hN02 : c2.PreBufferMaxChunks ≠ 0 := by rw [s6, j8]; omega
  rw [ProcessAudioData_gated c2 sm2 vad1 live hlive (s1.trans j1) (s2.trans j2) q1
    (s3.trans j4) (s4.trans j5) j6 hidx2 hN02, if_pos b2]
  have hlenv : c2.VoiceBuffer.length = min N (earlier ++ blocks).length := by
    rw [v2, List.length_drop]
    omega
  have hroom2 : (((c2.pushPreBuffer c2.PreBufferCurrentIndex.toNat live).runDetector vad1
      live).VoiceBuffer.length : Int)
      < ((c2.pushPreBuffer c2.PreBufferCurrentIndex.toNat live).runDetector vad1
        live).MaxBufferChunks := by
    show (c2.VoiceBuffer.length : Int) < c2.MaxBufferChunks
    rw [hlenv, s8, m1]
    exact hroom
  obtain ⟨sm3, t1, -, -, t4⟩ := bufferLiveBlock_session
    ((c2.pushPreBuffer c2.PreBufferCurrentIndex.toNat live).runDetector vad1 live) live hlive
    (s1.trans j1) hroom2 _ ⟨sm2, q1, q2, q3, q4⟩
  exact ⟨_, sm3, rfl, t1, t4⟩

/-- C4 on two example components whose SDK accepts every call. On
`exampleListening` (ring of the constructor, capacity 10) after twelve
one-sample blocks, the onset handler opens the session and hands it the last
ten blocks, oldest first, and the live block `[13]` processed next follows
them. On `exampleLaterOnset` (capacity 3, four blocks pushed before) after one
more block, the session receives the last three of the five blocks pushed. -/
theorem C4_preroll_replay_witness :
    (∃ c1 c2 sm2 c3 sm3,
      exampleListening.processBlocks
        [[1], [2], [3], [4], [5], [6], [7], [8], [9], [10], [11], [12]] = some c1 ∧
      c1.forwarded = [] ∧
      c1.OnVADActivityChangedInternal true = some c2 ∧
      c2.forwarded = [[3], [4], [5], [6], [7], [8], [9], [10], [11], [12]] ∧
      c2.SpeechManager = some sm2 ∧ sm2.bIsRecognitionActive = true ∧
      sm2.SessionAudio = [[3], [4], [5], [6], [7], [8], [9], [10], [11], [12]] ∧
      c2.ProcessAudioData [13] = some c3 ∧ c3.SpeechManager = some sm3 ∧
      sm3.SessionAudio = [[3], [4], [5], [6], [7], [8], [9], [10], [11], [12], [13]]) ∧
    (∃ c1 c2 sm2,
      exampleLaterOnset.processBlocks [[5]] = some c1 ∧
      c1.OnVADActivityChangedInternal true = some c2 ∧
      c2.SpeechManager = some sm2 ∧ sm2.bIsRecognitionActive = true ∧
      sm2.SessionAudio = [[3], [4], [5]]) := by
  obtain ⟨c1, c2, h1, h2, h3, h4, -, -, h7⟩ :=
    C4_preroll_replay 10 (by decide) exampleListening
      { bIsSDKInitialized := true, bIsRecognitionActive := false, SessionBeginResults := [],
        AudioWriteResults := [], Calls := [], SessionAudio := [], SpeechErrors := 0 }
      scenarioDetector 0 []
      [[1], [2], [3], [4], [5], [6], [7], [8], [9], [10], [11], [12]]
      (by decide) (by decide!) (by decide) (by decide) (by decide!) (by decide) (by decide!)
      (by decide) (by decide) (by decide) (by decide) (by decide) (by decide) (by decide!)
  obtain ⟨d1, d2, k1, -, k3, -, -, -, k7⟩ :=
    C4_preroll_replay 3 (by decide) exampleLaterOnset
      { bIsSDKInitialized := true, bIsRecognitionActive := false, SessionBeginResults := [],
        AudioWriteResults := [], Calls := [], SessionAudio := [], SpeechErrors := 0 }
      scenarioDetector 1 [[1], [2], [3], [4]] [[5]]
      (by decide!) (by decide!) (by decide) (by decide) (by decide!) (by decide) (by decide!)
      (by decide) (by decide) (by decide) (by decide) (by decide) (by decide) (by decide!)
  obtain ⟨⟨sm2, a1, a2, a3⟩, hlive⟩ := h7 (Or.inr ⟨rfl, rfl⟩) (by intro ret hr; cases hr)
  obtain ⟨⟨sm3, b1, b2, b3⟩, -⟩ := k7 (Or.inr ⟨rfl, rfl⟩) (by intro ret hr; cases hr)
  obtain ⟨c3, sm4, l1, l2, l3⟩ := hlive [13] (by decide) (by decide)
  have h2' : c1.forwarded = [] := by
    simp only [UVoiceInteractionComponent.forwarded, h2]
    rfl
  refine ⟨⟨c1, c2, sm2, c3, sm4, h1, h2', h3, ?_, a1, a2, ?_, l1, l2, ?_⟩,
    ⟨d1, d2, sm3, k1, k3, b1, b2, ?_⟩⟩
  · rw [h4, h2']
    rfl
  · rw [a3]
    rfl
  · rw [l3]
    rfl
  · rw [b3]
    rfl


/-! ### The sequence post-processing -/

theorem setAt_map_range (K i : Nat) (v : ℚ) (f g : Nat → ℚ) (hi : i < K)
    (hg : ∀ j, j < K → g j = if j = i then v else f j) :
    SequencePostprocessing.setAt ((List.range K).map f) i v = some ((List.range K).map g) := by
  unfold SequencePostprocessing.setAt
  rw [if_pos (by simpa using hi)]
  congr 1
  apply List.ext_getElem
  · simp
  · intro n h1 h2
    have hn : n < K := by simpa using h2
    rw [List.getElem_set]
    simp only [List.getElem_map, List.getElem_range]
    rw [hg n hn]
    by_cases hni : n = i
    · simp [hni]
    · have : ¬ i = n := fun h => hni h.symm
      simp [hni, this]

/-- The inner loop of `Grow` on a two-element array: after `m` iterations the
first `m` entries hold the interpolated values. -/
theorem Grow_inner (a b : ℚ) (K : Nat) (m : Nat) (hm : m ≤ K) :
    (List.range m).foldlM
        (fun res j => do
          let Vi ← [a, b][0]?
          let Vi1 ← [a, b][0 + 1]?
          SequencePostprocessing.setAt res (0 * K + j)
            (SequencePostprocessing.Lerp Vi Vi1 ((j : ℚ) / ((K : Int) : ℚ))))
        ((List.range K).map (fun _ => (0 : ℚ))) =
      some ((List.range K).map
        (fun j => if j < m then SequencePostprocessing.Lerp a b ((j : ℚ) / (K : ℚ)) else 0)) := by
  induction m with
  | zero => simp
  | succ k ih =>
    rw [List.range_succ, List.foldlM_append, ih (by omega)]
    simp only [Option.bind_eq_bind, Option.some_bind, List.foldlM_cons, List.foldlM_nil,
      List.getElem?_cons_zero, zero_add, List.getElem?_cons_succ, zero_mul, Int.cast_natCast]
    rw [setAt_map_range K k _ _
      (fun j => if j < k + 1 then SequencePostprocessing.Lerp a b ((j : ℚ) / (K : ℚ)) else 0)
      (by omega)]
    · rfl
    · intro j _
      by_cases hjk : j = k
      · simp [hjk]
      · have h1 : j < k + 1 ↔ j < k := by omega
        simp [hjk, h1]

/-- `Grow({a, b}, K)` for `K ≥ 1` returns the `K` values `growVal a b K k`. -/
theorem Grow_pair (a b : ℚ) (K : Nat) (hK : 1 ≤ K) :
    SequencePostprocessing.Grow [a, b] (K : Int) = some ((List.range K).map (growVal a b K)) := by
  have hrep : List.replicate K (0 : ℚ) = (List.range K).map (fun _ => (0 : ℚ)) := by
    apply List.ext_getElem <;> simp
  have hr1 : List.range ([a, b].length - 1) = [0] := rfl
  have hin := Grow_inner a b K K (le_refl K)
  unfold SequencePostprocessing.Grow
  rw [if_neg (by omega), Int.toNat_ofNat, hr1, hrep]
  simp only [List.foldlM_cons, List.foldlM_nil, bind_pure]
  rw [hin]
  simp only [Option.bind_eq_bind, Option.some_bind, List.getLast?_cons_cons,
    List.getLast?_singleton, List.length_map, List.length_range]
  rw [if_neg (by omega)]
  apply setAt_map_range K (K - 1) b _ _ (by omega)
  intro j hj
  unfold growVal
  by_cases h : j = K - 1
  · have : j + 1 = K := by omega
    rw [if_pos this, if_pos h]
  · have : ¬ j + 1 = K := by omega
    rw [if_neg this, if_neg h, if_pos hj]


theorem overwrittenRow_congr (G : Nat → ℚ) (Pj Pj' : Nat → Bool) (f : FLipSyncFrame)
    (h : ∀ c, c < f.VisemeScores.length → Pj c = Pj' c) :
    overwrittenRow G Pj f = overwrittenRow G Pj' f := by
  unfold overwrittenRow
  congr 1
  apply List.ext_getElem
  · simp
  · intro c h1 h2
    have hc : c < f.VisemeScores.length := by simpa using h1
    simp only [List.getElem_mapIdx, h c hc]

theorem overwrittenRow_set (G : Nat → ℚ) (Pj Pj' : Nat → Bool) (f : FLipSyncFrame) (c0 : Nat)
    (h : ∀ c, Pj' c = (Pj c || c == c0)) :
    (overwrittenRow G Pj f).VisemeScores.set c0 (G c0)
      = (overwrittenRow G Pj' f).VisemeScores := by
  unfold overwrittenRow
  apply List.ext_getElem
  · simp
  · intro c h1 h2
    rw [List.getElem_set]
    simp only [List.getElem_mapIdx, h c]
    by_cases hc : c0 = c
    · subst hc; simp
    · have hc' : ¬ c = c0 := fun e => hc e.symm
      simp [hc, hc']

theorem overwritten_getElem? (s e : Nat) (P : Nat → Nat → Bool) (frames : List FLipSyncFrame)
    (j : Nat) :
    (overwritten s e P frames)[j]? =
      frames[j]?.map (overwrittenRow
        (fun c => growVal (scoreAt frames s c) (scoreAt frames e c) (e - s) (j - s - 1))
        (P j)) := by
  unfold overwritten
  rw [List.getElem?_mapIdx]

/-- One assignment `SequenceFrames[j0].VisemeScores[c0] = v` of the
interpolation loop adds the position `(j0, c0)` to the overwritten ones. -/
theorem setScore_overwritten (s e : Nat) (P P' : Nat → Nat → Bool)
    (frames : List FLipSyncFrame) (j0 c0 : Nat) (f0 : FLipSyncFrame)
    (hj : frames[j0]? = some f0) (hc : c0 < f0.VisemeScores.length)
    (hP : ∀ j c, P' j c = (P j c || (j == j0 && c == c0))) :
    SequencePostprocessing.setScore (overwritten s e P frames) j0 c0
        (growVal (scoreAt frames s c0) (scoreAt frames e c0) (e - s) (j0 - s - 1)) =
      some (overwritten s e P' frames) := by
  unfold SequencePostprocessing.setScore SequencePostprocessing.setAt
  rw [overwritten_getElem?, hj]
  simp only [Option.map_some', Option.bind_eq_bind, Option.some_bind]
  rw [if_pos (by simp [overwrittenRow]; exact hc)]
  simp only [Option.some_bind]
  congr 1
  apply List.ext_getElem?
  intro n
  rw [List.getElem?_set, overwritten_getElem?]
  by_cases hn : j0 = n
  · subst hn
    have hlen : j0 < (overwritten s e P frames).length := by
      unfold overwritten
      rw [List.length_mapIdx]
      exact (List.getElem?_eq_some_iff.mp hj).1
    rw [if_pos rfl, if_pos hlen, overwritten_getElem?, hj, Option.map_some']
    congr 1
    have hrow := overwrittenRow_set
      (fun c => growVal (scoreAt frames s c) (scoreAt frames e c) (e - s) (j0 - s - 1))
      (P j0) (P' j0) f0 c0 (fun c => by rw [hP]; simp)
    show FLipSyncFrame.mk _ _ = _
    rw [hrow]
    rfl
  · rw [if_neg hn, overwritten_getElem?]
    cases hf : frames[n]? with
    | none => rfl
    | some f =>
      simp only [Option.map_some']
      congr 1
      apply overwrittenRow_congr
      intro c _
      rw [hP]
      have : ¬ n = j0 := fun e => hn e.symm
      simp [this]


theorem overwritten_congr (s e n : Nat) (P P' : Nat → Nat → Bool) (frames : List FLipSyncFrame)
    (hu : Uniform n frames) (h : ∀ j c, c < n → P j c = P' j c) :
    overwritten s e P frames = overwritten s e P' frames := by
  apply List.ext_getElem?
  intro j
  rw [overwritten_getElem?, overwritten_getElem?]
  cases hf : frames[j]? with
  | none => rfl
  | some f =>
    simp only [Option.map_some']
    congr 1
    apply overwrittenRow_congr
    intro c hc
    have hmem : f ∈ frames := List.getElem?_mem hf
    exact h j c (by rw [← hu f hmem]; exact hc)

theorem overwritten_none (s e : Nat) (P : Nat → Nat → Bool) (frames : List FLipSyncFrame)
    (h : ∀ j c, P j c = false) : overwritten s e P frames = frames := by
  apply List.ext_getElem?
  intro j
  rw [overwritten_getElem?]
  cases hf : frames[j]? with
  | none => rfl
  | some f =>
    simp only [Option.map_some']
    congr 1
    unfold overwrittenRow
    have : (f.VisemeScores.mapIdx fun c v =>
        if P j c = true then
          growVal (scoreAt frames s c) (scoreAt frames e c) (e - s) (j - s - 1)
        else v) = f.VisemeScores := by
      apply List.ext_getElem
      · simp
      · intro c h1 h2
        simp [h j c]
    rw [this]

theorem getElem?_eq_scoreAt (frames : List FLipSyncFrame) (j c : Nat) (f : FLipSyncFrame)
    (hf : frames[j]? = some f) (hc : c < f.VisemeScores.length) :
    f.VisemeScores[c]? = some (scoreAt frames j c) := by
  unfold scoreAt
  rw [hf]
  simp only [Option.map_some', Option.getD_some]
  rw [List.getElem?_eq_getElem hc]
  rfl

theorem scoreAt_overwritten (s e : Nat) (P : Nat → Nat → Bool) (frames : List FLipSyncFrame)
    (j c : Nat) (f : FLipSyncFrame) (hf : frames[j]? = some f) (hc : c < f.VisemeScores.length) :
    scoreAt (overwritten s e P frames) j c =
      if P j c then growVal (scoreAt frames s c) (scoreAt frames e c) (e - s) (j - s - 1)
      else scoreAt frames j c := by
  unfold scoreAt
  rw [overwritten_getElem?, hf]
  simp only [Option.map_some', Option.getD_some, overwrittenRow, List.getElem?_mapIdx]
  rw [List.getElem?_eq_getElem hc]
  simp only [Option.map_some', Option.getD_some]
  rfl


/-- The inner loop of the interpolation for category `m`: after `t` iterations
the frames `s + 1, ..., s + t` hold their interpolated value in category `m`. -/
theorem interpolation_inner (s e n m : Nat) (frames : List FLipSyncFrame)
    (hu : Uniform n frames) (hse : s < e) (he : e < frames.length) (hm : m < n) (t : Nat)
    (ht : t ≤ e - s) :
    (List.range t).foldlM
        (fun Frames k => do
          let Value ← ((List.range (e - s)).map
            (growVal (scoreAt frames s m) (scoreAt frames e m) (e - s)))[k]?
          SequencePostprocessing.setScore Frames (s + 1 + k) m Value)
        (overwritten s e (doneUpTo s e m 0) frames) =
      some (overwritten s e (doneUpTo s e m t) frames) := by
  induction t with
  | zero => rfl
  | succ k ih =>
    rw [List.range_succ, List.foldlM_append, ih (by omega)]
    have hk : k < e - s := by omega
    have hget : ((List.range (e - s)).map
        (growVal (scoreAt frames s m) (scoreAt frames e m) (e - s)))[k]? =
        some (growVal (scoreAt frames s m) (scoreAt frames e m) (e - s) (s + 1 + k - s - 1)) := by
      rw [List.getElem?_map, List.getElem?_range hk]
      have : s + 1 + k - s - 1 = k := by omega
      rw [this]
      rfl
    have hlt : s + 1 + k < frames.length := by omega
    have hf : frames[s + 1 + k]? = some frames[s + 1 + k] := List.getElem?_eq_getElem hlt
    have hlen : m < (frames[s + 1 + k]).VisemeScores.length := by
      rw [hu _ (List.getElem_mem hlt)]; exact hm
    simp only [Option.bind_eq_bind, Option.some_bind, List.foldlM_cons, List.foldlM_nil, hget]
    rw [setScore_overwritten s e (doneUpTo s e m k) (doneUpTo s e m (k + 1)) frames
      (s + 1 + k) m _ hf hlen]
    · rfl
    · intro j c
      unfold doneUpTo
      rw [Bool.eq_iff_iff]
      simp only [decide_eq_true_eq, Bool.or_eq_true, Bool.and_eq_true, beq_iff_eq]
      omega

/-- The interpolation between the frames `s` and `e` after the categories
below `m`: exactly those categories of the frames `s + 1, ..., e` have been
overwritten. -/
theorem interpolation_outer (s e n : Nat) (frames : List FLipSyncFrame)
    (hu : Uniform n frames) (hse : s < e) (he : e < frames.length) (m : Nat) (hm : m ≤ n) :
    (List.range m).foldlM
        (fun Frames i => do
          let StartVisemesScores ← Frames[s]?
          let EndVisemeScores ← Frames[e]?
          let Start ← StartVisemesScores.VisemeScores[i]?
          let End ← EndVisemeScores.VisemeScores[i]?
          let Interpolated ← SequencePostprocessing.Grow [Start, End] ((e - s : Nat) : Int)
          (List.range (e - s)).foldlM
            (fun Frames k => do
              let Value ← Interpolated[k]?
              SequencePostprocessing.setScore Frames (s + 1 + k) i Value)
            Frames)
        frames =
      some (overwritten s e (doneUpTo s e m 0) frames) := by
  induction m with
  | zero =>
    rw [overwritten_none]
    · rfl
    · intro j c
      unfold doneUpTo
      simp only [decide_eq_false_iff_not]
      omega
  | succ k ih =>
    rw [List.range_succ, List.foldlM_append, ih (by omega)]
    have hk : k < n := by omega
    have hs : s < frames.length := by omega
    have hfs : frames[s]? = some frames[s] := List.getElem?_eq_getElem hs
    have hfe : frames[e]? = some frames[e] := List.getElem?_eq_getElem he
    have hls : k < (frames[s]).VisemeScores.length := by
      rw [hu _ (List.getElem_mem hs)]; exact hk
    have hle : k < (frames[e]).VisemeScores.length := by
      rw [hu _ (List.getElem_mem he)]; exact hk
    have hS : ∃ F, (overwritten s e (doneUpTo s e k 0) frames)[s]? = some F ∧
        F.VisemeScores[k]? = some (scoreAt frames s k) := by
      have hF : (overwritten s e (doneUpTo s e k 0) frames)[s]? = some (overwrittenRow
          (fun c => growVal (scoreAt frames s c) (scoreAt frames e c) (e - s) (s - s - 1))
          (doneUpTo s e k 0 s) frames[s]) := by rw [overwritten_getElem?, hfs]; rfl
      refine ⟨_, hF, ?_⟩
      have h1 := scoreAt_overwritten s e (doneUpTo s e k 0) frames s k _ hfs hls
      have hP : doneUpTo s e k 0 s k = false := by unfold doneUpTo; simp
      rw [hP] at h1
      simp only [Bool.false_eq_true, if_false] at h1
      rw [← h1]
      exact getElem?_eq_scoreAt _ s k _ hF (by simp [overwrittenRow]; exact hls)
    have hE : ∃ F, (overwritten s e (doneUpTo s e k 0) frames)[e]? = some F ∧
        F.VisemeScores[k]? = some (scoreAt frames e k) := by
      have hF : (overwritten s e (doneUpTo s e k 0) frames)[e]? = some (overwrittenRow
          (fun c => growVal (scoreAt frames s c) (scoreAt frames e c) (e - s) (e - s - 1))
          (doneUpTo s e k 0 e) frames[e]) := by rw [overwritten_getElem?, hfe]; rfl
      refine ⟨_, hF, ?_⟩
      have h1 := scoreAt_overwritten s e (doneUpTo s e k 0) frames e k _ hfe hle
      have hP : doneUpTo s e k 0 e k = false := by
        unfold doneUpTo
        simp only [decide_eq_false_iff_not]
        omega
      rw [hP] at h1
      simp only [Bool.false_eq_true, if_false] at h1
      rw [← h1]
      exact getElem?_eq_scoreAt _ e k _ hF (by simp [overwrittenRow]; exact hle)
    obtain ⟨FS, hS1, hS2⟩ := hS
    obtain ⟨FE, hE1, hE2⟩ := hE
    simp only [Option.bind_eq_bind, Option.some_bind, List.foldlM_cons, List.foldlM_nil,
      hS1, hE1, hS2, hE2]
    rw [Grow_pair _ _ (e - s) (by omega)]
    simp only [Option.some_bind]
    have hin := interpolation_inner s e n k frames hu hse he hk (e - s) (le_refl _)
    simp only [Option.bind_eq_bind] at hin
    rw [hin]
    simp only [Option.some_bind]
    congr 1
    apply overwritten_congr s e n _ _ frames hu
    intro j c hc
    unfold doneUpTo
    rw [Bool.eq_iff_iff]
    simp only [decide_eq_true_eq]
    omega


/-- The four-argument `Postprocessing` between the frames `s < e` of a sequence
whose frames all carry `n` scores, called with `IntervalLen = e - s`: it returns,
and every category of the frames `s + 1, ..., e` has been overwritten with its
interpolated value. -/
theorem PostprocessingInterval_eq (s e n : Nat) (frames : List FLipSyncFrame)
    (hu : Uniform n frames) (hse : s < e) (he : e < frames.length) :
    SequencePostprocessing.PostprocessingInterval (s : Int) (e : Int) ((e - s : Nat) : Int)
        frames =
      some (overwritten s e (between s e) frames) := by
  have hs : s < frames.length := by omega
  have hfs : frames[s]? = some frames[s] := List.getElem?_eq_getElem hs
  have hn : (frames[s]).VisemeScores.length = n := hu _ (List.getElem_mem hs)
  have hout := interpolation_outer s e n frames hu hse he n (le_refl n)
  simp only [Option.bind_eq_bind] at hout
  unfold SequencePostprocessing.PostprocessingInterval SequencePostprocessing.toIndex
  rw [if_pos ⟨by omega, by exact_mod_cast hs⟩, if_pos ⟨by omega, by exact_mod_cast he⟩]
  simp only [Option.bind_eq_bind, Option.some_bind, Int.toNat_ofNat, hfs, hn]
  rw [hout]
  congr 1
  apply overwritten_congr s e n _ _ frames hu
  intro j c hc
  unfold doneUpTo between
  rw [Bool.eq_iff_iff]
  simp only [decide_eq_true_eq]
  omega

/-- The sequence left by a complete interpolation between the frames `s < e`:
same length, same number of scores per frame; the frames outside `s + 1, ...,
e - 1` are unchanged (frame `e` is rewritten with its own scores); in a frame
`j` strictly between, category `c` holds `a + ((j - s - 1) / (e - s)) (b - a)`
with `a`, `b` the scores of `c` in the frames `s` and `e`. -/
theorem overwritten_between (s e n : Nat) (frames : List FLipSyncFrame)
    (hu : Uniform n frames) (hse : s < e) (he : e < frames.length) :
    (overwritten s e (between s e) frames).length = frames.length ∧
    Uniform n (overwritten s e (between s e) frames) ∧
    (∀ j, ¬ (s < j ∧ j < e) → (overwritten s e (between s e) frames)[j]? = frames[j]?) ∧
    (∀ j c, s < j → j < e → c < n →
      scoreAt (overwritten s e (between s e) frames) j c =
        SequencePostprocessing.Lerp (scoreAt frames s c) (scoreAt frames e c)
          (((j - s - 1 : Nat) : ℚ) / ((e - s : Nat) : ℚ))) := by
  refine ⟨by simp [overwritten], ?_, ?_, ?_⟩
  · intro f hf
    obtain ⟨j, hj⟩ := List.mem_iff_getElem?.mp hf
    rw [overwritten_getElem?] at hj
    cases hfj : frames[j]? with
    | none => rw [hfj] at hj; simp at hj
    | some g =>
      rw [hfj] at hj
      simp only [Option.map_some', Option.some.injEq] at hj
      rw [← hj]
      simp only [overwrittenRow, List.length_mapIdx]
      exact hu g (List.getElem?_mem hfj)
  · intro j hj
    rw [overwritten_getElem?]
    cases hfj : frames[j]? with
    | none => rfl
    | some g =>
      simp only [Option.map_some', Option.some.injEq]
      have hg : g.VisemeScores.length = n := hu g (List.getElem?_mem hfj)
      have hrow : (overwrittenRow
          (fun c => growVal (scoreAt frames s c) (scoreAt frames e c) (e - s) (j - s - 1))
          (between s e j) g).VisemeScores = g.VisemeScores := by
        unfold overwrittenRow
        apply List.ext_getElem
        · simp
        · intro c h1 h2
          simp only [List.getElem_mapIdx]
          split_ifs with hb
          · unfold between at hb
            simp only [decide_eq_true_eq] at hb
            have hje : j = e := by omega
            subst hje
            unfold growVal
            rw [if_pos (by omega)]
            have := getElem?_eq_scoreAt frames j c g hfj h2
            rw [List.getElem?_eq_getElem h2] at this
            exact (Option.some.inj this).symm
          · rfl
      have hrow' : overwrittenRow
          (fun c => growVal (scoreAt frames s c) (scoreAt frames e c) (e - s) (j - s - 1))
          (between s e j) g = FLipSyncFrame.mk (overwrittenRow
          (fun c => growVal (scoreAt frames s c) (scoreAt frames e c) (e - s) (j - s - 1))
          (between s e j) g).VisemeScores g.LaughterScore := rfl
      rw [hrow', hrow]
  · intro j c hsj hje hc
    have hjl : j < frames.length := by omega
    have hfj : frames[j]? = some frames[j] := List.getElem?_eq_getElem hjl
    rw [scoreAt_overwritten s e (between s e) frames j c _ hfj
      (by rw [hu _ (List.getElem_mem hjl)]; exact hc)]
    have hb : between s e j c = true := by
      unfold between
      simp only [decide_eq_true_eq]
      omega
    rw [if_pos hb]
    unfold growVal
    rw [if_neg (by omega)]


/-- The validator on frame `i` of a sequence whose frames carry at least one
score: it accepts exactly the frames whose silence score is not 1. -/
theorem scanLoop_cons (frames : List FLipSyncFrame) (n : Nat) (hu : Uniform n frames)
    (hn : 1 ≤ n) (Pos : Int) (i : Nat) (rest : List Nat) (hi : i < frames.length) :
    SequencePostprocessing.scanLoop frames Pos (i :: rest) =
      if scoreAt frames i 0 ≠ 1 then some (i : Int)
      else SequencePostprocessing.scanLoop frames Pos rest := by
  have hf : frames[i]? = some frames[i] := List.getElem?_eq_getElem hi
  have hl : 0 < (frames[i]).VisemeScores.length := by
    rw [hu _ (List.getElem_mem hi)]; omega
  have hs := getElem?_eq_scoreAt frames i 0 _ hf hl
  rw [SequencePostprocessing.scanLoop, hf]
  simp only [SequencePostprocessing.VisemesScoresValidator, hs]
  split_ifs <;> rfl

/-- A scan over silent frames leaves `Pos` as it was. -/
theorem scanLoop_silent (frames : List FLipSyncFrame) (n : Nat) (hu : Uniform n frames)
    (hn : 1 ≤ n) (Pos : Int) (l : List Nat) (hl : ∀ i ∈ l, i < frames.length)
    (hs : ∀ i ∈ l, scoreAt frames i 0 = 1) :
    SequencePostprocessing.scanLoop frames Pos l = some Pos := by
  induction l with
  | nil => rfl
  | cons i rest ih =>
    rw [scanLoop_cons frames n hu hn Pos i rest (hl i (List.mem_cons_self _ _)),
      if_neg (by rw [hs i (List.mem_cons_self _ _)]; simp)]
    exact ih (fun j hj => hl j (List.mem_cons_of_mem _ hj))
      (fun j hj => hs j (List.mem_cons_of_mem _ hj))

/-- A scan stops at the first frame that is not silent. -/
theorem scanLoop_found (frames : List FLipSyncFrame) (n : Nat) (hu : Uniform n frames)
    (hn : 1 ≤ n) (Pos : Int) (l1 l2 : List Nat) (i : Nat)
    (hl : ∀ j ∈ l1, j < frames.length) (hs : ∀ j ∈ l1, scoreAt frames j 0 = 1)
    (hi : i < frames.length) (hns : scoreAt frames i 0 ≠ 1) :
    SequencePostprocessing.scanLoop frames Pos (l1 ++ i :: l2) = some (i : Int) := by
  induction l1 with
  | nil =>
    rw [List.nil_append, scanLoop_cons frames n hu hn Pos i l2 hi, if_pos hns]
  | cons j rest ih =>
    rw [List.cons_append,
      scanLoop_cons frames n hu hn Pos j _ (hl j (List.mem_cons_self _ _)),
      if_neg (by rw [hs j (List.mem_cons_self _ _)]; simp)]
    exact ih (fun k hk => hl k (List.mem_cons_of_mem _ hk))
      (fun k hk => hs k (List.mem_cons_of_mem _ hk))

/-- The backward scan from frame `m` down to frame 1 stops at or after any
frame `E ≤ m` that is not silent. -/
theorem scanLoop_backward (frames : List FLipSyncFrame) (n : Nat) (hu : Uniform n frames)
    (hn : 1 ≤ n) (Pos : Int) (E : Nat) (hE : 1 ≤ E) (hns : scoreAt frames E 0 ≠ 1) (m : Nat)
    (hEm : E ≤ m) (hm : m < frames.length) :
    ∃ S : Nat, SequencePostprocessing.scanLoop frames Pos (List.range' 1 m).reverse
        = some (S : Int) ∧ E ≤ S ∧ S ≤ m ∧ scoreAt frames S 0 ≠ 1 ∧
      ∀ j, S < j → j ≤ m → scoreAt frames j 0 = 1 := by
  induction m with
  | zero => omega
  | succ k ih =>
    have hrev : (List.range' 1 (k + 1)).reverse = (k + 1) :: (List.range' 1 k).reverse := by
      rw [List.range'_1_concat, List.reverse_append, List.reverse_singleton,
        List.singleton_append, Nat.add_comm 1 k]
    rw [hrev, scanLoop_cons frames n hu hn Pos (k + 1) _ hm]
    by_cases hk : scoreAt frames (k + 1) 0 ≠ 1
    · rw [if_pos hk]
      exact ⟨k + 1, rfl, hEm, le_refl _, hk, fun j h1 h2 => by omega⟩
    · rw [if_neg hk]
      have hne : E ≠ k + 1 := fun h => hk (h ▸ hns)
      obtain ⟨S, h1, h2, h3, h4, h5⟩ := ih (by omega) (by omega)
      refine ⟨S, h1, h2, by omega, h4, fun j hj1 hj2 => ?_⟩
      by_cases hjk : j = k + 1
      · rw [hjk]; exact not_not.mp hk
      · exact h5 j hj1 (by omega)


/-- The score read at a position depends on the frame at that position only. -/
theorem scoreAt_congr (R F : List FLipSyncFrame) (j c : Nat) (h : R[j]? = F[j]?) :
    scoreAt R j c = scoreAt F j c := by
  unfold scoreAt
  rw [h]

/-- The search for the leading interval: when the frames `1, ..., E - 1` are
silent and frame `E` is not, `GetStartInterval` reports the interval from frame
1 to frame `E`, of length `E - 1`. -/
theorem GetStartInterval_found (frames : List FLipSyncFrame) (n : Nat) (hu : Uniform n frames)
    (hn : 1 ≤ n) (E : Nat) (hE : 1 ≤ E) (hEl : E < frames.length)
    (hsil : ∀ j, 1 ≤ j → j < E → scoreAt frames j 0 = 1) (hns : scoreAt frames E 0 ≠ 1)
    (a b c : Int) :
    SequencePostprocessing.GetStartInterval a b c frames =
      some (decide ((E : Int) - 1 > 0), 1, (E : Int), (E : Int) - 1) := by
  have hsplit : List.range' 1 (frames.length - 1) =
      List.range' 1 (E - 1) ++ E :: List.range' (E + 1) (frames.length - E - 1) := by
    have h1 : frames.length - 1 = (frames.length - E - 1 + 1) + (E - 1) := by omega
    have h2 : List.range' (1 + (E - 1)) (frames.length - E - 1 + 1) =
        E :: List.range' (E + 1) (frames.length - E - 1) := by
      rw [List.range'_succ]
      have : 1 + (E - 1) = E := by omega
      rw [this]
    rw [h1, ← List.range'_append_1, h2]
  have hscan := scanLoop_found frames n hu hn b (List.range' 1 (E - 1))
    (List.range' (E + 1) (frames.length - E - 1)) E
    (fun j hj => by rw [List.mem_range'_1] at hj; omega)
    (fun j hj => by rw [List.mem_range'_1] at hj; exact hsil j hj.1 (by omega))
    hEl hns
  unfold SequencePostprocessing.GetStartInterval
  rw [hsplit, hscan]
  rfl

/-- The search for the trailing interval on a sequence with a frame `E ≥ 1`
that is not silent: `GetEndInterval` reports the interval from the last frame
`S` that is not silent to the last frame of the sequence. -/
theorem GetEndInterval_found (frames : List FLipSyncFrame) (n : Nat) (hu : Uniform n frames)
    (hn : 1 ≤ n) (E : Nat) (hE : 1 ≤ E) (hEl : E < frames.length)
    (hns : scoreAt frames E 0 ≠ 1) (a b c : Int) :
    ∃ S : Nat, E ≤ S ∧ S < frames.length ∧ scoreAt frames S 0 ≠ 1 ∧
      (∀ j, S < j → j < frames.length → scoreAt frames j 0 = 1) ∧
      SequencePostprocessing.GetEndInterval a b c frames =
        some (decide (((frames.length : Int) - 1) - (S : Int) > 0), (S : Int),
          (frames.length : Int) - 1, ((frames.length : Int) - 1) - (S : Int)) := by
  obtain ⟨S, h1, h2, h3, h4, h5⟩ := scanLoop_backward frames n hu hn a E hE hns
    (frames.length - 1) (by omega) (by omega)
  refine ⟨S, h2, by omega, h4, fun j hj1 hj2 => h5 j hj1 (by omega), ?_⟩
  unfold SequencePostprocessing.GetEndInterval
  rw [h1]
  rfl


/-- The one-argument `Postprocessing` on a sequence whose frames `1, ..., E - 1`
are silent and whose frame `E > 1` is not: it returns a sequence of the same
length in which the frames 0 and 1 are unchanged and every frame `j` with
`1 < j < E` holds, in category `c`, the value `a + ((j - 2) / (E - 1)) (b - a)`
with `a`, `b` the scores of `c` in the frames 1 and `E`. -/
theorem Postprocessing_leading (frames : List FLipSyncFrame) (n : Nat) (hu : Uniform n frames)
    (hn : 1 ≤ n) (E : Nat) (hE : 1 < E) (hEl : E < frames.length)
    (hsil : ∀ j, 1 ≤ j → j < E → scoreAt frames j 0 = 1) (hns : scoreAt frames E 0 ≠ 1) :
    ∃ R, SequencePostprocessing.Postprocessing frames = some R ∧
      R.length = frames.length ∧ Uniform n R ∧
      (∀ j, j ≤ 1 → R[j]? = frames[j]?) ∧
      (∀ j c, 1 < j → j < E → c < n →
        scoreAt R j c =
          SequencePostprocessing.Lerp (scoreAt frames 1 c) (scoreAt frames E c)
            (((j - 2 : Nat) : ℚ) / ((E - 1 : Nat) : ℚ))) := by
  obtain ⟨hlen, hu1, hout, hin⟩ := overwritten_between 1 E n frames hu hE hEl
  have hstart := GetStartInterval_found frames n hu hn E (by omega) hEl hsil hns (-1) (-1) (-1)
  have hd : decide ((E : Int) - 1 > 0) = true := by
    rw [decide_eq_true_eq]; omega
  have hcast : (E : Int) - 1 = ((E - 1 : Nat) : Int) := by omega
  have hfirst := PostprocessingInterval_eq 1 E n frames hu hE hEl
  have hnsE : scoreAt (overwritten 1 E (between 1 E) frames) E 0 ≠ 1 := by
    rw [scoreAt_congr _ frames E 0 (hout E (by omega))]; exact hns
  obtain ⟨S, hS1, hS2, _, _, hend⟩ := GetEndInterval_found
    (overwritten 1 E (between 1 E) frames) n hu1 hn E (by omega) (by rw [hlen]; exact hEl)
    hnsE 1 (E : Int) ((E : Int) - 1)
  rw [hlen] at hS2 hend
  -- the state after the leading interpolation
  have hhead : ∀ R : List FLipSyncFrame,
      (∀ j, j ≤ E → R[j]? = (overwritten 1 E (between 1 E) frames)[j]?) →
      (∀ j, j ≤ 1 → R[j]? = frames[j]?) ∧
      (∀ j c, 1 < j → j < E → c < n →
        scoreAt R j c =
          SequencePostprocessing.Lerp (scoreAt frames 1 c) (scoreAt frames E c)
            (((j - 2 : Nat) : ℚ) / ((E - 1 : Nat) : ℚ))) := by
    intro R hR
    refine ⟨fun j hj => ?_, fun j c h1 h2 h3 => ?_⟩
    · rw [hR j (by omega), hout j (by omega)]
    · rw [scoreAt_congr R _ j c (hR j (by omega)), hin j c h1 h2 h3]
      have : j - 1 - 1 = j - 2 := by omega
      rw [this]
  unfold SequencePostprocessing.Postprocessing
  simp only [Option.bind_eq_bind]
  rw [hstart]
  simp only [Option.some_bind, hd, if_true]
  have hfirst' : SequencePostprocessing.PostprocessingInterval 1 (E : Int) ((E : Int) - 1) frames
      = some (overwritten 1 E (between 1 E) frames) := by
    rw [hcast]; exact hfirst
  rw [hfirst']
  simp only [Option.some_bind]
  rw [hend]
  simp only [Option.some_bind]
  by_cases hlast : S < frames.length - 1
  · have hd2 : decide (((frames.length : Int) - 1) - (S : Int) > 0) = true := by
      rw [decide_eq_true_eq]; omega
    have hc1 : (frames.length : Int) - 1 = ((frames.length - 1 : Nat) : Int) := by omega
    have hc2 : ((frames.length - 1 : Nat) : Int) - (S : Int)
        = ((frames.length - 1 - S : Nat) : Int) := by omega
    have hsecond := PostprocessingInterval_eq S (frames.length - 1) n
      (overwritten 1 E (between 1 E) frames) hu1 hlast (by rw [hlen]; omega)
    obtain ⟨hlen2, hu2, hout2, _⟩ := overwritten_between S (frames.length - 1) n
      (overwritten 1 E (between 1 E) frames) hu1 hlast (by rw [hlen]; omega)
    rw [hd2, if_pos rfl, hc1, hc2, hsecond]
    refine ⟨_, rfl, by rw [hlen2, hlen], hu2, ?_⟩
    exact hhead _ (fun j hj => hout2 j (by omega))
  · have hd2 : decide (((frames.length : Int) - 1) - (S : Int) > 0) = false := by
      rw [decide_eq_false_iff_not]; omega
    rw [hd2]
    refine ⟨_, rfl, hlen, hu1, ?_⟩
    exact hhead _ (fun j _ => rfl)

/-- C5 at the failing input: in `leadingSilence` the frames before index 3 are
silent and frame 3 is not, so `E = 3`; the claim gives frame 1 the silence score
`1 + (1/3)(0 - 1) = 2/3` and frame 2 the score `1/3`, a ramp that reaches the
first non-silent frame in even steps. `Postprocessing` returns the sequence as
it was, with silence score 1 in the frames 1 and 2: `Grow` fills the `K` entries
it returns with the steps `0/K, ..., (K - 1)/K` and then overwrites the last one
with the end value, so the first interpolated frame repeats the start frame and
the step `(K - 1)/K` is never written. -/
theorem C5_leading_formula_fails :
    (∀ j, j < 3 → scoreAt leadingSilence j 0 = 1) ∧
    scoreAt leadingSilence 3 0 ≠ 1 ∧
    SequencePostprocessing.Postprocessing leadingSilence = some leadingSilence ∧
    scoreAt leadingSilence 1 0 ≠
      scoreAt leadingSilence 0 0 +
        ((1 : ℚ) / 3) * (scoreAt leadingSilence 3 0 - scoreAt leadingSilence 0 0) ∧
    scoreAt leadingSilence 2 0 ≠
      scoreAt leadingSilence 0 0 +
        ((2 : ℚ) / 3) * (scoreAt leadingSilence 3 0 - scoreAt leadingSilence 0 0) := by
  decide!

/-- C10 at the failing input: every frame of `silentSequence` has silence score
1, yet `Postprocessing` changes it: the trailing interpolation runs between
frame 1 and the last frame and overwrites the score 1/2 of frame 2 with 0. -/
theorem C10_silent_sequence_changed :
    (∀ j, j < 4 → scoreAt silentSequence j 0 = 1) ∧
    scoreAt silentSequence 2 1 = 1 / 2 ∧
    SequencePostprocessing.Postprocessing silentSequence =
      some [ { VisemeScores := [1, 0], LaughterScore := 0 },
             { VisemeScores := [1, 0], LaughterScore := 0 },
             { VisemeScores := [1, 0], LaughterScore := 0 },
             { VisemeScores := [1, 0], LaughterScore := 0 } ] := by
  decide!


/-! ### The playback synchroniser: the stale-signal guard and the neutral pose -/

/-- The function `roundf` on a percent below one half. -/
theorem roundf_lt_half (p : ℚ) (h0 : 0 ≤ p) (h1 : p < 1 / 2) : roundf p = 0 := by
  unfold roundf
  rw [if_pos h0]
  show ⌊p + 1 / 2⌋ = 0
  rw [Int.floor_eq_iff]
  constructor
  · push_cast; linarith
  · push_cast; linarith

/-- The function `roundf` on a percent from one half up to one. -/
theorem roundf_ge_half (p : ℚ) (h0 : 1 / 2 ≤ p) (h1 : p < 1) : roundf p = 1 := by
  unfold roundf
  rw [if_pos (by linarith)]
  show ⌊p + 1 / 2⌋ = 1
  rw [Int.floor_eq_iff]
  constructor
  · push_cast; linarith
  · push_cast; linarith

/-- The guard at the head of `OnAudioPlaybackPercent` for a percent in `[0, 1)`:
the percent is replaced by 0 exactly at frame index 0 with a percent of at least
one half. -/
theorem guardedPercent_eq (c : ULipSystemComponent) (Percent : ℚ) (h0 : 0 ≤ Percent)
    (h1 : Percent < 1) :
    c.guardedPercent Percent = if c.IntPos = 0 ∧ 1 / 2 ≤ Percent then 0 else Percent := by
  unfold ULipSystemComponent.guardedPercent
  by_cases hp : 1 / 2 ≤ Percent
  · rw [roundf_ge_half Percent hp h1]
    have : toUnsigned 1 = 1 := by decide
    simp only [this, hp, and_true]
  · rw [roundf_lt_half Percent h0 (by linarith)]
    have : toUnsigned 0 = 0 := by decide
    simp only [this, hp, and_false, if_false]
    simp

/-- With exact products the `float` form of the callback is
`OnAudioPlaybackPercent`. -/
theorem OnAudioPlaybackPercentFloat_id (c : ULipSystemComponent) (Duration Percent : ℚ) :
    c.OnAudioPlaybackPercentFloat id Duration Percent
      = c.OnAudioPlaybackPercent Duration Percent := rfl

theorem InitNeutralPose_kept (c : ULipSystemComponent) (h : c.Visemes ≠ []) :
    ∃ c', c.InitNeutralPose = some c' ∧ c'.IntPos = c.IntPos ∧
      c'.CurrentPercent = c.CurrentPercent := by
  unfold ULipSystemComponent.InitNeutralPose
  cases hv : c.Visemes with
  | nil => exact absurd hv h
  | cons v rest =>
    simp only [List.getElem?_cons_zero]
    split_ifs
    · exact ⟨c, rfl, rfl, rfl⟩
    · exact ⟨_, rfl, rfl, rfl⟩

/-- The frame index and the stored percent after a callback processed while
playing, with the index computed in `float`. -/
theorem OnAudioPlaybackPercentFloat_IntPos (c : ULipSystemComponent) (fl : ℚ → ℚ)
    (Seq : List FLipSyncFrame) (Duration Percent : ℚ) (hplay : c.bAudioFinished = false)
    (hseq : c.Sequence = some Seq) (hvis : c.Visemes ≠ []) :
    ∃ c', c.OnAudioPlaybackPercentFloat fl Duration Percent = some c' ∧
      c'.IntPos =
        (if c.IntPosTmpFloat fl Duration Percent ≤ c.IntPos ∧
            c.IntPosTmpFloat fl Duration Percent ≠ 0 then
          (c.IntPos + 1) % 2 ^ 32
        else c.IntPosTmpFloat fl Duration Percent) ∧
      c'.CurrentPercent = c.guardedPercent Percent := by
  unfold ULipSystemComponent.OnAudioPlaybackPercentFloat
  simp only [hplay, hseq, Bool.false_eq_true, if_false]
  by_cases hcond : c.IntPosTmpFloat fl Duration Percent ≤ c.IntPos ∧
      c.IntPosTmpFloat fl Duration Percent ≠ 0
  · simp only [hcond, and_self, not_false_eq_true, if_true, ne_eq]
    split_ifs with h1 h2
    · exact InitNeutralPose_kept _ hvis
    · cases hf : Seq[(c.IntPos + 1) % 2 ^ 32]? with
      | none =>
        rw [List.getElem?_eq_none_iff] at hf
        exact absurd hf h1
      | some Frame => exact ⟨_, rfl, rfl, rfl⟩
    · cases hf : Seq[(c.IntPos + 1) % 2 ^ 32]? with
      | none =>
        rw [List.getElem?_eq_none_iff] at hf
        exact absurd hf h1
      | some Frame => exact ⟨_, rfl, rfl, rfl⟩
  · simp only [hcond, if_false]
    split_ifs with h1 h2
    · exact InitNeutralPose_kept _ hvis
    · cases hf : Seq[c.IntPosTmpFloat fl Duration Percent]? with
      | none =>
        rw [List.getElem?_eq_none_iff] at hf
        exact absurd hf h1
      | some Frame => exact ⟨_, rfl, rfl, rfl⟩
    · cases hf : Seq[c.IntPosTmpFloat fl Duration Percent]? with
      | none =>
        rw [List.getElem?_eq_none_iff] at hf
        exact absurd hf h1
      | some Frame => exact ⟨_, rfl, rfl, rfl⟩

/-- C13, as stated, fails: the component has just started (frame index 0) and
the callback reports `Percent = 1/2` for a clip of duration 2; the computed
index `round(1/2 * 2 * 100)` is 100, greater than the current index, and the
percent is smaller than 1, yet the percent is discarded (the stored percent is
0) and the index stays 0. All the values are `float` values and every product is
exact. -/
theorem C13_half_percent_discarded :
    startedPlayback.bAudioFinished = false ∧
    startedPlayback.IntPos = 0 ∧
    toUnsigned (roundf (toFloat (toFloat ((2 : ℚ) * (1 / 2)) * 100))) = 100 ∧
    (startedPlayback.OnAudioPlaybackPercentFloat toFloat 2 (1 / 2)).map
        (fun c => (c.IntPos, c.CurrentPercent)) = some (0, 0) ∧
    (startedPlayback.OnAudioPlaybackPercent 2 (1 / 2)).map
        (fun c => (c.IntPos, c.CurrentPercent)) = some (0, 0) := by
  decide!

/-- C13, amended. For every playback-percent callback processed while playing
(not finished, sequence set, viseme vector non-empty) with `0 ≤ Percent < 1` the
call returns, whatever the rounding `fl` of the two `float` products (it maps 0
to 0). If the frame index is not 0 or the percent is below one half, the percent
is used unchanged, and if the index computed from it in `float`,
`roundf(fl(fl(Duration * Percent) * 100))`, is greater than the current index,
the index becomes that computed value. At frame index 0 a percent of one half or
more (which rounds to 1) is discarded: 0 is stored in its place and the index
stays 0. -/
theorem C13_index_from_percent (fl : ℚ → ℚ) (hfl : fl 0 = 0) (c : ULipSystemComponent)
    (Seq : List FLipSyncFrame) (Duration Percent : ℚ) (hplay : c.bAudioFinished = false)
    (hseq : c.Sequence = some Seq) (hvis : c.Visemes ≠ []) (h0 : 0 ≤ Percent)
    (h1 : Percent < 1) :
    ∃ c', c.OnAudioPlaybackPercentFloat fl Duration Percent = some c' ∧
      ((c.IntPos ≠ 0 ∨ Percent < 1 / 2) →
        c'.CurrentPercent = Percent ∧
        (c.IntPos < toUnsigned (roundf (fl (fl (Duration * Percent) * 100))) →
          c'.IntPos = toUnsigned (roundf (fl (fl (Duration * Percent) * 100))))) ∧
      (c.IntPos = 0 → 1 / 2 ≤ Percent → c'.CurrentPercent = 0 ∧ c'.IntPos = 0) := by
  obtain ⟨c', h1', h2, h3⟩ :=
    OnAudioPlaybackPercentFloat_IntPos c fl Seq Duration Percent hplay hseq hvis
  have hg := guardedPercent_eq c Percent h0 h1
  refine ⟨c', h1', fun hcase => ?_, fun hz hp => ?_⟩
  · have hgp : c.guardedPercent Percent = Percent := by
      rw [hg, if_neg]
      rintro ⟨hz, hp⟩
      rcases hcase with h | h
      · exact h hz
      · linarith
    have htmp : c.IntPosTmpFloat fl Duration Percent
        = toUnsigned (roundf (fl (fl (Duration * Percent) * 100))) := by
      unfold ULipSystemComponent.IntPosTmpFloat
      rw [hgp]
    refine ⟨by rw [h3, hgp], fun hlt => ?_⟩
    rw [h2, htmp, if_neg (fun h => absurd h.1 (by omega))]
  · have hgp : c.guardedPercent Percent = 0 := by rw [hg, if_pos ⟨hz, hp⟩]
    have htmp : c.IntPosTmpFloat fl Duration Percent = 0 := by
      unfold ULipSystemComponent.IntPosTmpFloat
      rw [hgp, mul_zero, hfl]
      show toUnsigned (roundf (fl (0 * 100))) = 0
      rw [zero_mul, hfl]
      decide!
    refine ⟨by rw [h3, hgp], ?_⟩
    rw [h2, htmp, if_neg (fun h => h.2 rfl)]

/-- C13 (amended) on the component that has just started, with a one-second
clip and the products rounded to `float`: the percent `0.005f` (the `float`
nearest to 0.005, below one half) is used unchanged; the product
`0.005f * 100.f` rounds to the `float` 0.5, so the computed index is 1 (where
the exact product, just below one half, would round to 0) and the index
becomes 1. A percent of 3/4 is discarded and the index stays 0. -/
theorem C13_index_from_percent_witness :
    toFloat 0 = 0 ∧
    toFloat (toFloat (1 * (5368709 / 1073741824)) * 100) = 1 / 2 ∧
    roundf ((1 : ℚ) * (5368709 / 1073741824) * 100) = 0 ∧
    (∃ c', startedPlayback.OnAudioPlaybackPercentFloat toFloat 1 (5368709 / 1073741824)
        = some c' ∧ c'.CurrentPercent = 5368709 / 1073741824 ∧ c'.IntPos = 1) ∧
    (∃ c', startedPlayback.OnAudioPlaybackPercentFloat toFloat 1 (3 / 4) = some c' ∧
      c'.CurrentPercent = 0 ∧ c'.IntPos = 0) := by
  obtain ⟨c1, ha, hb, -⟩ :=
    C13_index_from_percent toFloat (by decide!) startedPlayback exampleSequence 1
      (5368709 / 1073741824) (by decide!) (by decide!) (by decide!) (by norm_num) (by norm_num)
  obtain ⟨c2, hc, -, hd⟩ :=
    C13_index_from_percent toFloat (by decide!) startedPlayback exampleSequence 1 (3 / 4)
      (by decide!) (by decide!) (by decide!) (by norm_num) (by norm_num)
  have hb' := hb (Or.inr (by norm_num))
  refine ⟨by decide!, by decide!, by decide!, ⟨c1, ha, hb'.1, ?_⟩,
    ⟨c2, hc, hd (by decide!) (by norm_num)⟩⟩
  rw [hb'.2 (by decide!)]
  decide!

/-- C14 at the failing input: `laughingPlayback` publishes a silent frame with
laughter score 1/4; a callback with `Percent = 1/2` for a one-second clip moves
the frame index to 50, past the end of the two-frame sequence, and the state
published after the callback still has laughter score 1/4; no `OnVisemesReady`
broadcast is made. -/
theorem C14_laughter_survives_neutral_pose :
    laughingPlayback.IntPosTmp 1 (1 / 2) = 50 ∧
    (laughingPlayback.OnAudioPlaybackPercent 1 (1 / 2)).map
        (fun c => (c.IntPos, c.Visemes, c.LaughterScore, c.VisemesReadyBroadcasts))
      = some (50, (1 : ℚ) :: List.replicate 14 0, 1 / 4,
          laughingPlayback.VisemesReadyBroadcasts) := by
  decide!

/-! ### The speech state machine: stored errors and the history -/

/-- C15, as stated, fails: the freshly constructed machine is in Uninitialized
with error kind None; `TransitionTo(Error, "x")` succeeds and the stored error
kind is still None, with an empty message. -/
theorem C15_transition_stores_no_error :
    USpeechStateMachine.construct.CurrentState ≠ ESpeechSystemState.Error ∧
    USpeechStateMachine.construct.LastErrorType = ESpeechErrorType.None ∧
    (USpeechStateMachine.construct.TransitionTo .Error "x").1 = true ∧
    (USpeechStateMachine.construct.TransitionTo .Error "x").2.CurrentState
      = ESpeechSystemState.Error ∧
    (USpeechStateMachine.construct.TransitionTo .Error "x").2.LastErrorType
      = ESpeechErrorType.None ∧
    (USpeechStateMachine.construct.TransitionTo .Error "x").2.LastErrorMessage = "" := by
  refine ⟨by decide, rfl, rfl, rfl, rfl, rfl⟩

/-- C15, amended. `TransitionTo(Error, reason)` succeeds from every state,
enters Error and leaves the stored error kind and message as they were (None
stays None); an error is stored by `SetError(kind, message)`, after which the
machine is in Error with exactly that kind and message stored. -/
theorem C15_error_stored_by_SetError (m : USpeechStateMachine) (Reason : String)
    (ErrorType : ESpeechErrorType) (ErrorMessage : String) :
    (m.TransitionTo .Error Reason).1 = true ∧
    (m.TransitionTo .Error Reason).2.CurrentState = ESpeechSystemState.Error ∧
    (m.TransitionTo .Error Reason).2.LastErrorType = m.LastErrorType ∧
    (m.TransitionTo .Error Reason).2.LastErrorMessage = m.LastErrorMessage ∧
    (m.SetError ErrorType ErrorMessage).CurrentState = ESpeechSystemState.Error ∧
    (m.SetError ErrorType ErrorMessage).LastErrorType = ErrorType ∧
    (m.SetError ErrorType ErrorMessage).LastErrorMessage = ErrorMessage := by
  have hv : ∀ s : ESpeechSystemState,
      USpeechStateMachine.IsValidTransition s .Error = true := by
    intro s; cases s <;> rfl
  have ht : ∀ (x : USpeechStateMachine) (r : String),
      (x.TransitionTo .Error r).1 = true ∧
      (x.TransitionTo .Error r).2.CurrentState = ESpeechSystemState.Error ∧
      (x.TransitionTo .Error r).2.LastErrorType = x.LastErrorType ∧
      (x.TransitionTo .Error r).2.LastErrorMessage = x.LastErrorMessage := by
    intro x r
    unfold USpeechStateMachine.TransitionTo
    rw [hv x.CurrentState]
    simp [USpeechStateMachine.AddToHistory]
  refine ⟨(ht m Reason).1, (ht m Reason).2.1, (ht m Reason).2.2.1, (ht m Reason).2.2.2, ?_, ?_, ?_⟩
  · unfold USpeechStateMachine.SetError
    by_cases h : m.CurrentState = ESpeechSystemState.Error
    · simp [h]
    · simp only [bne_iff_ne, ne_eq, h, not_false_eq_true, if_true]
      exact (ht _ _).2.1
  · unfold USpeechStateMachine.SetError
    by_cases h : m.CurrentState = ESpeechSystemState.Error
    · simp [h]
    · simp only [bne_iff_ne, ne_eq, h, not_false_eq_true, if_true]
      exact (ht _ _).2.2.1
  · unfold USpeechStateMachine.SetError
    by_cases h : m.CurrentState = ESpeechSystemState.Error
    · simp [h]
    · simp only [bne_iff_ne, ne_eq, h, not_false_eq_true, if_true]
      exact (ht _ _).2.2.2

/-- The most recent 20 entries after one more entry, computed the way
`AddToHistory` does it. -/
theorem mostRecent_append_singleton (L : List ESpeechSystemState) (s : ESpeechSystemState) :
    (if (mostRecent 20 L ++ [s]).length > 20 then (mostRecent 20 L ++ [s]).eraseIdx 0
      else mostRecent 20 L ++ [s]) = mostRecent 20 (L ++ [s]) := by
  unfold mostRecent
  by_cases h : L.length < 20
  · have h0 : L.length - 20 = 0 := by omega
    have h1 : (L ++ [s]).length - 20 = 0 := by simp; omega
    rw [h0, h1, List.drop_zero, List.drop_zero, if_neg (by simp; omega)]
  · have hlen : (List.drop (L.length - 20) L ++ [s]).length > 20 := by
      simp only [List.length_append, List.length_drop, List.length_singleton]; omega
    rw [if_pos hlen]
    have h1 : (L ++ [s]).length - 20 = (L.length - 20) + 1 := by simp; omega
    rw [h1, List.drop_append_of_le_length (by omega), List.eraseIdx_zero,
      List.tail_append_of_ne_nil, List.tail_drop]
    intro hnil
    have := congrArg List.length hnil
    simp only [List.length_drop, List.length_nil] at this
    omega

/-- What `TransitionTo` does to the history and to the broadcast log. -/
theorem TransitionTo_history (m : USpeechStateMachine) (NewState : ESpeechSystemState)
    (Reason : String) :
    (m.TransitionTo NewState Reason).2.StateHistory =
      (if USpeechStateMachine.IsValidTransition m.CurrentState NewState = true then
        (if (m.StateHistory ++ [NewState]).length > 20 then
          (m.StateHistory ++ [NewState]).eraseIdx 0
        else m.StateHistory ++ [NewState])
      else m.StateHistory) ∧
    (m.TransitionTo NewState Reason).2.Broadcasts =
      (if USpeechStateMachine.IsValidTransition m.CurrentState NewState = true then
        m.Broadcasts ++ [FStateMachineEvent.StateChanged m.CurrentState NewState Reason]
      else m.Broadcasts) := by
  unfold USpeechStateMachine.TransitionTo
  cases hv : USpeechStateMachine.IsValidTransition m.CurrentState NewState
  · exact ⟨rfl, rfl⟩
  · cases hr : (NewState == ESpeechSystemState.Ready)
    · simp only [Bool.not_true, Bool.false_eq_true, if_false, if_true, hr]
      exact ⟨rfl, rfl⟩
    · simp only [Bool.not_true, Bool.false_eq_true, if_false, if_true, hr]
      exact ⟨rfl, rfl⟩

/-- The invariant of the history: it holds the most recent 20 entries of the
initial Uninitialized followed by the states entered so far. -/
theorem history_TransitionTo (m : USpeechStateMachine) (NewState : ESpeechSystemState)
    (Reason : String)
    (h : m.StateHistory = mostRecent 20 (ESpeechSystemState.Uninitialized :: m.entered)) :
    (m.TransitionTo NewState Reason).2.StateHistory =
      mostRecent 20
        (ESpeechSystemState.Uninitialized :: (m.TransitionTo NewState Reason).2.entered) := by
  obtain ⟨h1, h2⟩ := TransitionTo_history m NewState Reason
  rw [h1]
  unfold USpeechStateMachine.entered
  rw [h2]
  by_cases hv : USpeechStateMachine.IsValidTransition m.CurrentState NewState = true
  · have hstep := mostRecent_append_singleton
      (ESpeechSystemState.Uninitialized :: m.entered) NewState
    rw [← h] at hstep
    rw [if_pos hv, if_pos hv, hstep]
    unfold USpeechStateMachine.entered
    simp only [List.filterMap_append, List.filterMap_cons, List.filterMap_nil, List.cons_append]
  · rw [if_neg hv, if_neg hv, h]
    rfl

theorem history_SetError (m : USpeechStateMachine) (ErrorType : ESpeechErrorType)
    (ErrorMessage : String)
    (h : m.StateHistory = mostRecent 20 (ESpeechSystemState.Uninitialized :: m.entered)) :
    (m.SetError ErrorType ErrorMessage).StateHistory =
      mostRecent 20
        (ESpeechSystemState.Uninitialized :: (m.SetError ErrorType ErrorMessage).entered) := by
  have hm1 : ∀ x : USpeechStateMachine, x.StateHistory = m.StateHistory →
      x.Broadcasts = m.Broadcasts →
      x.StateHistory = mostRecent 20 (ESpeechSystemState.Uninitialized :: x.entered) := by
    intro x hx1 hx2
    rw [hx1, h]
    unfold USpeechStateMachine.entered
    rw [hx2]
  unfold USpeechStateMachine.SetError
  by_cases hc : m.CurrentState = ESpeechSystemState.Error
  · simp only [hc, bne_self_eq_false, Bool.false_eq_true, if_false]
    unfold USpeechStateMachine.entered at h ⊢
    simp only [List.filterMap_append, List.filterMap_cons, List.filterMap_nil, List.append_nil]
    exact h
  · have hb : (m.CurrentState != ESpeechSystemState.Error) = true := by simpa using hc
    simp only [hb, if_true]
    have hT := history_TransitionTo
      { m with LastErrorType := ErrorType, LastErrorMessage := ErrorMessage }
      ESpeechSystemState.Error ("Error: " ++ ErrorMessage) (hm1 _ rfl rfl)
    unfold USpeechStateMachine.entered at hT ⊢
    simp only [List.filterMap_append, List.filterMap_cons, List.filterMap_nil, List.append_nil]
    exact hT

theorem history_calls (cs : List FStateMachineCall) (m : USpeechStateMachine)
    (h : m.StateHistory = mostRecent 20 (ESpeechSystemState.Uninitialized :: m.entered)) :
    (m.calls cs).StateHistory =
      mostRecent 20 (ESpeechSystemState.Uninitialized :: (m.calls cs).entered) := by
  induction cs generalizing m with
  | nil => exact h
  | cons c rest ih =>
    have : m.calls (c :: rest) = (m.call c).calls rest := rfl
    rw [this]
    apply ih
    cases c with
    | TransitionTo s r => exact history_TransitionTo m s r h
    | SetError k e => exact history_SetError m k e h

/-- C16. After construction and any sequence of `TransitionTo` / `SetError`
calls the history holds at most 20 entries and equals the most recent (up to 20)
entries of the list made of the initial Uninitialized followed by every state
entered by a successful transition, in order. -/
theorem C16_bounded_history (cs : List FStateMachineCall) :
    (USpeechStateMachine.construct.calls cs).StateHistory.length ≤ 20 ∧
    (USpeechStateMachine.construct.calls cs).StateHistory =
      mostRecent 20
        (ESpeechSystemState.Uninitialized ::
          (USpeechStateMachine.construct.calls cs).entered) := by
  have h := history_calls cs USpeechStateMachine.construct rfl
  refine ⟨?_, h⟩
  rw [h]
  unfold mostRecent
  rw [List.length_drop]
  omega

/-- The list of entered states grows by the target exactly when `TransitionTo`
succeeds. -/
theorem entered_TransitionTo (m : USpeechStateMachine) (NewState : ESpeechSystemState)
    (Reason : String) :
    (m.TransitionTo NewState Reason).2.entered =
      m.entered ++ (if (m.TransitionTo NewState Reason).1 = true then [NewState] else []) := by
  have h1 : (m.TransitionTo NewState Reason).1 =
      USpeechStateMachine.IsValidTransition m.CurrentState NewState := by
    unfold USpeechStateMachine.TransitionTo
    cases USpeechStateMachine.IsValidTransition m.CurrentState NewState <;> rfl
  obtain ⟨-, h2⟩ := TransitionTo_history m NewState Reason
  rw [h1]
  unfold USpeechStateMachine.entered
  rw [h2]
  by_cases hv : USpeechStateMachine.IsValidTransition m.CurrentState NewState = true
  · rw [if_pos hv, if_pos hv]
    simp only [List.filterMap_append, List.filterMap_cons, List.filterMap_nil]
  · rw [if_neg hv, if_neg hv, List.append_nil]

/-! ### The recovery manager: dispatch on the error kind -/

/-- C17. `AttemptRecovery(kind, message)` returns true exactly when `kind` is
NetworkError, SDKError or RecognitionTimeout, and then it does what
`StartReconnection` does: when no sequence is in flight the manager is
reconnecting afterwards or has already announced the failure, and the first
notification is attempt 1. For every other kind it returns false, emits no
notification and leaves the manager (IsReconnecting and the attempt counter
included) unchanged. -/
theorem C17_AttemptRecovery_dispatch (r : USpeechErrorRecovery) (kind : ESpeechErrorType) :
    ((r.AttemptRecovery kind).1 = true ↔
      (kind = .NetworkError ∨ kind = .SDKError ∨ kind = .RecognitionTimeout)) ∧
    ((kind = .NetworkError ∨ kind = .SDKError ∨ kind = .RecognitionTimeout) →
      (r.AttemptRecovery kind).2 = r.StartReconnection ∧
      (r.bIsReconnecting = false →
        r.StartReconnection.2.head? = some (FRecoveryEvent.RecoveryAttempt 1) ∧
        (r.StartReconnection.1.bIsReconnecting = true ∨
          r.StartReconnection.2 =
            [FRecoveryEvent.RecoveryAttempt 1,
              FRecoveryEvent.RecoveryFailed r.FailureReason]))) ∧
    (¬ (kind = .NetworkError ∨ kind = .SDKError ∨ kind = .RecognitionTimeout) →
      (r.AttemptRecovery kind).1 = false ∧ (r.AttemptRecovery kind).2 = (r, [])) := by
  refine ⟨?_, ?_, ?_⟩
  · cases kind <;> simp [USpeechErrorRecovery.AttemptRecovery,
      USpeechErrorRecovery.HandleNetworkError, USpeechErrorRecovery.HandleAudioError,
      USpeechErrorRecovery.HandleSDKError]
  · intro hk
    refine ⟨?_, fun hidle => ?_⟩
    · rcases hk with h | h | h <;> subst h <;> rfl
    · have hw : wrapInt32 (0 + 1) = 1 := by decide
      unfold USpeechErrorRecovery.StartReconnection
      rw [hidle]
      simp only [Bool.false_eq_true, if_false]
      unfold USpeechErrorRecovery.PerformReconnectAttempt
      simp only [Bool.not_true, Bool.false_eq_true, if_false, hw]
      split_ifs
      · exact ⟨rfl, Or.inr rfl⟩
      · exact ⟨rfl, Or.inl rfl⟩
      · exact ⟨rfl, Or.inl rfl⟩
  · intro hk
    cases kind <;> first
      | exact absurd (Or.inl rfl) hk
      | exact absurd (Or.inr (Or.inl rfl)) hk
      | exact absurd (Or.inr (Or.inr rfl)) hk
      | exact ⟨rfl, rfl⟩

/-- C17 on the freshly constructed manager in a world: a network error starts a
sequence (attempt 1 announced, manager reconnecting); an audio-capture error
returns false and changes nothing. -/
theorem C17_AttemptRecovery_dispatch_witness :
    ((USpeechErrorRecovery.construct true).AttemptRecovery .NetworkError).1 = true ∧
    ((USpeechErrorRecovery.construct true).AttemptRecovery .NetworkError).2.2.head?
      = some (FRecoveryEvent.RecoveryAttempt 1) ∧
    ((USpeechErrorRecovery.construct true).AttemptRecovery .AudioCaptureError).1 = false ∧
    ((USpeechErrorRecovery.construct true).AttemptRecovery .AudioCaptureError).2
      = (USpeechErrorRecovery.construct true, []) := by
  obtain ⟨h1, h2, h3⟩ :=
    C17_AttemptRecovery_dispatch (USpeechErrorRecovery.construct true) .NetworkError
  obtain ⟨-, -, h4⟩ :=
    C17_AttemptRecovery_dispatch (USpeechErrorRecovery.construct true) .AudioCaptureError
  refine ⟨h1.mpr (Or.inl rfl), ?_, (h4 (by decide)).1, (h4 (by decide)).2⟩
  rw [(h2 (Or.inl rfl)).1]
  exact ((h2 (Or.inl rfl)).2 rfl).1

/-- C18. `StartReconnection` called while a sequence is in flight is a no-op:
the manager is unchanged (the attempt counter is not reset, IsReconnecting stays
true, the retry timer is as it was) and the call emits no notification; so the
next firing of the retry timer announces the same attempt as without the
call. -/
theorem C18_StartReconnection_in_flight (r : USpeechErrorRecovery)
    (h : r.bIsReconnecting = true) :
    r.StartReconnection = (r, []) ∧
    r.StartReconnection.1.ReconnectAttempts = r.ReconnectAttempts ∧
    r.StartReconnection.1.bIsReconnecting = true ∧
    r.StartReconnection.2 = [] ∧
    r.StartReconnection.1.ReconnectTimerFired = r.ReconnectTimerFired := by
  have h0 : r.StartReconnection = (r, []) := by
    unfold USpeechErrorRecovery.StartReconnection
    rw [h]
    rfl
  rw [h0]
  exact ⟨rfl, rfl, h, rfl, rfl⟩

/-- C18 on the default manager in a world, one attempt into a sequence: a second
start request leaves the counter at 1 and emits nothing, and the next
timer firing announces attempt 2. -/
theorem C18_StartReconnection_in_flight_witness :
    (USpeechErrorRecovery.construct true).StartReconnection.1.ReconnectAttempts = 1 ∧
    (USpeechErrorRecovery.construct true).StartReconnection.1.StartReconnection
      = ((USpeechErrorRecovery.construct true).StartReconnection.1, []) ∧
    (USpeechErrorRecovery.construct true).StartReconnection.1.StartReconnection.1.ReconnectTimerFired.2
      = [FRecoveryEvent.RecoveryAttempt 2] := by
  obtain ⟨h1, -, -, -, h5⟩ :=
    C18_StartReconnection_in_flight (USpeechErrorRecovery.construct true).StartReconnection.1
      (by decide)
  refine ⟨by decide, h1, ?_⟩
  rw [h5]
  decide

/-! ### The voice-activity detector: reset -/

/-- The detector never reads `CurrentSampleRate` while it processes a block. -/
theorem ProcessFloatAudioForVAD_withRate (m : UVoiceActivityManager) (SampleRate : Int)
    (AudioData : List ℚ) :
    (m.withRate SampleRate).ProcessFloatAudioForVAD AudioData =
      ((m.ProcessFloatAudioForVAD AudioData).1,
        (m.ProcessFloatAudioForVAD AudioData).2.1.withRate SampleRate,
        (m.ProcessFloatAudioForVAD AudioData).2.2) := by
  have hc : ∀ b, (m.withRate SampleRate).countBlock b = (m.countBlock b).withRate SampleRate := by
    intro b
    unfold UVoiceActivityManager.countBlock
    cases b <;> rfl
  have hu : ∀ b, (m.withRate SampleRate).UpdateVoiceActivity b =
      ((m.UpdateVoiceActivity b).1.withRate SampleRate, (m.UpdateVoiceActivity b).2) := by
    intro b
    unfold UVoiceActivityManager.UpdateVoiceActivity
    rw [hc b]
    have hn : ((m.countBlock b).withRate SampleRate).bNewVoiceState b
        = (m.countBlock b).bNewVoiceState b := rfl
    simp only [hn]
    have hcur : ((m.countBlock b).withRate SampleRate).bCurrentVoiceState
        = (m.countBlock b).bCurrentVoiceState := rfl
    have hlast : ((m.countBlock b).withRate SampleRate).bLastReportedState
        = (m.countBlock b).bLastReportedState := rfl
    rw [hcur]
    split_ifs <;> first | rfl | (simp_all [UVoiceActivityManager.withRate])
  unfold UVoiceActivityManager.ProcessFloatAudioForVAD
  have hi : (m.withRate SampleRate).bIsInitialized = m.bIsInitialized := rfl
  have hd : (m.withRate SampleRate).DetectVoiceActivity AudioData
      = m.DetectVoiceActivity AudioData := rfl
  rw [hi, hd]
  split_ifs
  · rfl
  · simp only [hu]

theorem audioTrace_withRate (blocks : List (List ℚ)) (m : UVoiceActivityManager)
    (SampleRate : Int) :
    (m.withRate SampleRate).audioTrace blocks = m.audioTrace blocks := by
  induction blocks generalizing m with
  | nil => rfl
  | cons a rest ih =>
    unfold UVoiceActivityManager.audioTrace
    rw [ProcessFloatAudioForVAD_withRate]
    simp only [ih]

/-- C19. For every initialised detector, whatever blocks it has processed:
after `ResetVAD()` (which returns true, clears both counters and sets the state
and the last reported state to Silence) every block sequence produces the same
per-block results and the same notifications at the same block positions as on
a freshly constructed detector with the same mode, thresholds and smoothing
setting, initialised at any supported sample rate. -/
theorem C19_reset_reproducible (m : UVoiceActivityManager) (SampleRate : Int)
    (blocks : List (List ℚ)) (hinit : m.bIsInitialized = true)
    (hrate : SampleRate = 8000 ∨ SampleRate = 16000 ∨ SampleRate = 32000 ∨ SampleRate = 48000) :
    m.ResetVAD.1 = true ∧
    m.ResetVAD.2.ContinuousVoiceCount = 0 ∧ m.ResetVAD.2.ContinuousSilenceCount = 0 ∧
    m.ResetVAD.2.bCurrentVoiceState = false ∧
    m.ResetVAD.2.audioTrace blocks = (m.freshLike SampleRate).audioTrace blocks := by
  refine ⟨rfl, rfl, rfl, rfl, ?_⟩
  have hfresh : m.freshLike SampleRate = m.ResetVAD.2.withRate SampleRate := by
    unfold UVoiceActivityManager.freshLike UVoiceActivityManager.InitializeVAD
    have hcond : (SampleRate != 8000 && SampleRate != 16000 && SampleRate != 32000 &&
        SampleRate != 48000) = false := by
      rcases hrate with h | h | h | h <;> subst h <;> decide
    simp only [hcond, Bool.false_eq_true, if_false]
    unfold UVoiceActivityManager.ResetVAD UVoiceActivityManager.withRate
    simp only [hinit]
  rw [hfresh, audioTrace_withRate]

/-- C19 on the scenario detector (start threshold 5) after one voice block: once
reset, five voice blocks give the same results as on a fresh detector, with the
Voice notification at the fifth block and not at the fourth. -/
theorem C19_reset_reproducible_witness :
    (scenarioDetector.ProcessFloatAudioForVAD [1]).2.1.ContinuousVoiceCount = 1 ∧
    (scenarioDetector.ProcessFloatAudioForVAD [1]).2.1.ResetVAD.2.audioTrace
        [[1], [1], [1], [1], [1]] =
      ((scenarioDetector.ProcessFloatAudioForVAD [1]).2.1.freshLike 16000).audioTrace
        [[1], [1], [1], [1], [1]] ∧
    ((scenarioDetector.ProcessFloatAudioForVAD [1]).2.1.freshLike 16000).audioTrace
        [[1], [1], [1], [1], [1]] =
      [(true, []), (true, []), (true, []), (true, []), (true, [true])] :=
  ⟨by decide!,
    (C19_reset_reproducible (scenarioDetector.ProcessFloatAudioForVAD [1]).2.1 16000
      [[1], [1], [1], [1], [1]] (by decide!) (Or.inr (Or.inl rfl))).2.2.2.2,
    by decide!⟩

/-! ### The voice-interaction component: the voice-end grace delay -/

/-- Sending the buffered blocks changes neither the buffer, the flags nor the
timers of the component. -/
theorem foldl_SendAudioToSpeechRecognition_fields (blocks : List (List ℚ))
    (c : UVoiceInteractionComponent) :
    (blocks.foldl UVoiceInteractionComponent.SendAudioToSpeechRecognition c).SessionEndTimers
      = c.SessionEndTimers ∧
    (blocks.foldl UVoiceInteractionComponent.SendAudioToSpeechRecognition c).VoiceEndTimer
      = c.VoiceEndTimer := by
  induction blocks generalizing c with
  | nil => exact ⟨rfl, rfl⟩
  | cons a rest ih =>
    rw [List.foldl_cons]
    have hstep : (c.SendAudioToSpeechRecognition a).SessionEndTimers = c.SessionEndTimers ∧
        (c.SendAudioToSpeechRecognition a).VoiceEndTimer = c.VoiceEndTimer := by
      unfold UVoiceInteractionComponent.SendAudioToSpeechRecognition
      cases c.SpeechManager with
      | none => exact ⟨rfl, rfl⟩
      | some sm => dsimp only; split_ifs <;> exact ⟨rfl, rfl⟩
    rw [(ih _).1, (ih _).2]
    exact hstep

/-- C20. A Voice→Silence notification received in continuous mode while
buffering stores the new activity, broadcasts it and sets the grace timer, and
nothing else: the voice buffer, the buffering flag, the recognition session and
the count of pending session closes are as before. When the grace timer fires
on a component `d`: if voice is inactive and buffering is still on, the voice
buffer is cleared, buffering stops and one session close is scheduled; otherwise
(voice resumed, or buffering already off) the component is unchanged apart from
the timer being no longer set. -/
theorem C20_voice_end_grace (c : UVoiceInteractionComponent) (sm : USpeechManager)
    (d : UVoiceInteractionComponent)
    (hmode : c.bContinuousRecognitionMode = true) (hsm : c.SpeechManager = some sm)
    (hbuf : c.bIsBufferingVoice = true) :
    c.OnVADActivityChangedInternal false =
      some { c.noteVoiceActivity false with VoiceEndTimer := true } ∧
    (∀ c', c.OnVADActivityChangedInternal false = some c' →
      c'.VoiceBuffer = c.VoiceBuffer ∧ c'.bIsBufferingVoice = true ∧
      c'.SpeechManager = c.SpeechManager ∧ c'.SessionEndTimers = c.SessionEndTimers ∧
      c'.VoiceEndTimer = true ∧ c'.bCurrentVoiceActivity = false) ∧
    ((d.bCurrentVoiceActivity = false ∧ d.bIsBufferingVoice = true) →
      d.VoiceEndTimerFired.VoiceBuffer = [] ∧
      d.VoiceEndTimerFired.bIsBufferingVoice = false ∧
      d.VoiceEndTimerFired.SessionEndTimers = d.SessionEndTimers + 1 ∧
      d.VoiceEndTimerFired.VoiceEndTimer = false) ∧
    (¬ (d.bCurrentVoiceActivity = false ∧ d.bIsBufferingVoice = true) →
      d.VoiceEndTimerFired = { d with VoiceEndTimer := false }) := by
  have hfirst : c.OnVADActivityChangedInternal false =
      some { c.noteVoiceActivity false with VoiceEndTimer := true } := by
    unfold UVoiceInteractionComponent.OnVADActivityChangedInternal
    have h1 : (c.noteVoiceActivity false).SpeechManager = some sm := hsm
    have h2 : (c.noteVoiceActivity false).bContinuousRecognitionMode = true := hmode
    have h3 : (c.noteVoiceActivity false).bIsBufferingVoice = true := hbuf
    simp only [h1, h2, h3, Bool.not_true, Bool.false_eq_true, if_false, if_true]
  refine ⟨hfirst, ?_, ?_, ?_⟩
  · intro c' hc'
    rw [hfirst] at hc'
    have := Option.some.inj hc'
    subst this
    exact ⟨rfl, hbuf, rfl, rfl, rfl, rfl⟩
  · rintro ⟨hv, hb⟩
    unfold UVoiceInteractionComponent.VoiceEndTimerFired
    simp only [hv, hb, Bool.not_false, Bool.and_self, if_true]
    refine ⟨trivial, trivial, ?_, ?_⟩
    · cases hd : d.SpeechManager with
      | none => rfl
      | some s =>
        dsimp only
        split_ifs
        · rw [(foldl_SendAudioToSpeechRecognition_fields _ _).1]
        · rfl
    · cases hd : d.SpeechManager with
      | none => rfl
      | some s =>
        dsimp only
        split_ifs
        · rw [(foldl_SendAudioToSpeechRecognition_fields _ _).2]
        · rfl
  · intro hn
    unfold UVoiceInteractionComponent.VoiceEndTimerFired
    have hcond : (!d.bCurrentVoiceActivity && d.bIsBufferingVoice) = false := by
      cases h1 : d.bCurrentVoiceActivity <;> cases h2 : d.bIsBufferingVoice <;> simp_all
    simp only [hcond, Bool.false_eq_true, if_false]

/-- C20 on the example component: the Voice→Silence notification leaves the two
buffered blocks and the open session in place and sets the grace timer; if voice
has resumed when the timer fires nothing is cleared, and if not the buffer is
cleared, buffering stops and a session close is scheduled. -/
theorem C20_voice_end_grace_witness :
    (exampleVoiceEnd.OnVADActivityChangedInternal false).map
        (fun c => (c.VoiceBuffer, c.bIsBufferingVoice, c.VoiceEndTimer, c.SessionEndTimers,
          c.SpeechManager.map (fun s => s.bIsRecognitionActive)))
      = some ([[1], [2]], true, true, 0, some true) ∧
    ({ exampleVoiceEnd with VoiceEndTimer := true }).VoiceEndTimerFired
      = { exampleVoiceEnd with VoiceEndTimer := false } ∧
    ({ exampleVoiceEnd with bCurrentVoiceActivity := false, VoiceEndTimer := true
      }).VoiceEndTimerFired.VoiceBuffer = [] ∧
    ({ exampleVoiceEnd with bCurrentVoiceActivity := false, VoiceEndTimer := true
      }).VoiceEndTimerFired.SessionEndTimers = 1 := by
  have hsm : exampleVoiceEnd.SpeechManager = some
      { bIsSDKInitialized := true, bIsRecognitionActive := true, SessionBeginResults := [],
        AudioWriteResults := [], Calls := [], SessionAudio := [], SpeechErrors := 0 } := rfl
  obtain ⟨h1, -, -, h4⟩ :=
    C20_voice_end_grace exampleVoiceEnd _ { exampleVoiceEnd with VoiceEndTimer := true }
      rfl hsm rfl
  obtain ⟨-, -, h3, -⟩ :=
    C20_voice_end_grace exampleVoiceEnd _
      { exampleVoiceEnd with bCurrentVoiceActivity := false, VoiceEndTimer := true }
      rfl hsm rfl
  refine ⟨?_, ?_, (h3 ⟨rfl, rfl⟩).1, (h3 ⟨rfl, rfl⟩).2.2.1⟩
  · rw [h1]; rfl
  · rw [h4 (by decide)]

/-! ### The playback synchroniser: the closing frames -/

/-- Reading the ten entries of a ten-frame array in order gives the array. -/
theorem mapM_getElem?_ten (T : List FLipSyncFrame) (h : T.length = 10) :
    (List.range 10).mapM (fun i => T[i]?) = some T := by
  match T, h with
  | [_, _, _, _, _, _, _, _, _, _], _ => rfl

/-- C11 at the failing input: the last frame of `finishedPlayback` has silence
score 0, so the claim gives the first intermediate frame the silence score
`0 + (1/9)(1 - 0) = 1/9` and the second `2/9`. Of the ten frames enqueued, the
one at position 1 has silence score 0, like the last frame itself, the one at
position 2 has `1/9`, the one at position 8 has `7/9` and the one at position 9
has 1: `Grow` writes the steps `0/9, ..., 8/9` and overwrites the last with the
end value, so frame 1 repeats the last frame and the final step is `2/9`. -/
theorem C11_first_intermediate_frame_repeats :
    (finishedPlayback.AppendShutYourMouthSeq 1).map
        (fun c => (c.AdditionalFrames.length, scoreAt c.AdditionalFrames 0 0,
          scoreAt c.AdditionalFrames 1 0, scoreAt c.AdditionalFrames 2 0))
      = some (10, 0, 0, 1 / 9) ∧
    (finishedPlayback.AppendShutYourMouthSeq 1).map
        (fun c => (scoreAt c.AdditionalFrames 8 0, scoreAt c.AdditionalFrames 9 0))
      = some (7 / 9, 1) ∧
    (0 : ℚ) + (1 / 9) * (1 - 0) ≠ 0 := by
  decide!

/-! ### The sequence builder -/

theorem wrapInt32_of_range (x : Int) (h0 : -(2 ^ 31) ≤ x) (h1 : x < 2 ^ 31) :
    wrapInt32 x = x := by
  unfold wrapInt32
  norm_num at h0 h1 ⊢
  omega

theorem toUnsigned64_natCast (n : Nat) (h : n < 2 ^ 31) : toUnsigned64 (n : Int) = n := by
  unfold toUnsigned64
  norm_num at h ⊢
  omega

/-- The number of chunks of size `C` needed to cover `x` samples. -/
theorem ceilDiv_step (x C : Nat) (hC : 0 < C) (hx : 0 < x) :
    (x + C - 1) / C = (x - C + C - 1) / C + 1 := by
  by_cases h : C ≤ x
  · have : x + C - 1 = (x - C + C - 1) + C := by omega
    rw [this, Nat.add_div_right _ hC]
  · have h1 : x - C + C - 1 = C - 1 := by omega
    have h2 : (C - 1) / C = 0 := Nat.div_eq_of_lt (by omega)
    have h3 : x + C - 1 = (x - 1) + C := by omega
    have h4 : (x - 1) / C = 0 := Nat.div_eq_of_lt (by omega)
    rw [h1, h2, h3, Nat.add_div_right _ hC, h4]

/-- A full chunk is handed to the engine straight from the input. -/
theorem chunkBuffer_full (PCMData : List Int) (C o : Nat) (Samples : List Int)
    (hfull : o + C ≤ PCMData.length) (hN : PCMData.length < 2 ^ 31) :
    chunkBuffer PCMData PCMData.length (C : Int) Samples (o : Int) =
      some ((PCMData.drop o).take C, Samples) := by
  have hr : wrapInt32 ((PCMData.length : Int) - (o : Int)) = ((PCMData.length - o : Nat) : Int) := by
    rw [wrapInt32_of_range _ (by norm_num at hN ⊢; omega) (by norm_num at hN ⊢; omega)]
    omega
  unfold chunkBuffer
  simp only [hr]
  rw [if_pos (by omega), if_neg (by omega)]
  simp only [Int.toNat_ofNat, sampleWindow, if_pos hfull, Option.map_some']

/-- Clearing bytes behind the copied samples changes nothing when the array
holds zeros there. -/
theorem memset_padding (w : List Int) (R m B : Nat) (hR : w.length = R) :
    List.mapIdx
      (fun i v =>
        if R ≤ i ∧ i < R + B / 2 then 0
        else if i = R + B / 2 ∧ B % 2 = 1 then v - v % 256 else v)
      (w ++ List.replicate m (0 : Int)) = w ++ List.replicate m 0 := by
  apply List.ext_getElem
  · simp only [List.length_mapIdx]
  · intro i h1 h2
    simp only [List.getElem_mapIdx]
    by_cases hi : i < w.length
    · rw [if_neg (by omega), if_neg (by omega)]
    · have hzero : (w ++ List.replicate m (0 : Int))[i] = 0 := by
        rw [List.getElem_append_right (by omega), List.getElem_replicate]
      rw [hzero]
      split_ifs <;> rfl

/-- The chunk that holds the end of the input is copied into `Samples`; the
bytes cleared behind it stay inside the array, and when `Samples` held zeros
before, the buffer is the rest of the input padded with zeros. -/
theorem chunkBuffer_partial (PCMData : List Int) (C o : Nat) (Samples : List Int)
    (ho : o < PCMData.length) (hpart : PCMData.length < o + C)
    (hN : PCMData.length < 2 ^ 31) (hS : Samples.length = C) :
    ∃ s, chunkBuffer PCMData PCMData.length (C : Int) Samples (o : Int) = some (s, s) ∧
      s.length = C ∧
      (Samples = List.replicate C 0 →
        s = PCMData.drop o ++ List.replicate (C - (PCMData.length - o)) 0) := by
  have hr : wrapInt32 ((PCMData.length : Int) - (o : Int)) = ((PCMData.length - o : Nat) : Int) := by
    rw [wrapInt32_of_range _ (by norm_num at hN ⊢; omega) (by norm_num at hN ⊢; omega)]
    omega
  have hsub : (C : Int) - ((PCMData.length - o : Nat) : Int)
      = ((C - (PCMData.length - o) : Nat) : Int) := by omega
  have htake : (PCMData.drop o).take (PCMData.length - o) = PCMData.drop o :=
    List.take_of_length_le (by rw [List.length_drop])
  unfold chunkBuffer
  simp only [hr, hsub]
  rw [if_neg (by omega), if_pos (by omega), if_neg (by omega)]
  simp only [Int.toNat_ofNat, memcpySamples, sampleWindow]
  rw [if_pos (by omega), if_pos (by omega)]
  simp only [Option.map_some', Option.bind_eq_bind, Option.some_bind, htake, memsetZero]
  rw [if_pos (by
    simp only [List.length_append, List.length_drop]
    omega)]
  refine ⟨_, rfl, ?_, ?_⟩
  · simp only [List.length_mapIdx, List.length_append, List.length_drop]
    omega
  · intro hz
    subst hz
    rw [List.drop_replicate]
    exact memset_padding _ _ _ _ (by rw [List.length_drop])

/-- Past the end of the input `Samples` is partly cleared and handed on. -/
theorem chunkBuffer_past (PCMData : List Int) (C o : Nat) (Samples : List Int)
    (hC : 0 < C) (ho : PCMData.length ≤ o) (hN : o < 2 ^ 31) (hS : Samples.length = C) :
    ∃ s, chunkBuffer PCMData PCMData.length (C : Int) Samples (o : Int) = some (s, s) ∧
      s.length = C := by
  have hr : wrapInt32 ((PCMData.length : Int) - (o : Int))
      = (PCMData.length : Int) - (o : Int) :=
    wrapInt32_of_range _ (by norm_num at hN ⊢; omega) (by norm_num at hN ⊢; omega)
  unfold chunkBuffer
  simp only [hr]
  rw [if_neg (by omega), if_neg (by omega)]
  simp only [Int.toNat_ofNat, memsetZero]
  rw [if_pos (by omega)]
  exact ⟨_, rfl, by simp only [List.length_mapIdx]; exact hS⟩

/-- With `Samples` of `C` entries the buffer choice never fails and leaves
`Samples` with `C` entries. -/
theorem chunkBuffer_some (PCMData : List Int) (C o : Nat) (Samples : List Int) (hC : 0 < C)
    (hN : PCMData.length < 2 ^ 31) (ho : o < 2 ^ 31) (hS : Samples.length = C) :
    ∃ b s, chunkBuffer PCMData PCMData.length (C : Int) Samples (o : Int) = some (b, s) ∧
      s.length = C := by
  by_cases h1 : o + C ≤ PCMData.length
  · exact ⟨_, _, chunkBuffer_full PCMData C o Samples h1 hN, hS⟩
  · by_cases h2 : o < PCMData.length
    · obtain ⟨s, hs1, hs2, -⟩ := chunkBuffer_partial PCMData C o Samples h2 (by omega) hN hS
      exact ⟨s, s, hs1, hs2⟩
    · obtain ⟨s, hs1, hs2⟩ := chunkBuffer_past PCMData C o Samples hC (by omega) ho hS
      exact ⟨s, s, hs1, hs2⟩

/-- One evaluation of the loop condition at the offset `o`. -/
theorem playbackLoop_succ (PCMData : List Int) (C F o : Nat) (CSS : Int) (Stereo : Bool)
    (fuel : Nat) (st : FPlaybackState) (hb : PCMData.length + F + C < 2 ^ 31)
    (ho : o < PCMData.length + F + C) :
    playbackLoop PCMData PCMData.length CSS (C : Int) (F : Int) Stereo (fuel + 1) st (o : Int) =
      if o < PCMData.length + F then
        match chunkBuffer PCMData PCMData.length (C : Int) st.Samples (o : Int) with
        | none => none
        | some b =>
          playbackLoop PCMData PCMData.length CSS (C : Int) (F : Int) Stereo fuel
            (submitChunk st b.1 b.2 CSS Stereo (decide (F ≤ o))) ((o + C : Nat) : Int)
      else some st := by
  have h1 : toUnsigned64 (o : Int) = o := toUnsigned64_natCast o (by omega)
  have h2 : toUnsigned64 (F : Int) = F := toUnsigned64_natCast F (by omega)
  have h3 : (PCMData.length + F) % 2 ^ 64 = PCMData.length + F :=
    Nat.mod_eq_of_lt (by norm_num at hb ⊢; omega)
  have h4 : decide ((o : Int) ≥ (F : Int)) = decide (F ≤ o) := by
    rw [decide_eq_decide]; omega
  rw [playbackLoop, h1, h2, h3, h4]
  by_cases hlt : o < PCMData.length + F
  · have h5 : wrapInt32 ((o : Int) + (C : Int)) = ((o + C : Nat) : Int) := by
      rw [wrapInt32_of_range _ (by norm_num at hb ⊢; omega) (by norm_num at hb ⊢; omega)]
      omega
    rw [if_pos hlt, if_pos hlt, h5]
  · rw [if_neg hlt, if_neg hlt]

/-- The loop ends, and the number of frames it adds from the offset `o` on. -/
theorem playbackLoop_count (PCMData : List Int) (C F : Nat) (CSS : Int) (Stereo : Bool)
    (hC : 0 < C) (hb : PCMData.length + F + C < 2 ^ 31) :
    ∀ (d o : Nat) (st : FPlaybackState) (fuel : Nat), PCMData.length + F - o = d →
      o < PCMData.length + F + C → d + 1 ≤ fuel → st.Samples.length = C →
      ∃ st', playbackLoop PCMData PCMData.length CSS (C : Int) (F : Int) Stereo fuel st (o : Int)
          = some st' ∧
        st'.Sequence.length = st.Sequence.length +
          ((PCMData.length + F - o + C - 1) / C - (F - o + C - 1) / C) := by
  intro d
  induction d using Nat.strong_induction_on with
  | _ d ih =>
    intro o st fuel hd ho hfuel hS
    obtain ⟨f, rfl⟩ : ∃ f, fuel = f + 1 := ⟨fuel - 1, by omega⟩
    rw [playbackLoop_succ PCMData C F o CSS Stereo f st hb ho]
    by_cases hlt : o < PCMData.length + F
    · rw [if_pos hlt]
      obtain ⟨b, s, hbs, hs⟩ := chunkBuffer_some PCMData C o st.Samples hC (by omega)
        (by omega) hS
      rw [hbs]
      obtain ⟨st', h1, h2⟩ := ih (PCMData.length + F - (o + C)) (by omega) (o + C)
        (submitChunk st b s CSS Stereo (decide (F ≤ o))) f rfl (by omega) (by omega) hs
      refine ⟨st', h1, ?_⟩
      rw [h2]
      have hx := ceilDiv_step (PCMData.length + F - o) C hC (by omega)
      have e1 : PCMData.length + F - (o + C) = PCMData.length + F - o - C := by omega
      have e2 : F - (o + C) = F - o - C := by omega
      rw [e1, e2]
      by_cases hF : F ≤ o
      · have hlen : (submitChunk st b s CSS Stereo (decide (F ≤ o))).Sequence.length
            = st.Sequence.length + 1 := by
          simp only [submitChunk, hF, decide_True, if_true, List.length_append,
            List.length_singleton]
        have z1 : F - o = 0 := by omega
        have z2 : (0 + C - 1) / C = 0 := Nat.div_eq_of_lt (by omega)
        rw [hlen, hx, z1, Nat.zero_sub, z2]
        generalize (PCMData.length + F - o - C + C - 1) / C = A
        omega
      · have hlen : (submitChunk st b s CSS Stereo (decide (F ≤ o))).Sequence.length
            = st.Sequence.length := by
          simp only [submitChunk, hF, decide_False, Bool.false_eq_true, if_false]
        have hy := ceilDiv_step (F - o) C hC (by omega)
        rw [hlen, hx, hy]
        generalize (PCMData.length + F - o - C + C - 1) / C = A
        generalize (F - o - C + C - 1) / C = B
        omega
    · rw [if_neg hlt]
      refine ⟨st, rfl, ?_⟩
      have z1 : PCMData.length + F - o = 0 := by omega
      have z2 : F - o = 0 := by omega
      have z3 : (0 + C - 1) / C = 0 := Nat.div_eq_of_lt (by omega)
      rw [z1, z2, z3]
      rfl

/-- The frames added by the loop when the frame offset is 0, from chunk `k` on:
the loop ends, and each chunk of the input, the last one padded with zeros, has
been submitted once, in order, and has given one frame. -/
theorem playbackLoop_frames (PCMData : List Int) (C : Nat) (CSS : Int) (Stereo : Bool)
    (hC : 0 < C) (hb : PCMData.length + 0 + C < 2 ^ 31) :
    ∀ (d k : Nat) (st : FPlaybackState) (fuel : Nat), PCMData.length - k * C = d →
      k * C < PCMData.length + 0 + C → d + 1 ≤ fuel → st.Samples = List.replicate C 0 →
      ∃ st', playbackLoop PCMData PCMData.length CSS (C : Int) ((0 : Nat) : Int) Stereo fuel st
            ((k * C : Nat) : Int) = some st' ∧
        st'.Sequence = st.Sequence ++
          engineFrames CSS Stereo st.Context st.Visemes st.LaughterScore st.FrameDelayInMs
            ((List.range' k ((PCMData.length - k * C + C - 1) / C)).map
              (zeroPaddedChunk PCMData C)) := by
  intro d
  induction d using Nat.strong_induction_on with
  | _ d ih =>
    intro k st fuel hd hk hfuel hS
    obtain ⟨f, rfl⟩ : ∃ f, fuel = f + 1 := ⟨fuel - 1, by omega⟩
    have hSl : st.Samples.length = C := by rw [hS, List.length_replicate]
    have hsucc : (k + 1) * C = k * C + C := Nat.succ_mul k C
    have hadd : decide (0 ≤ k * C) = true := decide_eq_true (Nat.zero_le _)
    rw [playbackLoop_succ PCMData C 0 (k * C) CSS Stereo f st hb hk, hadd]
    by_cases hlt : k * C < PCMData.length + 0
    · rw [if_pos hlt]
      have hm := ceilDiv_step (PCMData.length - k * C) C hC (by omega)
      by_cases hfull : k * C + C ≤ PCMData.length
      · rw [chunkBuffer_full PCMData C (k * C) st.Samples hfull (by omega)]
        simp only []
        rw [← hsucc]
        obtain ⟨st', h1, h2⟩ := ih (PCMData.length - (k + 1) * C) (by omega) (k + 1)
          (submitChunk st ((PCMData.drop (k * C)).take C) st.Samples CSS Stereo true) f rfl
          (by omega) (by omega) hS
        refine ⟨st', h1, ?_⟩
        have hchunk : zeroPaddedChunk PCMData C k = (PCMData.drop (k * C)).take C := by
          unfold zeroPaddedChunk
          have : ((PCMData.drop (k * C)).take C).length = C := by
            rw [List.length_take, List.length_drop]; omega
          rw [this, Nat.sub_self, List.replicate_zero, List.append_nil]
        have e1 : PCMData.length - k * C - C = PCMData.length - (k + 1) * C := by omega
        rw [h2, hm, e1, List.range'_succ, List.map_cons, hchunk, engineFrames]
        simp only [submitChunk, if_true, List.append_assoc, List.singleton_append]
      · obtain ⟨s, hs1, -, hs3⟩ := chunkBuffer_partial PCMData C (k * C) st.Samples
          (by omega) (by omega) (by omega) hSl
        rw [hs1]
        simp only []
        obtain ⟨f', rfl⟩ : ∃ f', f = f' + 1 := ⟨f - 1, by omega⟩
        rw [playbackLoop_succ PCMData C 0 (k * C + C) CSS Stereo f' _ hb (by omega),
          if_neg (by omega)]
        refine ⟨_, rfl, ?_⟩
        have hchunk : zeroPaddedChunk PCMData C k = s := by
          rw [hs3 hS]
          unfold zeroPaddedChunk
          have ht : (PCMData.drop (k * C)).take C = PCMData.drop (k * C) :=
            List.take_of_length_le (by rw [List.length_drop]; omega)
          rw [ht, List.length_drop]
        have e1 : (PCMData.length - k * C - C + C - 1) / C = 0 :=
          Nat.div_eq_of_lt (by omega)
        rw [hm, e1, List.range'_succ, List.range'_zero, List.map_cons, List.map_nil, hchunk,
          engineFrames, engineFrames]
        simp only [submitChunk, if_true]
    · rw [if_neg hlt]
      refine ⟨st, rfl, ?_⟩
      have e1 : (PCMData.length - k * C + C - 1) / C = 0 := Nat.div_eq_of_lt (by omega)
      rw [e1, List.range'_zero, List.map_nil, engineFrames, List.append_nil]

/-- One frame per submitted buffer. -/
theorem engineFrames_length (CSS : Int) (Stereo : Bool) (bufs : List (List Int)) :
    ∀ (w : ULipSyncWrapper) (V : List ℚ) (L : ℚ) (D : Int),
      (engineFrames CSS Stereo w V L D bufs).length = bufs.length := by
  induction bufs with
  | nil => intro w V L D; rfl
  | cons b rest ih =>
    intro w V L D
    rw [engineFrames, List.length_cons, List.length_cons, ih]

/-- On a wrapper whose engine is the stub, every frame is the neutral pose. -/
theorem engineFrames_stub (CSS : Int) (Stereo : Bool) (d : Int) (bufs : List (List Int)) :
    ∀ (w : ULipSyncWrapper) (V : List ℚ) (L : ℚ) (D : Int), w.bIsDllLoaded = true →
      w.LipSync_ProcessFrameEx = (stubEngine d).LipSync_ProcessFrameEx →
      engineFrames CSS Stereo w V L D bufs =
        List.replicate bufs.length { VisemeScores := silenceScores, LaughterScore := 0 } := by
  induction bufs with
  | nil => intro w V L D _ _; rfl
  | cons b rest ih =>
    intro w V L D h1 h2
    have hp : w.ProcessFrame b CSS V L D Stereo =
        ({ w with Calls := w.Calls ++
            [{ audioBuffer := b, sampleCount := CSS, stereo := Stereo,
               visemes := if V.length ≠ Viseme_Count then SetNumZeroed V Viseme_Count else V }] },
          silenceScores, 0, d) := by
      unfold ULipSyncWrapper.ProcessFrame
      rw [h1, h2]
      rfl
    rw [engineFrames, hp, List.length_cons, List.replicate_succ]
    simp only []
    congr 1
    exact ih _ _ _ _ h1 h2

/-- The chunk size computed by `MakePlaybackSequence` for a sample rate
`SampleRate ≥ 0` when `C = NumChannels * floor(SampleRate / 100)` is positive
and fits an `int32`. -/
theorem chunkSize_eq (NumChannels : Int) (SampleRate : ℚ) (C : Nat) (hrate : 0 ≤ SampleRate)
    (hC : (C : Int) = NumChannels * Rat.floor (SampleRate / 100)) (hpos : 0 < C)
    (hlt : C < 2 ^ 31) :
    truncToInt32 (SampleRate * (1 / 100)) = Rat.floor (SampleRate / 100) ∧
    wrapInt32 (NumChannels * truncToInt32 (SampleRate * (1 / 100))) = (C : Int) := by
  have hx : SampleRate * (1 / 100) = SampleRate / 100 := by ring
  have hq : (0 : ℚ) ≤ SampleRate / 100 := div_nonneg hrate (by norm_num)
  have hf0 : 0 ≤ Rat.floor (SampleRate / 100) := by
    show 0 ≤ ⌊SampleRate / 100⌋
    exact Int.floor_nonneg.mpr hq
  have hCpos : (0 : Int) < (C : Int) := by exact_mod_cast hpos
  have hch : 1 ≤ NumChannels := by
    by_contra h
    have h' : NumChannels ≤ 0 := by omega
    have := mul_nonpos_of_nonpos_of_nonneg h' hf0
    omega
  have hfl : Rat.floor (SampleRate / 100) ≤ (C : Int) := by
    rw [hC]
    exact le_mul_of_one_le_left hf0 hch
  have h1 : truncToInt32 (SampleRate * (1 / 100)) = Rat.floor (SampleRate / 100) := by
    unfold truncToInt32
    rw [hx, if_pos hq]
    exact wrapInt32_of_range _ (by omega) (by norm_num at hlt ⊢; omega)
  refine ⟨h1, ?_⟩
  rw [h1, ← hC]
  exact wrapInt32_of_range _ (by omega) (by norm_num at hlt ⊢; omega)

/-- The function `MakePlaybackSequence` as the loop entered after the warm-up
call, for chunk size `C` and frame offset `F`. -/
theorem MakePlaybackSequence_loop (fuel : Nat) (PCMData : List Int) (NumChannels : Int)
    (SampleRate : ℚ) (Context : ULipSyncWrapper) (C F : Nat) (CSS : Int)
    (h1 : truncToInt32 (SampleRate * (1 / 100)) = CSS)
    (h2 : wrapInt32 (NumChannels * CSS) = (C : Int))
    (hF : FrameOffset (warmUp Context CSS (C : Int) (decide (NumChannels > 1))).FrameDelayInMs
      SampleRate NumChannels = (F : Int)) :
    MakePlaybackSequence fuel PCMData NumChannels SampleRate (2 * PCMData.length) Context =
      (playbackLoop PCMData PCMData.length CSS (C : Int) (F : Int) (decide (NumChannels > 1))
        fuel (warmUp Context CSS (C : Int) (decide (NumChannels > 1))) ((0 * C : Nat) : Int)).map
        fun st => (st.Context, st.Sequence) := by
  unfold MakePlaybackSequence
  simp only [h1, h2, hF]
  rw [if_neg (by omega), Nat.mul_div_cancel_left _ (by decide : 0 < 2)]
  simp only [Nat.zero_mul, Nat.cast_zero]

/-- C7. With a reported frame delay of 0 and chunk size
`C = NumChannels * floor(SampleRate / 100) > 0`, on an input of `N` samples
(`N + C` below `2 ^ 31`) and with more fuel than `N`, `MakePlaybackSequence`
returns; the sequence has `ceil(N / C)` frames and frame `i` is what
`ProcessFrame` gives for chunk `i` of the input (samples `[i * C, (i + 1) * C)`,
the last chunk padded with zeros), the chunks being submitted in order after the
warm-up call. -/
theorem C7_one_frame_per_chunk (fuel : Nat) (PCMData : List Int) (NumChannels : Int)
    (SampleRate : ℚ) (Context : ULipSyncWrapper) (C : Nat) (hrate : 0 ≤ SampleRate)
    (hC : (C : Int) = NumChannels * Rat.floor (SampleRate / 100)) (hpos : 0 < C)
    (hb : PCMData.length + C < 2 ^ 31)
    (hdelay : (warmUp Context (Rat.floor (SampleRate / 100)) (C : Int)
      (decide (NumChannels > 1))).FrameDelayInMs = 0)
    (hfuel : PCMData.length + 1 ≤ fuel) :
    ∃ w' frames,
      MakePlaybackSequence fuel PCMData NumChannels SampleRate (2 * PCMData.length) Context
        = some (w', frames) ∧
      frames.length = (PCMData.length + C - 1) / C ∧
      frames =
        engineFrames (Rat.floor (SampleRate / 100)) (decide (NumChannels > 1))
          (warmUp Context (Rat.floor (SampleRate / 100)) (C : Int)
            (decide (NumChannels > 1))).Context
          (warmUp Context (Rat.floor (SampleRate / 100)) (C : Int)
            (decide (NumChannels > 1))).Visemes
          (warmUp Context (Rat.floor (SampleRate / 100)) (C : Int)
            (decide (NumChannels > 1))).LaughterScore
          (warmUp Context (Rat.floor (SampleRate / 100)) (C : Int)
            (decide (NumChannels > 1))).FrameDelayInMs
          ((List.range ((PCMData.length + C - 1) / C)).map (zeroPaddedChunk PCMData C)) := by
  obtain ⟨h1, h2⟩ := chunkSize_eq NumChannels SampleRate C hrate hC hpos (by omega)
  rw [h1] at h2
  have hF : FrameOffset (warmUp Context (Rat.floor (SampleRate / 100)) (C : Int)
      (decide (NumChannels > 1))).FrameDelayInMs SampleRate NumChannels = ((0 : Nat) : Int) := by
    rw [hdelay]
    unfold FrameOffset
    simp only [Int.cast_zero, zero_mul, zero_div, Nat.cast_zero]
    decide!
  rw [MakePlaybackSequence_loop fuel PCMData NumChannels SampleRate Context C 0 _ h1 h2 hF]
  obtain ⟨st', hs1, hs2⟩ := playbackLoop_frames PCMData C (Rat.floor (SampleRate / 100))
    (decide (NumChannels > 1)) hpos (by omega) (PCMData.length - 0 * C) 0
    (warmUp Context (Rat.floor (SampleRate / 100)) (C : Int) (decide (NumChannels > 1)))
    fuel rfl (by omega) (by rw [Nat.zero_mul]; omega)
    (by simp only [warmUp, Int.toNat_ofNat])
  rw [hs1]
  have hseq : (warmUp Context (Rat.floor (SampleRate / 100)) (C : Int)
      (decide (NumChannels > 1))).Sequence = [] := rfl
  rw [hseq, List.nil_append, Nat.zero_mul, Nat.sub_zero, ← List.range_eq_range'] at hs2
  refine ⟨st'.Context, st'.Sequence, rfl, ?_, hs2⟩
  rw [hs2, engineFrames_length, List.length_map, List.length_range]

/-- C7 on the scenario of the specification: a one-second 16 kHz mono silent
buffer (`N = 16000`, `C = 160`) and the stub engine with frame delay 0 give a
sequence of 100 frames, each the neutral pose. -/
theorem C7_one_frame_per_chunk_witness :
    ∃ w', MakePlaybackSequence 16001 (List.replicate 16000 0) 1 16000 32000 (stubEngine 0) =
      some (w', List.replicate 100 { VisemeScores := silenceScores, LaughterScore := 0 }) := by
  have hlen : (List.replicate 16000 (0 : Int)).length = 16000 := List.length_replicate _ _
  obtain ⟨w', frames, h1, h2, h3⟩ :=
    C7_one_frame_per_chunk 16001 (List.replicate 16000 0) 1 16000 (stubEngine 0) 160
      (by norm_num) (by decide!) (by decide) (by rw [hlen]; decide) rfl
      (by rw [hlen])
  rw [hlen] at h1 h2
  refine ⟨w', ?_⟩
  have h4 : (2 : Nat) * 16000 = 32000 := rfl
  rw [h4] at h1
  rw [h1]
  have hstub := engineFrames_stub (Rat.floor ((16000 : ℚ) / 100)) (decide ((1 : Int) > 1)) 0
    ((List.range (((List.replicate 16000 (0 : Int)).length + 160 - 1) / 160)).map
      (zeroPaddedChunk (List.replicate 16000 0) 160))
    (warmUp (stubEngine 0) (Rat.floor ((16000 : ℚ) / 100)) ((160 : Nat) : Int)
      (decide ((1 : Int) > 1))).Context
    (warmUp (stubEngine 0) (Rat.floor ((16000 : ℚ) / 100)) ((160 : Nat) : Int)
      (decide ((1 : Int) > 1))).Visemes
    (warmUp (stubEngine 0) (Rat.floor ((16000 : ℚ) / 100)) ((160 : Nat) : Int)
      (decide ((1 : Int) > 1))).LaughterScore
    (warmUp (stubEngine 0) (Rat.floor ((16000 : ℚ) / 100)) ((160 : Nat) : Int)
      (decide ((1 : Int) > 1))).FrameDelayInMs rfl rfl
  rw [h3, hstub, List.length_map, List.length_range, hlen]

/-- C21, as stated, fails: `oneVoiceBlock` is initialised with the voice counter
at 1 and the silence counter at 0; processing an empty block returns false and
leaves both counters as they were, where the claim has the silence counter at 1
and the voice counter at 0. -/
theorem C21_empty_block_not_counted :
    oneVoiceBlock.bIsInitialized = true ∧
    oneVoiceBlock.ContinuousVoiceCount = 1 ∧ oneVoiceBlock.ContinuousSilenceCount = 0 ∧
    (oneVoiceBlock.ProcessFloatAudioForVAD []).1 = false ∧
    (oneVoiceBlock.ProcessFloatAudioForVAD []).2.1.ContinuousVoiceCount = 1 ∧
    (oneVoiceBlock.ProcessFloatAudioForVAD []).2.1.ContinuousSilenceCount = 0 := by
  decide!

/-- C21, amended. An empty block is not an error and is not counted: for every
detector and mode, `ProcessFloatAudioForVAD` on an empty block returns false,
leaves the detector unchanged (no counter is incremented or reset, the state
stays) and queues no notification. The classifier itself gives an empty block
energy 0 and classifies it as silence. -/
theorem C21_empty_block_ignored (m : UVoiceActivityManager) :
    m.ProcessFloatAudioForVAD [] = (false, m, []) ∧
    UVoiceActivityManager.MeanSquare [] = 0 ∧
    m.DetectVoiceActivity [] = false := by
  refine ⟨?_, rfl, ?_⟩
  · unfold UVoiceActivityManager.ProcessFloatAudioForVAD
    simp
  · unfold UVoiceActivityManager.DetectVoiceActivity
    have h0 : UVoiceActivityManager.MeanSquare [] = 0 := rfl
    rw [h0, decide_eq_false_iff_not, not_lt]
    positivity

/-- C25. With smoothing disabled, after every processed non-empty block the
active state of an initialised detector equals the raw classification of that
block (which is also the value returned), whatever the previous state, the
counters and the thresholds. -/
theorem C25_raw_mode (m : UVoiceActivityManager) (AudioData : List ℚ)
    (hinit : m.bIsInitialized = true) (hraw : m.bEnableSmoothing = false)
    (hne : AudioData ≠ []) :
    (m.ProcessFloatAudioForVAD AudioData).2.1.bCurrentVoiceState
      = m.DetectVoiceActivity AudioData ∧
    (m.ProcessFloatAudioForVAD AudioData).1 = m.DetectVoiceActivity AudioData := by
  have hlen : (AudioData.length == 0) = false := by
    cases AudioData with
    | nil => exact absurd rfl hne
    | cons a rest => rfl
  have hupd : ∀ b : Bool, (m.UpdateVoiceActivity b).1.bCurrentVoiceState = b := by
    intro b
    have hsm : (m.countBlock b).bEnableSmoothing = false := by
      rw [(countBlock_fields m b).2.2.2.2.1]; exact hraw
    unfold UVoiceActivityManager.UpdateVoiceActivity
    have hnew : (m.countBlock b).bNewVoiceState b = b := by
      unfold UVoiceActivityManager.bNewVoiceState
      rw [hsm]
      rfl
    simp only [hnew]
    by_cases hcur : (m.countBlock b).bCurrentVoiceState = b
    · simp [hcur]
    · have hb : (b != (m.countBlock b).bCurrentVoiceState) = true := by
        simpa using fun h => hcur h.symm
      simp only [hb, if_true]
      split_ifs <;> rfl
  unfold UVoiceActivityManager.ProcessFloatAudioForVAD
  simp only [hinit, hlen, Bool.not_true, Bool.or_self, Bool.false_eq_true, if_false]
  exact ⟨hupd _, trivial⟩

/-- C25 on the scenario detector with smoothing disabled (thresholds 5 and 30):
a single voice block switches the state to Voice, and a single silence block
after it switches the state back. -/
theorem C25_raw_mode_witness :
    (rawDetector.ProcessFloatAudioForVAD [1]).2.1.bCurrentVoiceState = true ∧
    ((rawDetector.ProcessFloatAudioForVAD [1]).2.1.ProcessFloatAudioForVAD
      [0]).2.1.bCurrentVoiceState = false := by
  have h1 := (C25_raw_mode rawDetector [1] (by decide!) (by decide!) (by simp)).1
  have h2 := (C25_raw_mode (rawDetector.ProcessFloatAudioForVAD [1]).2.1 [0]
    (by decide!) (by decide!) (by simp)).1
  refine ⟨?_, ?_⟩
  · rw [h1]; decide!
  · rw [h2]; decide!

/-! ### The speech state machine: clearing and storing errors -/

/-- What a successful `TransitionTo` does to the stored error. -/
theorem TransitionTo_error (m : USpeechStateMachine) (NewState : ESpeechSystemState)
    (Reason : String) :
    (m.TransitionTo NewState Reason).2.LastErrorType =
      (if USpeechStateMachine.IsValidTransition m.CurrentState NewState = true ∧
          NewState = ESpeechSystemState.Ready then ESpeechErrorType.None
        else m.LastErrorType) ∧
    (m.TransitionTo NewState Reason).2.LastErrorMessage =
      (if USpeechStateMachine.IsValidTransition m.CurrentState NewState = true ∧
          NewState = ESpeechSystemState.Ready then ""
        else m.LastErrorMessage) ∧
    (m.TransitionTo NewState Reason).2.CurrentState =
      (if USpeechStateMachine.IsValidTransition m.CurrentState NewState = true then NewState
        else m.CurrentState) ∧
    (m.TransitionTo NewState Reason).1 =
      USpeechStateMachine.IsValidTransition m.CurrentState NewState := by
  unfold USpeechStateMachine.TransitionTo
  cases hv : USpeechStateMachine.IsValidTransition m.CurrentState NewState
  · simp
  · by_cases hr : NewState = ESpeechSystemState.Ready
    · subst hr
      simp [USpeechStateMachine.ClearError, USpeechStateMachine.AddToHistory]
    · have hb : (NewState == ESpeechSystemState.Ready) = false := by simpa using hr
      simp [hb, hr, USpeechStateMachine.AddToHistory]

/-- C24. After `TransitionTo(Ready, reason)` returns true the stored error kind
is None and the stored message is empty, whatever was stored; a successful
transition to any other state leaves the stored kind and message unchanged. -/
theorem C24_Ready_clears_error (m : USpeechStateMachine) (NewState : ESpeechSystemState)
    (Reason : String) (hok : (m.TransitionTo NewState Reason).1 = true) :
    (NewState = ESpeechSystemState.Ready →
      (m.TransitionTo NewState Reason).2.LastErrorType = ESpeechErrorType.None ∧
      (m.TransitionTo NewState Reason).2.LastErrorMessage = "") ∧
    (NewState ≠ ESpeechSystemState.Ready →
      (m.TransitionTo NewState Reason).2.LastErrorType = m.LastErrorType ∧
      (m.TransitionTo NewState Reason).2.LastErrorMessage = m.LastErrorMessage) := by
  obtain ⟨h1, h2, -, h4⟩ := TransitionTo_error m NewState Reason
  rw [h4] at hok
  refine ⟨fun hr => ?_, fun hr => ?_⟩
  · rw [h1, h2, if_pos ⟨hok, hr⟩, if_pos ⟨hok, hr⟩]
    exact ⟨rfl, rfl⟩
  · rw [h1, h2, if_neg (fun h => hr h.2), if_neg (fun h => hr h.2)]
    exact ⟨rfl, rfl⟩

/-- C24 on the machine in Error with a stored network error: the transition to
Ready clears the error and the transition to Initializing keeps it. -/
theorem C24_Ready_clears_error_witness :
    (exampleErrorMachine.TransitionTo .Ready "recovered").2.LastErrorType
      = ESpeechErrorType.None ∧
    (exampleErrorMachine.TransitionTo .Ready "recovered").2.LastErrorMessage = "" ∧
    (exampleErrorMachine.TransitionTo .Initializing "retry").2.LastErrorType
      = ESpeechErrorType.NetworkError ∧
    (exampleErrorMachine.TransitionTo .Initializing "retry").2.LastErrorMessage = "net" := by
  have h1 := (C24_Ready_clears_error exampleErrorMachine .Ready "recovered" rfl).1 rfl
  have h2 := (C24_Ready_clears_error exampleErrorMachine .Initializing "retry" rfl).2
    (by decide)
  exact ⟨h1.1, h1.2, h2.1, h2.2⟩

/-- C30. From every state, after `SetError(kind, message)` the current state is
Error and the stored kind and message are the arguments. If the previous state
was not Error the history gets one Error entry appended (the oldest entry is
dropped when that makes 21) and one state-change notification from the previous
state to Error is emitted, followed by the error notification; if the state
already was Error the history is unchanged and the error notification is the
only one emitted. -/
theorem C30_SetError_lands_in_Error (m : USpeechStateMachine) (ErrorType : ESpeechErrorType)
    (ErrorMessage : String) :
    (m.SetError ErrorType ErrorMessage).CurrentState = ESpeechSystemState.Error ∧
    (m.SetError ErrorType ErrorMessage).LastErrorType = ErrorType ∧
    (m.SetError ErrorType ErrorMessage).LastErrorMessage = ErrorMessage ∧
    (m.CurrentState ≠ ESpeechSystemState.Error →
      (m.SetError ErrorType ErrorMessage).StateHistory =
        (if (m.StateHistory ++ [ESpeechSystemState.Error]).length > 20 then
          (m.StateHistory ++ [ESpeechSystemState.Error]).eraseIdx 0
        else m.StateHistory ++ [ESpeechSystemState.Error]) ∧
      (m.SetError ErrorType ErrorMessage).Broadcasts =
        m.Broadcasts ++
          [FStateMachineEvent.StateChanged m.CurrentState .Error ("Error: " ++ ErrorMessage),
            FStateMachineEvent.ErrorOccurred ErrorType ErrorMessage]) ∧
    (m.CurrentState = ESpeechSystemState.Error →
      (m.SetError ErrorType ErrorMessage).StateHistory = m.StateHistory ∧
      (m.SetError ErrorType ErrorMessage).Broadcasts =
        m.Broadcasts ++ [FStateMachineEvent.ErrorOccurred ErrorType ErrorMessage]) := by
  have hv : ∀ s : ESpeechSystemState,
      USpeechStateMachine.IsValidTransition s .Error = true := by
    intro s; cases s <;> rfl
  obtain ⟨e1, e2, e3, -⟩ := TransitionTo_error
    { m with LastErrorType := ErrorType, LastErrorMessage := ErrorMessage }
    ESpeechSystemState.Error ("Error: " ++ ErrorMessage)
  obtain ⟨e4, e5⟩ := TransitionTo_history
    { m with LastErrorType := ErrorType, LastErrorMessage := ErrorMessage }
    ESpeechSystemState.Error ("Error: " ++ ErrorMessage)
  simp only [hv, if_true, true_and] at e1 e2 e3 e4 e5
  rw [if_neg (by decide)] at e1 e2
  by_cases hc : m.CurrentState = ESpeechSystemState.Error
  · have hs : m.SetError ErrorType ErrorMessage =
        { m with LastErrorType := ErrorType, LastErrorMessage := ErrorMessage,
                 Broadcasts := m.Broadcasts ++
                   [FStateMachineEvent.ErrorOccurred ErrorType ErrorMessage] } := by
      unfold USpeechStateMachine.SetError
      simp only [hc, bne_self_eq_false, Bool.false_eq_true, if_false]
    rw [hs]
    exact ⟨hc, rfl, rfl, fun h => absurd hc h, fun _ => ⟨rfl, rfl⟩⟩
  · have hb : (m.CurrentState != ESpeechSystemState.Error) = true := by simpa using hc
    have hs : m.SetError ErrorType ErrorMessage =
        { (USpeechStateMachine.TransitionTo
            { m with LastErrorType := ErrorType, LastErrorMessage := ErrorMessage }
            ESpeechSystemState.Error ("Error: " ++ ErrorMessage)).2 with
          Broadcasts := (USpeechStateMachine.TransitionTo
            { m with LastErrorType := ErrorType, LastErrorMessage := ErrorMessage }
            ESpeechSystemState.Error ("Error: " ++ ErrorMessage)).2.Broadcasts ++
              [FStateMachineEvent.ErrorOccurred ErrorType ErrorMessage] } := by
      unfold USpeechStateMachine.SetError
      simp only [hb, if_true]
    rw [hs]
    refine ⟨e3, e1, e2, fun _ => ⟨e4, ?_⟩, fun h => absurd h hc⟩
    show (USpeechStateMachine.TransitionTo _ _ _).2.Broadcasts ++ _ = _
    rw [e5, List.append_assoc]
    rfl

/-- C30 on two machines. From the constructed machine (Uninitialized) the
history becomes Uninitialized, Error and two notifications are emitted. From
`exampleErrorMachine` (already in Error, history full) the history is unchanged
and only the error notification is emitted. -/
theorem C30_SetError_lands_in_Error_witness :
    (USpeechStateMachine.construct.SetError .SDKError "x").StateHistory
      = [ESpeechSystemState.Uninitialized, ESpeechSystemState.Error] ∧
    (USpeechStateMachine.construct.SetError .SDKError "x").Broadcasts
      = [FStateMachineEvent.StateChanged .Uninitialized .Error "Error: x",
          FStateMachineEvent.ErrorOccurred .SDKError "x"] ∧
    (exampleErrorMachine.SetError .SDKError "x").StateHistory
      = exampleErrorMachine.StateHistory ∧
    (exampleErrorMachine.SetError .SDKError "x").Broadcasts
      = [FStateMachineEvent.ErrorOccurred .SDKError "x"] := by
  obtain ⟨-, -, -, h1, -⟩ :=
    C30_SetError_lands_in_Error USpeechStateMachine.construct .SDKError "x"
  obtain ⟨-, -, -, -, h2⟩ := C30_SetError_lands_in_Error exampleErrorMachine .SDKError "x"
  have a := h1 (by decide)
  have b := h2 rfl
  exact ⟨a.1, a.2, b.1, b.2⟩

/-! ### The sequence builder: empty input, and the chunks of the delay tail -/

/-- What one pass of the worker loop does to the result queue and to the error
log, whether the context is the one kept from an earlier item or the one
`Init` has just made; and that the pass returns the error code when `Init`
fails. -/
theorem RunPass_queue (fuel : Nat) (Init : Nat → Option ULipSyncWrapper)
    (r : FSequenceConverterRunnable) (p : FRunPass) (h : r.RunPass fuel Init = some p) :
    (p.runnable.ResultsSeqQueue_ = r.ResultsSeqQueue_ ∨
      ∃ s, s ≠ [] ∧ p.runnable.ResultsSeqQueue_ = r.ResultsSeqQueue_ ++ [s]) ∧
    (∀ (WaveInfo : FWaveModInfo) (rest : List (Option FWaveModInfo)) (c w' : ULipSyncWrapper),
      r.InputAudioDataQueue_ = some WaveInfo :: rest →
      (r.Context = some c ∨ (r.Context = none ∧ Init WaveInfo.pSamplesPerSec = some c)) →
      MakePlaybackSequence fuel WaveInfo.SampleData WaveInfo.pChannels WaveInfo.pSamplesPerSec
        WaveInfo.SampleDataSize c = some (w', []) →
      p.runnable.ResultsSeqQueue_ = r.ResultsSeqQueue_ ∧
      p.runnable.Errors = r.Errors ++ [FConverterError.SequenceIsNull]) ∧
    (∀ (WaveInfo : FWaveModInfo) (rest : List (Option FWaveModInfo)),
      r.InputAudioDataQueue_ = some WaveInfo :: rest → r.Context = none →
      Init WaveInfo.pSamplesPerSec = none →
      p = FRunPass.Return (-1) { r with InputAudioDataQueue_ := rest }) := by
  unfold FSequenceConverterRunnable.RunPass at h
  cases hq : r.InputAudioDataQueue_ with
  | nil =>
    rw [hq] at h
    simp only [Option.some.injEq] at h
    subst h
    refine ⟨Or.inl rfl, ?_, ?_⟩
    · intro _ _ _ _ hh; cases hh
    · intro _ _ hh; cases hh
  | cons a rest =>
    rw [hq] at h
    cases a with
    | none =>
      simp only [Option.some.injEq] at h
      subst h
      refine ⟨Or.inl rfl, ?_, ?_⟩
      · intro _ _ _ _ hh; cases hh
      · intro _ _ hh; cases hh
    | some W =>
      simp only [] at h
      have key : ∀ c0 : ULipSyncWrapper,
          (match MakePlaybackSequence fuel W.SampleData W.pChannels W.pSamplesPerSec
              W.SampleDataSize c0 with
            | none => none
            | some res =>
              if res.2.length ≠ 0 then
                some (FRunPass.Continue
                  { InputAudioDataQueue_ := rest, ResultsSeqQueue_ := r.ResultsSeqQueue_ ++ [res.2],
                    Context := some res.1, Errors := r.Errors })
              else some (FRunPass.Continue
                  { InputAudioDataQueue_ := rest, ResultsSeqQueue_ := r.ResultsSeqQueue_,
                    Context := some res.1,
                    Errors := r.Errors ++ [FConverterError.SequenceIsNull] })) = some p →
          (p.runnable.ResultsSeqQueue_ = r.ResultsSeqQueue_ ∨
            ∃ s, s ≠ [] ∧ p.runnable.ResultsSeqQueue_ = r.ResultsSeqQueue_ ++ [s]) ∧
          (∀ w' : ULipSyncWrapper,
            MakePlaybackSequence fuel W.SampleData W.pChannels W.pSamplesPerSec
              W.SampleDataSize c0 = some (w', []) →
            p.runnable.ResultsSeqQueue_ = r.ResultsSeqQueue_ ∧
            p.runnable.Errors = r.Errors ++ [FConverterError.SequenceIsNull]) := by
        intro c0 h
        cases hm : MakePlaybackSequence fuel W.SampleData W.pChannels W.pSamplesPerSec
            W.SampleDataSize c0 with
        | none => rw [hm] at h; cases h
        | some res =>
          rw [hm] at h
          simp only [] at h
          refine ⟨?_, ?_⟩
          · split_ifs at h with hl
            · simp only [Option.some.injEq] at h
              subst h
              exact Or.inr ⟨res.2, fun e => hl (by rw [e]; rfl), rfl⟩
            · simp only [Option.some.injEq] at h
              subst h
              exact Or.inl rfl
          · intro w' hm'
            have e4 := Option.some.inj hm'
            subst e4
            simp only [List.length_nil, ne_eq, not_true_eq_false, if_false,
              Option.some.injEq] at h
            subst h
            exact ⟨rfl, rfl⟩
      cases hc : r.Context with
      | none =>
        rw [hc] at h
        simp only [] at h
        cases hi : Init W.pSamplesPerSec with
        | none =>
          rw [hi] at h
          simp only [Option.some.injEq] at h
          subst h
          refine ⟨Or.inl rfl, ?_, ?_⟩
          · intro W' rest' c w' hq' hc'
            have e3 := Option.some.inj (List.cons.inj hq').1
            subst e3
            rcases hc' with hc' | ⟨-, hc'⟩
            · cases hc'
            · rw [hi] at hc'; cases hc'
          · intro W' rest' hq' _ _
            have e3 := (List.cons.inj hq').2
            subst e3
            rfl
        | some c0 =>
          rw [hi] at h
          simp only [] at h
          obtain ⟨k1, k2⟩ := key c0 h
          refine ⟨k1, ?_, ?_⟩
          · intro W' rest' c w' hq' hc' hm'
            have e3 := Option.some.inj (List.cons.inj hq').1
            subst e3
            rcases hc' with hc' | ⟨-, hc'⟩
            · cases hc'
            · rw [hi] at hc'
              have e1 := Option.some.inj hc'
              subst e1
              exact k2 w' hm'
          · intro W' rest' hq' _ hi'
            have e3 := Option.some.inj (List.cons.inj hq').1
            subst e3
            rw [hi] at hi'; cases hi'
      | some c0 =>
        rw [hc] at h
        simp only [] at h
        obtain ⟨k1, k2⟩ := key c0 h
        refine ⟨k1, ?_, ?_⟩
        rotate_left
        · intro _ _ _ hh; cases hh
        intro W' rest' c w' hq' hc' hm'
        have e3 := Option.some.inj (List.cons.inj hq').1
        subst e3
        rcases hc' with hc' | ⟨hc', -⟩
        · have e1 := Option.some.inj hc'
          subst e1
          exact k2 w' hm'
        · cases hc'

/-- C23. For an input without samples, chunk size
`C = NumChannels * floor(SampleRate / 100) > 0` and a frame offset `F ≥ 0`
(computed from the delay reported at the warm-up call, `F + C` below `2 ^ 31`),
`MakePlaybackSequence` returns an empty sequence. A pass of the worker loop puts
a sequence on the result queue only when it has at least one frame: the queue is
unchanged or has one non-empty sequence more, and when `MakePlaybackSequence`
has returned an empty sequence for the item, called with the context of the
pass (the one kept from an earlier item or, for the first item of a worker, the
one `Init` has just made), the queue is unchanged and the error line is
logged. -/
theorem C23_empty_input (fuel : Nat) (NumChannels : Int) (SampleRate : ℚ)
    (Context : ULipSyncWrapper) (C F : Nat) (hrate : 0 ≤ SampleRate)
    (hC : (C : Int) = NumChannels * Rat.floor (SampleRate / 100)) (hpos : 0 < C)
    (hF : FrameOffset (warmUp Context (Rat.floor (SampleRate / 100)) (C : Int)
      (decide (NumChannels > 1))).FrameDelayInMs SampleRate NumChannels = (F : Int))
    (hb : F + C < 2 ^ 31) (hfuel : F + 1 ≤ fuel)
    (fuel' : Nat) (Init : Nat → Option ULipSyncWrapper) (r : FSequenceConverterRunnable)
    (p : FRunPass) (hpass : r.RunPass fuel' Init = some p) :
    (∃ w', MakePlaybackSequence fuel [] NumChannels SampleRate 0 Context = some (w', [])) ∧
    (p.runnable.ResultsSeqQueue_ = r.ResultsSeqQueue_ ∨
      ∃ s, s ≠ [] ∧ p.runnable.ResultsSeqQueue_ = r.ResultsSeqQueue_ ++ [s]) ∧
    (∀ (WaveInfo : FWaveModInfo) (rest : List (Option FWaveModInfo)) (c w' : ULipSyncWrapper),
      r.InputAudioDataQueue_ = some WaveInfo :: rest →
      (r.Context = some c ∨ (r.Context = none ∧ Init WaveInfo.pSamplesPerSec = some c)) →
      MakePlaybackSequence fuel' WaveInfo.SampleData WaveInfo.pChannels WaveInfo.pSamplesPerSec
        WaveInfo.SampleDataSize c = some (w', []) →
      p.runnable.ResultsSeqQueue_ = r.ResultsSeqQueue_ ∧
      p.runnable.Errors = r.Errors ++ [FConverterError.SequenceIsNull]) := by
  refine ⟨?_, (RunPass_queue fuel' Init r p hpass).1, (RunPass_queue fuel' Init r p hpass).2.1⟩
  obtain ⟨h1, h2⟩ := chunkSize_eq NumChannels SampleRate C hrate hC hpos (by omega)
  rw [h1] at h2
  have hloop := MakePlaybackSequence_loop fuel [] NumChannels SampleRate Context C F _ h1 h2 hF
  have h0 : 2 * ([] : List Int).length = 0 := rfl
  rw [h0] at hloop
  rw [hloop]
  obtain ⟨st', hs1, hs2⟩ := playbackLoop_count [] C F (Rat.floor (SampleRate / 100))
    (decide (NumChannels > 1)) hpos (by simpa using hb) (([] : List Int).length + F - 0 * C)
    (0 * C) (warmUp Context (Rat.floor (SampleRate / 100)) (C : Int) (decide (NumChannels > 1)))
    fuel rfl (by simp only [List.length_nil]; omega) (by simp only [List.length_nil]; omega)
    (by simp only [warmUp, Int.toNat_ofNat, List.length_replicate])
  rw [hs1]
  have hseq : (warmUp Context (Rat.floor (SampleRate / 100)) (C : Int)
      (decide (NumChannels > 1))).Sequence.length = 0 := rfl
  rw [hseq, List.length_nil, Nat.zero_add, Nat.zero_add, Nat.zero_mul, Nat.sub_zero,
    Nat.sub_self] at hs2
  exact ⟨st'.Context, by rw [Option.map_some', List.length_eq_zero.mp hs2]⟩

/-- C23 on `emptyInputWorker`, a worker at the start of `Run` whose first item
is 16 kHz mono without samples, `Init` giving the stub engine with a delay of
10 ms (`F = 160`): the sequence built from no samples is empty, and the pass of
the worker loop leaves the result queue empty and logs the error line. -/
theorem C23_empty_input_witness :
    (∃ w', MakePlaybackSequence 200 [] 1 16000 0 (stubEngine 10) = some (w', [])) ∧
    emptyInputWorker.Context = none ∧
    ∃ p, emptyInputWorker.RunPass 200 (fun _ => some (stubEngine 10)) = some p ∧
      p.runnable.ResultsSeqQueue_ = [] ∧
      p.runnable.Errors = [FConverterError.SequenceIsNull] ∧
      p.runnable.GetSeq.1 = none := by
  have hp : ∃ p, emptyInputWorker.RunPass 200 (fun _ => some (stubEngine 10)) = some p := by
    have : (emptyInputWorker.RunPass 200 (fun _ => some (stubEngine 10))).isSome = true := by
      decide!
    exact Option.isSome_iff_exists.mp this
  obtain ⟨p, hp⟩ := hp
  obtain ⟨h1, -, h3⟩ :=
    C23_empty_input 200 1 16000 (stubEngine 10) 160 160 (by norm_num) (by decide!) (by decide)
      (by decide!) (by decide) (by decide) 200 (fun _ => some (stubEngine 10))
      emptyInputWorker p hp
  obtain ⟨w', hw⟩ := h1
  have h4 := h3 { pSamplesPerSec := 16000, pChannels := 1, SampleData := [], SampleDataSize := 0 }
    [] (stubEngine 10) w' rfl (Or.inr ⟨rfl, rfl⟩) hw
  refine ⟨⟨w', hw⟩, rfl, p, hp, h4.1, h4.2, ?_⟩
  unfold FSequenceConverterRunnable.GetSeq
  rw [h4.1]
  rfl

/-- C26 at the failing input: 100 samples of value 1000 at 16 kHz mono
(`ChunkSize = 160`) with the stub engine reporting a delay of 10 ms (`F = 160`).
The engine receives the warm-up buffer, the chunk of offset 0 (the 100 samples
padded with zeros) and the chunk of offset 160, which lies beyond the end of the
input and still holds the samples 80 to 99 of the input: `memset` has cleared
160 bytes, the first 80 entries of `Samples`. -/
theorem C26_stale_samples_in_delay_tail :
    FrameOffset 10 16000 1 = 160 ∧
    (MakePlaybackSequence 600 (List.replicate 100 1000) 1 16000 200 (stubEngine 10)).map
        (fun r => r.1.Calls.map (fun c => c.audioBuffer)) =
      some [ List.replicate 160 0,
             List.replicate 100 1000 ++ List.replicate 60 0,
             List.replicate 80 0 ++ List.replicate 20 1000 ++ List.replicate 60 0 ] := by
  decide!

/-! ### The smoother: the whole of `Postprocessing` -/

/-- Two sequences of the same length whose frames carry `n` scores each are
equal when they agree on every laughter score and on every viseme score. -/
theorem frames_ext (n : Nat) (A B : List FLipSyncFrame) (hA : Uniform n A)
    (hB : Uniform n B) (hlen : A.length = B.length)
    (hl : ∀ j : Nat, (A[j]?).map FLipSyncFrame.LaughterScore = (B[j]?).map FLipSyncFrame.LaughterScore)
    (hs : ∀ j c, j < A.length → c < n → scoreAt A j c = scoreAt B j c) : A = B := by
  apply List.ext_getElem hlen
  intro j h1 h2
  have hAj : A[j]? = some A[j] := List.getElem?_eq_getElem h1
  have hBj : B[j]? = some B[j] := List.getElem?_eq_getElem h2
  have hlA : (A[j]).VisemeScores.length = n := hA _ (List.getElem_mem h1)
  have hlB : (B[j]).VisemeScores.length = n := hB _ (List.getElem_mem h2)
  have hlaugh : (A[j]).LaughterScore = (B[j]).LaughterScore := by
    have := hl j
    rw [hAj, hBj] at this
    exact Option.some.inj this
  have hscores : (A[j]).VisemeScores = (B[j]).VisemeScores := by
    apply List.ext_getElem (by rw [hlA, hlB])
    intro c h3 h4
    have e1 := getElem?_eq_scoreAt A j c _ hAj h3
    have e2 := getElem?_eq_scoreAt B j c _ hBj h4
    rw [List.getElem?_eq_getElem h3] at e1
    rw [List.getElem?_eq_getElem h4] at e2
    rw [Option.some.inj e1, Option.some.inj e2]
    exact hs j c h1 (by rw [← hlA]; exact h3)
  cases hA' : A[j] with
  | mk v l =>
    cases hB' : B[j] with
    | mk v' l' =>
      rw [hA'] at hscores hlaugh
      rw [hB'] at hscores hlaugh
      simp only at hscores hlaugh
      rw [hscores, hlaugh]

/-- The interpolation never touches a laughter score. -/
theorem overwritten_laughter (s e : Nat) (P : Nat → Nat → Bool) (frames : List FLipSyncFrame)
    (j : Nat) :
    ((overwritten s e P frames)[j]?).map FLipSyncFrame.LaughterScore =
      (frames[j]?).map FLipSyncFrame.LaughterScore := by
  rw [overwritten_getElem?]
  cases frames[j]? with
  | none => rfl
  | some f => rfl

/-- The sequence left by an interpolation that is called only when `s < e`:
same length, same number of scores per frame, same laughter scores; the frames
outside `s + 1, ..., e - 1` are unchanged; in a frame `j` strictly between,
category `c` holds `a + ((j - s - 1) / (e - s)) (b - a)` with `a`, `b` the scores
of `c` in the frames `s` and `e`. -/
theorem interpolated_props (s e n : Nat) (frames : List FLipSyncFrame)
    (hu : Uniform n frames) (he : s < e → e < frames.length) :
    (interpolated s e frames).length = frames.length ∧
    Uniform n (interpolated s e frames) ∧
    (∀ j : Nat, ((interpolated s e frames)[j]?).map FLipSyncFrame.LaughterScore =
      (frames[j]?).map FLipSyncFrame.LaughterScore) ∧
    (∀ j : Nat, ¬ (s < j ∧ j < e) → (interpolated s e frames)[j]? = frames[j]?) ∧
    (∀ j c, s < j → j < e → c < n →
      scoreAt (interpolated s e frames) j c =
        SequencePostprocessing.Lerp (scoreAt frames s c) (scoreAt frames e c)
          (((j - s - 1 : Nat) : ℚ) / ((e - s : Nat) : ℚ))) := by
  unfold interpolated
  by_cases hse : s < e
  · rw [if_pos hse]
    obtain ⟨h1, h2, h3, h4⟩ := overwritten_between s e n frames hu hse (he hse)
    exact ⟨h1, h2, overwritten_laughter s e _ frames, h3, h4⟩
  · rw [if_neg hse]
    exact ⟨rfl, hu, fun _ => rfl, fun _ _ => rfl, fun j c h1 h2 _ => absurd (by omega) hse⟩

/-- A score read outside the interpolated frames is the score before. -/
theorem scoreAt_interpolated_outside (s e n : Nat) (frames : List FLipSyncFrame)
    (hu : Uniform n frames) (he : s < e → e < frames.length) (j c : Nat)
    (hj : ¬ (s < j ∧ j < e)) :
    scoreAt (interpolated s e frames) j c = scoreAt frames j c :=
  scoreAt_congr _ _ j c ((interpolated_props s e n frames hu he).2.2.2.1 j hj)

/-- The interpolation keeps the scores in `[0, 1]`. -/
theorem interpolated_InRange (s e n : Nat) (frames : List FLipSyncFrame)
    (hu : Uniform n frames) (he : s < e → e < frames.length) (hr : InRange n frames) :
    InRange n (interpolated s e frames) := by
  obtain ⟨h1, -, -, -, h5⟩ := interpolated_props s e n frames hu he
  intro j hj c hc
  rw [h1] at hj
  by_cases hin : s < j ∧ j < e
  · have hse : s < e := by omega
    rw [h5 j c hin.1 hin.2 hc]
    obtain ⟨a0, a1⟩ := hr s (by omega) c hc
    obtain ⟨b0, b1⟩ := hr e (he hse) c hc
    have ht0 : (0 : ℚ) ≤ ((j - s - 1 : Nat) : ℚ) / ((e - s : Nat) : ℚ) := by positivity
    have ht1 : ((j - s - 1 : Nat) : ℚ) / ((e - s : Nat) : ℚ) ≤ 1 := by
      rw [div_le_one (by exact_mod_cast (by omega : 0 < e - s))]
      exact_mod_cast (by omega : j - s - 1 ≤ e - s)
    unfold SequencePostprocessing.Lerp
    generalize ((j - s - 1 : Nat) : ℚ) / ((e - s : Nat) : ℚ) = t at ht0 ht1
    generalize scoreAt frames s c = a at a0 a1
    generalize scoreAt frames e c = b at b0 b1
    constructor
    · nlinarith [mul_nonneg ht0 b0, mul_nonneg (sub_nonneg.mpr ht1) a0]
    · nlinarith [mul_nonneg ht0 (sub_nonneg.mpr b1),
        mul_nonneg (sub_nonneg.mpr ht1) (sub_nonneg.mpr a1)]
  · rw [scoreAt_interpolated_outside s e n frames hu he j c hin]
    exact hr j hj c hc

/-- A sequence whose frames between `s` and `e` already hold the interpolated
values is left as it is. -/
theorem interpolated_fixed (s e n : Nat) (frames : List FLipSyncFrame)
    (hu : Uniform n frames) (he : s < e → e < frames.length)
    (hfix : ∀ j c, s < j → j < e → c < n →
      scoreAt frames j c =
        SequencePostprocessing.Lerp (scoreAt frames s c) (scoreAt frames e c)
          (((j - s - 1 : Nat) : ℚ) / ((e - s : Nat) : ℚ))) :
    interpolated s e frames = frames := by
  obtain ⟨h1, h2, h3, -, h5⟩ := interpolated_props s e n frames hu he
  apply frames_ext n _ _ h2 hu h1 h3
  intro j c _ hc
  by_cases hin : s < j ∧ j < e
  · rw [h5 j c hin.1 hin.2 hc, hfix j c hin.1 hin.2 hc]
  · exact scoreAt_interpolated_outside s e n frames hu he j c hin

/-- The one-argument `Postprocessing` on a sequence whose frames from index 1 on
are all silent: the leading search finds nothing and leaves `Start = 1`, so the
trailing search reports the interval from frame 1 to the last frame, which is
interpolated when it is not empty. -/
theorem Postprocessing_silent (frames : List FLipSyncFrame) (n : Nat) (hu : Uniform n frames)
    (hn : 1 ≤ n) (hsil : ∀ j, 1 ≤ j → j < frames.length → scoreAt frames j 0 = 1) :
    SequencePostprocessing.Postprocessing frames =
      some (interpolated 1 (frames.length - 1) frames) := by
  have hfwd := scanLoop_silent frames n hu hn (-1) (List.range' 1 (frames.length - 1))
    (fun i hi => by rw [List.mem_range'_1] at hi; omega)
    (fun i hi => by rw [List.mem_range'_1] at hi; exact hsil i hi.1 (by omega))
  have hbwd := scanLoop_silent frames n hu hn 1 (List.range' 1 (frames.length - 1)).reverse
    (fun i hi => by rw [List.mem_reverse, List.mem_range'_1] at hi; omega)
    (fun i hi => by
      rw [List.mem_reverse, List.mem_range'_1] at hi; exact hsil i hi.1 (by omega))
  have hstart : SequencePostprocessing.GetStartInterval (-1) (-1) (-1) frames
      = some (false, 1, -1, -2) := by
    unfold SequencePostprocessing.GetStartInterval
    rw [hfwd]
    rfl
  have hend : SequencePostprocessing.GetEndInterval 1 (-1) (-2) frames
      = some (decide (((frames.length : Int) - 1) - 1 > 0), 1, (frames.length : Int) - 1,
          ((frames.length : Int) - 1) - 1) := by
    unfold SequencePostprocessing.GetEndInterval
    rw [hbwd]
    rfl
  unfold SequencePostprocessing.Postprocessing
  simp only [Option.bind_eq_bind]
  rw [hstart]
  simp only [Option.some_bind, Bool.false_eq_true, if_false]
  rw [hend]
  simp only [Option.some_bind]
  unfold interpolated
  by_cases hlen : 1 < frames.length - 1
  · have hd : decide (((frames.length : Int) - 1) - 1 > 0) = true := by
      rw [decide_eq_true_eq]; omega
    have hc1 : (frames.length : Int) - 1 = ((frames.length - 1 : Nat) : Int) := by omega
    have hc2 : ((frames.length - 1 : Nat) : Int) - 1
        = ((frames.length - 1 - 1 : Nat) : Int) := by omega
    have hpost := PostprocessingInterval_eq 1 (frames.length - 1) n frames hu hlen (by omega)
    rw [hd, if_pos rfl, if_pos hlen, hc1, hc2]
    exact hpost
  · have hd : decide (((frames.length : Int) - 1) - 1 > 0) = false := by
      rw [decide_eq_false_iff_not]; omega
    rw [hd, if_neg hlen]
    rfl

/-- A call of the four-argument `Postprocessing` guarded by the flag of an
interval search: the frames between `s` and `e` are interpolated when `s < e`. -/
theorem interval_pass (F : List FLipSyncFrame) (n s e : Nat) (hu : Uniform n F)
    (he : s < e → e < F.length) :
    (if decide ((e : Int) - (s : Int) > 0) = true then
        SequencePostprocessing.PostprocessingInterval (s : Int) (e : Int)
          ((e : Int) - (s : Int)) F
      else some F) = some (interpolated s e F) := by
  unfold interpolated
  by_cases h1 : s < e
  · have hd : decide ((e : Int) - (s : Int) > 0) = true := by rw [decide_eq_true_eq]; omega
    have hcast : (e : Int) - (s : Int) = ((e - s : Nat) : Int) := by omega
    rw [hd, if_pos rfl, if_pos h1, hcast]
    exact PostprocessingInterval_eq s e n F hu h1 (he h1)
  · have hd : decide ((e : Int) - (s : Int) > 0) = false := by
      rw [decide_eq_false_iff_not]; omega
    rw [hd, if_neg h1]
    rfl

/-- The one-argument `Postprocessing` on a sequence with a first frame `E ≥ 1`
and a last frame `S` that are not silent: the frames between 1 and `E` are
interpolated, then the frames between `S` and the last frame. -/
theorem Postprocessing_found (frames : List FLipSyncFrame) (n : Nat) (hu : Uniform n frames)
    (hn : 1 ≤ n) (E S : Nat) (hE : 1 ≤ E) (hES : E ≤ S) (hS : S < frames.length)
    (hsilE : ∀ j, 1 ≤ j → j < E → scoreAt frames j 0 = 1) (hnsE : scoreAt frames E 0 ≠ 1)
    (hnsS : scoreAt frames S 0 ≠ 1)
    (hsilS : ∀ j, S < j → j < frames.length → scoreAt frames j 0 = 1) :
    SequencePostprocessing.Postprocessing frames =
      some (interpolated S (frames.length - 1) (interpolated 1 E frames)) := by
  have hEl : E < frames.length := by omega
  obtain ⟨hlen, hu1, -, hout, -⟩ := interpolated_props 1 E n frames hu (fun _ => hEl)
  have hscore : ∀ j, E ≤ j → scoreAt (interpolated 1 E frames) j 0 = scoreAt frames j 0 :=
    fun j hj => scoreAt_congr _ _ j 0 (hout j (by omega))
  have hstart := GetStartInterval_found frames n hu hn E hE hEl hsilE hnsE (-1) (-1) (-1)
  have hfirst := interval_pass frames n 1 E hu (fun _ => hEl)
  simp only [Nat.cast_one] at hfirst
  obtain ⟨S', hS1, hS2, hS3, hS4, hend⟩ := GetEndInterval_found (interpolated 1 E frames) n hu1
    hn E hE (by rw [hlen]; exact hEl) (by rw [hscore E (le_refl E)]; exact hnsE)
    1 (E : Int) ((E : Int) - 1)
  rw [hlen] at hS2 hS4 hend
  have hSS : S' = S := by
    by_contra hne
    rcases Nat.lt_or_gt_of_ne hne with h | h
    · exact hnsS (by rw [← hscore S hES]; exact hS4 S h hS)
    · exact hS3 (by rw [hscore S' hS1]; exact hsilS S' h hS2)
  subst hSS
  have hsecond := interval_pass (interpolated 1 E frames) n S' (frames.length - 1) hu1
    (fun _ => by rw [hlen]; omega)
  have hc1 : ((frames.length - 1 : Nat) : Int) = (frames.length : Int) - 1 := by omega
  rw [hc1] at hsecond
  unfold SequencePostprocessing.Postprocessing
  simp only [Option.bind_eq_bind]
  rw [hstart, Option.some_bind]
  by_cases h1 : 1 < E
  · have hd : decide ((E : Int) - 1 > 0) = true := by rw [decide_eq_true_eq]; omega
    rw [hd, if_pos rfl] at hfirst
    simp only [hd, if_true, hfirst, Option.some_bind, hend]
    exact hsecond
  · have hd : decide ((E : Int) - 1 > 0) = false := by rw [decide_eq_false_iff_not]; omega
    have hI : interpolated 1 E frames = frames := by unfold interpolated; rw [if_neg h1]
    rw [hI] at hend hsecond
    rw [hI]
    simp only [hd, Bool.false_eq_true, if_false, Option.some_bind, hend]
    exact hsecond

/-- Either every frame from index 1 on is silent, or there are a first frame `E`
and a last frame `S` from index 1 on that are not silent. -/
theorem nonSilent_cases (frames : List FLipSyncFrame) :
    (∀ j, 1 ≤ j → j < frames.length → scoreAt frames j 0 = 1) ∨
    ∃ E S, 1 ≤ E ∧ E ≤ S ∧ S < frames.length ∧
      (∀ j, 1 ≤ j → j < E → scoreAt frames j 0 = 1) ∧ scoreAt frames E 0 ≠ 1 ∧
      scoreAt frames S 0 ≠ 1 ∧ (∀ j, S < j → j < frames.length → scoreAt frames j 0 = 1) := by
  by_cases hex : ∃ j, 1 ≤ j ∧ j < frames.length ∧ scoreAt frames j 0 ≠ 1
  · right
    classical
    have hE := Nat.find_spec hex
    have hEmin := fun j => Nat.find_min (H := hex) (m := j)
    have hSspec := Nat.findGreatest_spec
      (P := fun j => 1 ≤ j ∧ j < frames.length ∧ scoreAt frames j 0 ≠ 1)
      (Nat.le_of_lt hE.2.1) hE
    have hSmax := fun j => Nat.findGreatest_is_greatest
      (P := fun j => 1 ≤ j ∧ j < frames.length ∧ scoreAt frames j 0 ≠ 1)
      (n := frames.length) (k := j)
    have hSge := Nat.le_findGreatest
      (P := fun j => 1 ≤ j ∧ j < frames.length ∧ scoreAt frames j 0 ≠ 1)
      (Nat.le_of_lt hE.2.1) hE
    refine ⟨Nat.find hex, Nat.findGreatest
      (fun j => 1 ≤ j ∧ j < frames.length ∧ scoreAt frames j 0 ≠ 1) frames.length,
      hE.1, hSge, hSspec.2.1, ?_, hE.2.2, hSspec.2.2, ?_⟩
    · intro j h1 h2
      by_contra hns
      exact hEmin j h2 ⟨h1, by omega, hns⟩
    · intro j h1 h2
      by_contra hns
      exact hSmax j h1 (Nat.le_of_lt h2) ⟨by omega, h2, hns⟩
  · left
    intro j h1 h2
    by_contra hns
    exact hex ⟨j, h1, h2, hns⟩

/-- Whatever the sequence, `Postprocessing` returns: no frame index, score index
or index into an interpolated array leaves its range. -/
theorem Postprocessing_total (frames : List FLipSyncFrame) (n : Nat) (hu : Uniform n frames)
    (hn : 1 ≤ n) :
    ∃ s1 e1 s2 e2, (s1 < e1 → e1 < frames.length) ∧ (s2 < e2 → e2 < frames.length) ∧
      SequencePostprocessing.Postprocessing frames =
        some (interpolated s2 e2 (interpolated s1 e1 frames)) := by
  rcases nonSilent_cases frames with hsil | ⟨E, S, hE, hES, hS, h1, h2, h3, h4⟩
  · refine ⟨1, 1, 1, frames.length - 1, fun h => absurd h (lt_irrefl 1), fun _ => by omega, ?_⟩
    have : interpolated 1 1 frames = frames := by unfold interpolated; rw [if_neg (lt_irrefl 1)]
    rw [this]
    exact Postprocessing_silent frames n hu hn hsil
  · exact ⟨1, E, S, frames.length - 1, fun _ => by omega, fun _ => by omega,
      Postprocessing_found frames n hu hn E S hE hES hS h1 h2 h3 h4⟩

/-- The interval reported by `GetStartInterval`: its length is `End - Start`, and
the flag is set exactly when the length is at least 1. -/
theorem GetStartInterval_interval (frames : List FLipSyncFrame) (a b c : Int)
    (r : Bool × Int × Int × Int)
    (h : SequencePostprocessing.GetStartInterval a b c frames = some r) :
    r.2.2.2 = r.2.2.1 - r.2.1 ∧ (r.1 = true ↔ 1 ≤ r.2.2.2) := by
  unfold SequencePostprocessing.GetStartInterval at h
  cases hs : SequencePostprocessing.scanLoop frames b (List.range' 1 (frames.length - 1)) with
  | none => rw [hs] at h; cases h
  | some End1 =>
    rw [hs] at h
    simp only [Option.bind_eq_bind, Option.some_bind, Option.some.injEq] at h
    subst h
    refine ⟨rfl, ?_⟩
    simp only [decide_eq_true_eq]
    omega

/-- The interval reported by `GetEndInterval`: its length is `End - Start`, and
the flag is set exactly when the length is at least 1. -/
theorem GetEndInterval_interval (frames : List FLipSyncFrame) (a b c : Int)
    (r : Bool × Int × Int × Int)
    (h : SequencePostprocessing.GetEndInterval a b c frames = some r) :
    r.2.2.2 = r.2.2.1 - r.2.1 ∧ (r.1 = true ↔ 1 ≤ r.2.2.2) := by
  unfold SequencePostprocessing.GetEndInterval at h
  cases hs : SequencePostprocessing.scanLoop frames a
      (List.range' 1 (frames.length - 1)).reverse with
  | none => rw [hs] at h; cases h
  | some Start1 =>
    rw [hs] at h
    simp only [Option.bind_eq_bind, Option.some_bind, Option.some.injEq] at h
    subst h
    refine ⟨rfl, ?_⟩
    simp only [decide_eq_true_eq]
    omega

/-- C29. For every sequence, of any length, whose frames all carry the same
non-zero number of scores, `Postprocessing` returns (in the model an index out of
range makes the result `none`), with a sequence of the same length and the same
number of scores per frame; and each interval search reports an interval length
equal to `End - Start` and sets its flag, which guards the interpolation and so
the call of `Grow`, exactly when that length is at least 1. -/
theorem C29_index_safe (frames : List FLipSyncFrame) (n : Nat) (hu : Uniform n frames)
    (hn : 1 ≤ n) :
    (∃ R, SequencePostprocessing.Postprocessing frames = some R ∧
      R.length = frames.length ∧ Uniform n R) ∧
    (∀ (F : List FLipSyncFrame) (a b c : Int) (r : Bool × Int × Int × Int),
      SequencePostprocessing.GetStartInterval a b c F = some r →
      r.2.2.2 = r.2.2.1 - r.2.1 ∧ (r.1 = true ↔ 1 ≤ r.2.2.2)) ∧
    (∀ (F : List FLipSyncFrame) (a b c : Int) (r : Bool × Int × Int × Int),
      SequencePostprocessing.GetEndInterval a b c F = some r →
      r.2.2.2 = r.2.2.1 - r.2.1 ∧ (r.1 = true ↔ 1 ≤ r.2.2.2)) := by
  obtain ⟨s1, e1, s2, e2, h1, h2, hP⟩ := Postprocessing_total frames n hu hn
  obtain ⟨l1, u1, -⟩ := interpolated_props s1 e1 n frames hu h1
  obtain ⟨l2, u2, -⟩ := interpolated_props s2 e2 n (interpolated s1 e1 frames) u1
    (by rw [l1]; exact h2)
  exact ⟨⟨_, hP, by rw [l2, l1], u2⟩, GetStartInterval_interval, GetEndInterval_interval⟩

/-- C29 on the sequences of 0, 1 and 2 frames, on a fully silent sequence and on
a sequence without silent frame: `Postprocessing` returns on each. -/
theorem C29_index_safe_witness :
    (∃ R, SequencePostprocessing.Postprocessing [] = some R) ∧
    (∃ R, SequencePostprocessing.Postprocessing [{ VisemeScores := [1], LaughterScore := 0 }]
      = some R) ∧
    (∃ R, SequencePostprocessing.Postprocessing exampleSequence = some R) ∧
    (∃ R, SequencePostprocessing.Postprocessing silentSequence = some R) ∧
    (∃ R, SequencePostprocessing.Postprocessing
      [{ VisemeScores := [0], LaughterScore := 0 }, { VisemeScores := [0], LaughterScore := 0 },
        { VisemeScores := [1 / 2], LaughterScore := 0 }] = some R) := by
  obtain ⟨⟨R0, h0, -⟩, -⟩ := C29_index_safe [] 1 (by unfold Uniform; decide) (by decide)
  obtain ⟨⟨R1, h1, -⟩, -⟩ :=
    C29_index_safe [{ VisemeScores := [1], LaughterScore := 0 }] 1
      (by unfold Uniform; decide) (by decide)
  obtain ⟨⟨R2, h2, -⟩, -⟩ :=
    C29_index_safe exampleSequence 2 (by unfold Uniform; decide) (by decide)
  obtain ⟨⟨R3, h3, -⟩, -⟩ :=
    C29_index_safe silentSequence 2 (by unfold Uniform; decide) (by decide)
  obtain ⟨⟨R4, h4, -⟩, -⟩ :=
    C29_index_safe
      [{ VisemeScores := [0], LaughterScore := 0 }, { VisemeScores := [0], LaughterScore := 0 },
        { VisemeScores := [1 / 2], LaughterScore := 0 }] 1
      (by unfold Uniform; decide) (by decide)
  exact ⟨⟨R0, h0⟩, ⟨R1, h1⟩, ⟨R2, h2⟩, ⟨R3, h3⟩, ⟨R4, h4⟩⟩

/-- C27. For every sequence with a first frame `E` and a last frame `S` from
index 1 on that are not silent, `Postprocessing` returns a sequence of the same
length with the same laughter scores, in which every frame that is neither
strictly between 1 and `E` nor strictly between `S` and the last index is
unchanged: frame 0, frame 1, the frames `E` to `S` and the last frame. -/
theorem C27_only_intermediate_frames (frames : List FLipSyncFrame) (n : Nat)
    (hu : Uniform n frames) (hn : 1 ≤ n) (E S : Nat) (hE : 1 ≤ E) (hES : E ≤ S)
    (hS : S < frames.length)
    (hsilE : ∀ j, 1 ≤ j → j < E → scoreAt frames j 0 = 1) (hnsE : scoreAt frames E 0 ≠ 1)
    (hnsS : scoreAt frames S 0 ≠ 1)
    (hsilS : ∀ j, S < j → j < frames.length → scoreAt frames j 0 = 1) :
    ∃ R, SequencePostprocessing.Postprocessing frames = some R ∧
      R.length = frames.length ∧
      (∀ j : Nat, (R[j]?).map FLipSyncFrame.LaughterScore =
        (frames[j]?).map FLipSyncFrame.LaughterScore) ∧
      (∀ j : Nat, ¬ (1 < j ∧ j < E) → ¬ (S < j ∧ j < frames.length - 1) →
        R[j]? = frames[j]?) := by
  obtain ⟨l1, u1, g1, o1, -⟩ := interpolated_props 1 E n frames hu (fun _ => by omega)
  obtain ⟨l2, -, g2, o2, -⟩ := interpolated_props S (frames.length - 1) n
    (interpolated 1 E frames) u1 (fun _ => by rw [l1]; omega)
  refine ⟨_, Postprocessing_found frames n hu hn E S hE hES hS hsilE hnsE hnsS hsilS,
    by rw [l2, l1], fun j => by rw [g2, g1], fun j h1 h2 => by rw [o2 j h2, o1 j h1]⟩

/-- C27 on a six-frame sequence with `E = 3` and `S = 3`: the frames 0, 1, 3 and
5 are unchanged. -/
theorem C27_only_intermediate_frames_witness :
    ∃ R, SequencePostprocessing.Postprocessing
        (leadingSilence ++ [{ VisemeScores := [1, 0], LaughterScore := 1 / 3 },
          { VisemeScores := [1, 0], LaughterScore := 0 }]) = some R ∧
      R.length = 6 ∧ R[0]? = some { VisemeScores := [1, 0], LaughterScore := 0 } ∧
      R[1]? = some { VisemeScores := [1, 0], LaughterScore := 0 } ∧
      R[3]? = some { VisemeScores := [0, 1], LaughterScore := 0 } ∧
      R[5]? = some { VisemeScores := [1, 0], LaughterScore := 0 } := by
  obtain ⟨R, h1, h2, -, h4⟩ :=
    C27_only_intermediate_frames
      (leadingSilence ++ [{ VisemeScores := [1, 0], LaughterScore := 1 / 3 },
          { VisemeScores := [1, 0], LaughterScore := 0 }]) 2
      (by unfold Uniform; decide) (by decide) 3 3 (by decide) (by decide) (by decide)
      (by intro j h1 h2
          have : j = 1 ∨ j = 2 := by omega
          rcases this with h | h <;> subst h <;> decide!)
      (by decide!) (by decide!)
      (by intro j h1 h2
          have h3 : j < 6 := h2
          have : j = 4 ∨ j = 5 := by omega
          rcases this with h | h <;> subst h <;> decide!)
  refine ⟨R, h1, h2, ?_, ?_, ?_, ?_⟩
  · rw [h4 0 (by decide) (by decide)]; rfl
  · rw [h4 1 (by decide) (by decide)]; rfl
  · rw [h4 3 (by decide) (by decide)]; rfl
  · rw [h4 5 (by decide) (by decide)]; rfl


/-- The interpolation at step 0 gives the start value. -/
theorem Lerp_zero_step (a b : ℚ) (K : Nat) :
    SequencePostprocessing.Lerp a b (((0 : Nat) : ℚ) / (K : ℚ)) = a := by
  unfold SequencePostprocessing.Lerp
  simp

/-- An interpolation from a value other than 1 towards 1, or from 1 towards a
value other than 1, does not give 1 before its last step, the step 0 from 1
excepted. -/
theorem Lerp_ne_one (a b : ℚ) (k K : Nat) (hk : k < K)
    (h : (a ≠ 1 ∧ b = 1) ∨ (a = 1 ∧ b ≠ 1 ∧ 0 < k)) :
    SequencePostprocessing.Lerp a b ((k : ℚ) / (K : ℚ)) ≠ 1 := by
  have hK : (0 : ℚ) < (K : ℚ) := by exact_mod_cast (by omega : 0 < K)
  have hkK : (k : ℚ) < (K : ℚ) := by exact_mod_cast hk
  unfold SequencePostprocessing.Lerp
  intro heq
  rcases h with ⟨ha, hb⟩ | ⟨ha, hb, hk0⟩
  · subst hb
    have h1 : (a - 1) * (1 - (k : ℚ) / (K : ℚ)) = 0 := by linarith
    rcases mul_eq_zero.mp h1 with h2 | h2
    · exact ha (by linarith)
    · have : (k : ℚ) / (K : ℚ) = 1 := by linarith
      rw [div_eq_one_iff_eq (ne_of_gt hK)] at this
      linarith
  · subst ha
    have h1 : ((k : ℚ) / (K : ℚ)) * (b - 1) = 0 := by linarith
    rcases mul_eq_zero.mp h1 with h2 | h2
    · have hk' : (0 : ℚ) < (k : ℚ) := by exact_mod_cast hk0
      have : (0 : ℚ) < (k : ℚ) / (K : ℚ) := div_pos hk' hK
      linarith
    · exact hb (by linarith)

/-- Applying `Postprocessing` to a fully silent sequence a second time changes
nothing. -/
theorem Postprocessing_idem_silent (frames : List FLipSyncFrame) (n : Nat)
    (hu : Uniform n frames) (hn : 1 ≤ n)
    (hsil : ∀ j, 1 ≤ j → j < frames.length → scoreAt frames j 0 = 1) :
    SequencePostprocessing.Postprocessing (interpolated 1 (frames.length - 1) frames) =
      some (interpolated 1 (frames.length - 1) frames) := by
  obtain ⟨l1, u1, -, o1, i1⟩ := interpolated_props 1 (frames.length - 1) n frames hu
    (fun _ => by omega)
  have hout : ∀ j c, ¬ (1 < j ∧ j < frames.length - 1) →
      scoreAt (interpolated 1 (frames.length - 1) frames) j c = scoreAt frames j c :=
    fun j c hj => scoreAt_congr _ _ j c (o1 j hj)
  have hsil' : ∀ j, 1 ≤ j → j < (interpolated 1 (frames.length - 1) frames).length →
      scoreAt (interpolated 1 (frames.length - 1) frames) j 0 = 1 := by
    intro j h1 h2
    rw [l1] at h2
    by_cases hin : 1 < j ∧ j < frames.length - 1
    · rw [i1 j 0 hin.1 hin.2 (by omega), hsil 1 (le_refl 1) (by omega),
        hsil (frames.length - 1) (by omega) (by omega)]
      unfold SequencePostprocessing.Lerp
      ring
    · rw [hout j 0 hin]
      exact hsil j h1 h2
  rw [Postprocessing_silent _ n u1 hn hsil', l1]
  congr 1
  apply interpolated_fixed 1 (frames.length - 1) n _ u1 (fun _ => by rw [l1]; omega)
  intro j c h1 h2 hc
  rw [i1 j c h1 h2 hc, hout 1 c (by omega), hout (frames.length - 1) c (by omega)]

/-- Applying `Postprocessing` a second time to the result on a sequence with
frames that are not silent changes nothing: in the result the first frame that
is not silent is frame `E` or frame 3 and the frames between it and frame 1
already hold their interpolated values, and the last frame that is not silent is
the last frame or the one before it. -/
theorem Postprocessing_idem_found (frames : List FLipSyncFrame) (n : Nat)
    (hu : Uniform n frames) (hn : 1 ≤ n) (E S : Nat) (hE : 1 ≤ E) (hES : E ≤ S)
    (hS : S < frames.length)
    (hsilE : ∀ j, 1 ≤ j → j < E → scoreAt frames j 0 = 1) (hnsE : scoreAt frames E 0 ≠ 1)
    (hnsS : scoreAt frames S 0 ≠ 1)
    (hsilS : ∀ j, S < j → j < frames.length → scoreAt frames j 0 = 1) :
    SequencePostprocessing.Postprocessing
        (interpolated S (frames.length - 1) (interpolated 1 E frames)) =
      some (interpolated S (frames.length - 1) (interpolated 1 E frames)) := by
  obtain ⟨l1, u1, -, o1, i1⟩ := interpolated_props 1 E n frames hu (fun _ => by omega)
  obtain ⟨l2, u2, -, o2, i2⟩ := interpolated_props S (frames.length - 1) n
    (interpolated 1 E frames) u1 (fun _ => by rw [l1]; omega)
  -- scores of the result outside and inside the two interpolated stretches
  have s1 : ∀ j c, ¬ (1 < j ∧ j < E) →
      scoreAt (interpolated 1 E frames) j c = scoreAt frames j c :=
    fun j c hj => scoreAt_congr _ _ j c (o1 j hj)
  have s2 : ∀ j c, ¬ (S < j ∧ j < frames.length - 1) →
      scoreAt (interpolated S (frames.length - 1) (interpolated 1 E frames)) j c =
        scoreAt (interpolated 1 E frames) j c :=
    fun j c hj => scoreAt_congr _ _ j c (o2 j hj)
  generalize hR : interpolated S (frames.length - 1) (interpolated 1 E frames) = R
    at l2 u2 i2 s2
  -- the first frame of the result that is not silent
  have hEex : ∃ E', 1 ≤ E' ∧ E' ≤ E ∧
      (∀ j, 1 ≤ j → j < E' → scoreAt R j 0 = 1) ∧ scoreAt R E' 0 ≠ 1 ∧
      (∀ j c, 1 < j → j < E' → c < n →
        scoreAt R j c =
          SequencePostprocessing.Lerp (scoreAt R 1 c) (scoreAt R E' c)
            (((j - 1 - 1 : Nat) : ℚ) / ((E' - 1 : Nat) : ℚ))) := by
    by_cases h2 : E ≤ 2
    · refine ⟨E, hE, le_refl E, ?_, ?_, ?_⟩
      · intro j h1 hj
        rw [s2 j 0 (by omega), s1 j 0 (by omega)]
        exact hsilE j h1 hj
      · rw [s2 E 0 (by omega), s1 E 0 (by omega)]
        exact hnsE
      · intro j c h1 hj _
        omega
    · have h2R : ∀ c, c < n → scoreAt R 2 c = scoreAt frames 1 c := by
        intro c hc
        rw [s2 2 c (by omega), i1 2 c (by omega) (by omega) hc]
        exact Lerp_zero_step _ _ _
      refine ⟨3, by omega, by omega, ?_, ?_, ?_⟩
      · intro j h1 hj
        have : j = 1 ∨ j = 2 := by omega
        rcases this with h | h
        · subst h
          rw [s2 1 0 (by omega), s1 1 0 (by omega)]
          exact hsilE 1 (le_refl 1) (by omega)
        · subst h
          rw [h2R 0 (by omega)]
          exact hsilE 1 (le_refl 1) (by omega)
      · rw [s2 3 0 (by omega)]
        by_cases h3 : E = 3
        · rw [s1 3 0 (by omega), ← h3]
          exact hnsE
        · rw [i1 3 0 (by omega) (by omega) (by omega)]
          exact Lerp_ne_one _ _ _ _ (by omega)
            (Or.inr ⟨hsilE 1 (le_refl 1) (by omega), hnsE, by omega⟩)
      · intro j c h1 hj hc
        have hj2 : j = 2 := by omega
        subst hj2
        rw [h2R c hc, s2 1 c (by omega), s1 1 c (by omega)]
        exact (Lerp_zero_step _ _ _).symm
  -- the last frame of the result that is not silent
  have hSex : ∃ S', S ≤ S' ∧ S' < frames.length ∧ frames.length - 1 - 1 ≤ S' ∧
      scoreAt R S' 0 ≠ 1 ∧ (∀ j, S' < j → j < frames.length → scoreAt R j 0 = 1) := by
    have hSE : ∀ c, scoreAt (interpolated 1 E frames) S c = scoreAt frames S c :=
      fun c => s1 S c (by omega)
    by_cases hlast : S = frames.length - 1
    · refine ⟨S, le_refl S, hS, by omega, ?_, ?_⟩
      · rw [s2 S 0 (by omega), hSE]
        exact hnsS
      · intro j h1 hj
        omega
    · refine ⟨frames.length - 1 - 1, by omega, by omega, le_refl _, ?_, ?_⟩
      · by_cases hS1 : S = frames.length - 1 - 1
        · rw [← hS1, s2 S 0 (by omega), hSE]
          exact hnsS
        · rw [i2 (frames.length - 1 - 1) 0 (by omega) (by omega) (by omega), hSE,
            s1 (frames.length - 1) 0 (by omega)]
          exact Lerp_ne_one _ _ _ _ (by omega)
            (Or.inl ⟨hnsS, hsilS (frames.length - 1) (by omega) (by omega)⟩)
      · intro j h1 hj
        have hjl : j = frames.length - 1 := by omega
        subst hjl
        rw [s2 (frames.length - 1) 0 (by omega), s1 (frames.length - 1) 0 (by omega)]
        exact hsilS (frames.length - 1) (by omega) (by omega)
  obtain ⟨E', e1, e2, e3, e4, e5⟩ := hEex
  obtain ⟨S', f1, f2, f3, f4, f5⟩ := hSex
  have hfix1 : interpolated 1 E' R = R :=
    interpolated_fixed 1 E' n R u2 (fun _ => by rw [l2, l1]; omega) e5
  have hfix2 : interpolated S' (frames.length - 1) R = R :=
    interpolated_fixed S' (frames.length - 1) n R u2 (fun _ => by rw [l2, l1]; omega)
      (fun j c h1 h2 _ => by omega)
  have hfound := Postprocessing_found R n u2 hn E' S' e1 (by omega) (by rw [l2, l1]; exact f2)
    e3 e4 f4 (fun j h1 h2 => f5 j h1 (by rw [l2, l1] at h2; exact h2))
  rw [hfound, hfix1, l2, l1, hfix2]

/-- C28. For every frame sequence whose frames all carry the same non-zero
number of viseme scores, `Postprocessing` returns, and applying it to its result
returns that result again. -/
theorem C28_idempotent (frames : List FLipSyncFrame) (n : Nat) (hu : Uniform n frames)
    (hn : 1 ≤ n) :
    ∃ R, SequencePostprocessing.Postprocessing frames = some R ∧
      SequencePostprocessing.Postprocessing R = some R := by
  rcases nonSilent_cases frames with hsil | ⟨E, S, hE, hES, hS, h1, h2, h3, h4⟩
  · exact ⟨_, Postprocessing_silent frames n hu hn hsil,
      Postprocessing_idem_silent frames n hu hn hsil⟩
  · exact ⟨_, Postprocessing_found frames n hu hn E S hE hES hS h1 h2 h3 h4,
      Postprocessing_idem_found frames n hu hn E S hE hES hS h1 h2 h3 h4⟩

/-- C28 on a seven-frame sequence with `E = 4` and `S = 4`: the first
application changes the frames 3 and 5 and the second application returns the
same sequence. -/
theorem C28_idempotent_witness :
    ∃ R, SequencePostprocessing.Postprocessing
        ({ VisemeScores := [1, 0], LaughterScore := 0 } :: leadingSilence ++
          [{ VisemeScores := [1, 0], LaughterScore := 0 },
            { VisemeScores := [1, 0], LaughterScore := 0 }]) = some R ∧
      SequencePostprocessing.Postprocessing R = some R ∧
      scoreAt R 3 0 = 2 / 3 ∧ scoreAt R 5 0 = 0 := by
  obtain ⟨R, h1, h2⟩ :=
    C28_idempotent
      ({ VisemeScores := [1, 0], LaughterScore := 0 } :: leadingSilence ++
          [{ VisemeScores := [1, 0], LaughterScore := 0 },
            { VisemeScores := [1, 0], LaughterScore := 0 }]) 2
      (by unfold Uniform; decide) (by decide)
  have hR : SequencePostprocessing.Postprocessing
      ({ VisemeScores := [1, 0], LaughterScore := 0 } :: leadingSilence ++
          [{ VisemeScores := [1, 0], LaughterScore := 0 },
            { VisemeScores := [1, 0], LaughterScore := 0 }]) =
      some [ { VisemeScores := [1, 0], LaughterScore := 0 },
             { VisemeScores := [1, 0], LaughterScore := 0 },
             { VisemeScores := [1, 0], LaughterScore := 0 },
             { VisemeScores := [2 / 3, 1 / 3], LaughterScore := 0 },
             { VisemeScores := [0, 1], LaughterScore := 0 },
             { VisemeScores := [0, 1], LaughterScore := 0 },
             { VisemeScores := [1, 0], LaughterScore := 0 } ] := by decide!
  rw [hR] at h1
  have hRR := Option.some.inj h1
  subst hRR
  exact ⟨_, hR, h2, by decide!, by decide!⟩

/-- What `AppendShutYourMouthSeq` enqueues for a last frame `L` with 15 scores:
nothing when `L` is silent, and otherwise the ten frames left by the
interpolation between `L` and nine pure-silence frames. -/
theorem AppendShutYourMouthSeq_eq (c : ULipSystemComponent) (Seq : List FLipSyncFrame)
    (LastIndex : Nat) (L : FLipSyncFrame) (hseq : c.Sequence = some Seq)
    (hL : Seq[LastIndex]? = some L) (hlen : L.VisemeScores.length = 15) :
    c.AppendShutYourMouthSeq (LastIndex : Int) =
      some { c with
        AdditionalFrames := c.AdditionalFrames ++
          (if scoreAt [L] 0 0 ≠ 1 then
            interpolated 0 9
              (L :: List.replicate 9 { VisemeScores := silenceScores, LaughterScore := 0 })
          else []),
        bAdditionalFramesAdded := true } := by
  have h0 := getElem?_eq_scoreAt [L] 0 0 L rfl (by rw [hlen]; decide)
  unfold ULipSystemComponent.AppendShutYourMouthSeq
  rw [if_neg (by omega)]
  simp only [Option.bind_eq_bind, hseq, Option.some_bind, Int.toNat_ofNat, hL]
  unfold SequencePostprocessing.VisemesScoresValidator
  rw [h0]
  by_cases hns : scoreAt [L] 0 0 ≠ 1
  · have hu : Uniform 15
        (L :: List.replicate 9 ({ VisemeScores := silenceScores, LaughterScore := 0 } :
          FLipSyncFrame)) := by
      intro f hf
      rcases List.mem_cons.mp hf with h | h
      · rw [h]; exact hlen
      · rw [List.eq_of_mem_replicate h]; rfl
    have hpost : SequencePostprocessing.PostprocessingInterval 0 9 9
        (L :: List.replicate 9 { VisemeScores := silenceScores, LaughterScore := 0 })
        = some (overwritten 0 9 (between 0 9)
          (L :: List.replicate 9 { VisemeScores := silenceScores, LaughterScore := 0 })) :=
      PostprocessingInterval_eq 0 9 15 _ hu (by decide)
        (by rw [List.length_cons, List.length_replicate]; decide)
    have hset : SequencePostprocessing.setAt
        (List.replicate 10 ({ VisemeScores := silenceScores, LaughterScore := 0 } : FLipSyncFrame))
        0 L = some (L :: List.replicate 9 { VisemeScores := silenceScores, LaughterScore := 0 }) :=
      rfl
    have hI : interpolated 0 9
        (L :: List.replicate 9 ({ VisemeScores := silenceScores, LaughterScore := 0 } :
          FLipSyncFrame)) = overwritten 0 9 (between 0 9)
          (L :: List.replicate 9 { VisemeScores := silenceScores, LaughterScore := 0 }) := by
      unfold interpolated
      rw [if_pos (by decide)]
    simp only [ne_eq, hns, not_false_eq_true, if_true, Option.some_bind, hset, hpost]
    rw [mapM_getElem?_ten _ (by simp only [overwritten, List.length_mapIdx]; rfl), hI]
    rfl
  · simp only [ne_eq, hns, if_false, Option.some_bind, Bool.false_eq_true, List.append_nil]

/-- C22. If every viseme score of every frame of a sequence (all frames with
the same non-zero number of scores) lies in `[0, 1]`, then `Postprocessing`
returns a sequence in which every viseme score lies in `[0, 1]`; and for a last
frame `L` with 15 scores in `[0, 1]`, every frame that `AppendShutYourMouthSeq`
enqueues (ten when `L` is not silent) has all its scores in `[0, 1]`. -/
theorem C22_range_preserved (frames : List FLipSyncFrame) (n : Nat) (hu : Uniform n frames)
    (hn : 1 ≤ n) (hr : InRange n frames) (c : ULipSystemComponent)
    (Seq : List FLipSyncFrame) (LastIndex : Nat) (L : FLipSyncFrame)
    (hseq : c.Sequence = some Seq) (hL : Seq[LastIndex]? = some L)
    (hlen : L.VisemeScores.length = 15) (hLr : InRange 15 [L]) :
    (∃ R, SequencePostprocessing.Postprocessing frames = some R ∧ InRange n R) ∧
    (∃ T, c.AppendShutYourMouthSeq (LastIndex : Int) =
        some { c with AdditionalFrames := c.AdditionalFrames ++ T,
                      bAdditionalFramesAdded := true } ∧
      (scoreAt [L] 0 0 ≠ 1 → T.length = 10) ∧ InRange 15 T) := by
  constructor
  · obtain ⟨s1, e1, s2, e2, h1, h2, hP⟩ := Postprocessing_total frames n hu hn
    obtain ⟨l1, u1, -⟩ := interpolated_props s1 e1 n frames hu h1
    exact ⟨_, hP, interpolated_InRange s2 e2 n _ u1 (by rw [l1]; exact h2)
      (interpolated_InRange s1 e1 n frames hu h1 hr)⟩
  · refine ⟨_, AppendShutYourMouthSeq_eq c Seq LastIndex L hseq hL hlen, ?_, ?_⟩
    · intro hns
      rw [if_pos hns]
      unfold interpolated
      rw [if_pos (by decide)]
      simp only [overwritten, List.length_mapIdx]
      rfl
    · by_cases hns : scoreAt [L] 0 0 ≠ 1
      · rw [if_pos hns]
        have hu15 : Uniform 15
            (L :: List.replicate 9 ({ VisemeScores := silenceScores, LaughterScore := 0 } :
              FLipSyncFrame)) := by
          intro f hf
          rcases List.mem_cons.mp hf with h | h
          · rw [h]; exact hlen
          · rw [List.eq_of_mem_replicate h]; rfl
        apply interpolated_InRange 0 9 15 _ hu15
          (fun _ => by rw [List.length_cons, List.length_replicate]; decide)
        intro j hj cat hcat
        cases j with
        | zero => exact hLr 0 (by rw [List.length_singleton]; decide) cat hcat
        | succ k =>
          have hk : k < 9 := by
            have : k + 1 < 10 := hj
            omega
          have hs : scoreAt (L :: List.replicate 9
              ({ VisemeScores := silenceScores, LaughterScore := 0 } : FLipSyncFrame)) (k + 1) cat
              = silenceScores[cat]?.getD 0 := by
            unfold scoreAt
            rw [List.getElem?_cons_succ, List.getElem?_replicate, if_pos hk]
            rfl
          rw [hs]
          have : ∀ cat, cat < 15 → 0 ≤ silenceScores[cat]?.getD 0 ∧
              silenceScores[cat]?.getD 0 ≤ 1 := by decide!
          exact this cat hcat
      · rw [if_neg hns]
        intro j hj
        exact absurd hj (Nat.not_lt_zero j)

/-- C22 on a five-frame sequence with `E = 4` and on `finishedPlayback`: the
smoothed sequence and the ten closing frames have all their scores in
`[0, 1]`. -/
theorem C22_range_preserved_witness :
    (∃ R, SequencePostprocessing.Postprocessing
        ({ VisemeScores := [1, 0], LaughterScore := 0 } :: leadingSilence) = some R ∧
      InRange 2 R) ∧
    (∃ T, (finishedPlayback.AppendShutYourMouthSeq 1).map (fun c => c.AdditionalFrames)
        = some T ∧ T.length = 10 ∧ InRange 15 T) := by
  obtain ⟨⟨R, h1, h2⟩, ⟨T, h3, h4, h5⟩⟩ :=
    C22_range_preserved ({ VisemeScores := [1, 0], LaughterScore := 0 } :: leadingSilence) 2
      (by unfold Uniform; decide) (by decide) (by unfold InRange; decide!)
      finishedPlayback
      [ { VisemeScores := silenceScores, LaughterScore := 0 },
        { VisemeScores := (0 : ℚ) :: 1 :: List.replicate 13 0, LaughterScore := 1 / 2 } ]
      1 { VisemeScores := (0 : ℚ) :: 1 :: List.replicate 13 0, LaughterScore := 1 / 2 }
      rfl rfl rfl (by unfold InRange; decide!)
  refine ⟨⟨R, h1, h2⟩, ⟨T, ?_, h4 (by decide!), h5⟩⟩
  have : ((1 : Nat) : Int) = 1 := rfl
  rw [this] at h3
  rw [h3]
  rfl

end MetaHuman
